import Mathlib

/-!
# Chunk mesh generation (`src/geometry.h`, `src/geometry.c`)

A shallow embedding of the voxel-chunk mesher.

Modelling conventions
* `uint8_t` / `uint32_t` values are natural numbers; every operation the C code performs in a
  fixed width carries its explicit `% 2 ^ w`.
* `int8_t` grid cells and `cube_type_e` values are integers (the conversion between them keeps
  the value; narrowing to the `uint8_t` field of `quad_desc_t` is `% 256`).
* `float` values are exact rationals; the conversion `(uint32_t) f` is truncation.
* `_unpack` returns a pointer to an array that lives in the block of its body; the caller
  holds a pointer to an array whose lifetime has ended. A read through it has no value, and a
  word computed from such a read is indeterminate: it is `none` in the `uv` field it is stored
  in. Counters, positions, normal flags and indices do not depend on it.
* Array reads and writes are bounds-checked: an access outside the object is `none`
  (undefined behaviour in C), never a made-up value.
* A `malloc`ed slot holds `none` until it is written.
-/

namespace Geometry

/-! ## Constants of `geometry.h` -/

abbrev MAX_BLOCK_TYPES : Nat := 8
abbrev CHUNK_SIZE : Nat := 16
abbrev CHUNK_HEIGHT : Nat := 64
abbrev V_MAX : Nat := 12288
abbrev I_MAX : Nat := 18432
abbrev START_CANARY_VAL : Nat := 0xDEADBEEF
abbrev MID_CANARY_VAL : Nat := 0xFEEDBEAD
abbrev END_CANARY_VAL : Nat := 0xCAFEBABE

/-- The macro `PACK(a, b)`:
`(uint32_t)(((uint32_t)(a * 0xFFFF) << 16) | ((uint32_t)(b * 0xFFFF) & 0xFFFF))`. -/
def PACK (a b : ℚ) : Nat :=
  ((((⌊a * 0xFFFF⌋₊ % 2 ^ 32) <<< 16) % 2 ^ 32) ||| ((⌊b * 0xFFFF⌋₊ % 2 ^ 32) &&& 0xFFFF)) % 2 ^ 32

/-- The macro `TX(n)`: `0.0625 * n`. -/
def TX (n : ℚ) : ℚ := 0.0625 * n

/-- The macro `SIZ`: `TX(1)`. -/
def SIZ : ℚ := TX 1

/-! ## Enumerations -/

/-- Values of `cube_face_idx_e`. -/
abbrev cube_face_idx_e := Nat
abbrev FACEIDX_BACK : cube_face_idx_e := 0
abbrev FACEIDX_FRONT : cube_face_idx_e := 1
abbrev FACEIDX_RIGHT : cube_face_idx_e := 2
abbrev FACEIDX_LEFT : cube_face_idx_e := 3
abbrev FACEIDX_BOTTOM : cube_face_idx_e := 4
abbrev FACEIDX_TOP : cube_face_idx_e := 5

/-- Values of `cube_type_e`. -/
abbrev cube_type_e := Int
abbrev CUBETYPE_AIR : cube_type_e := 0
abbrev CUBETYPE_GRASS : cube_type_e := 1
abbrev CUBETYPE_DIRT : cube_type_e := 2
abbrev CUBETYPE_STONE : cube_type_e := 3
abbrev CUBETYPE_SAND : cube_type_e := 4
abbrev CUBETYPE_LOG : cube_type_e := 5
abbrev CUBETYPE_LEAF : cube_type_e := 6

/-! ## Records -/

/-- The record `vertex_t`: three `uint8_t` coordinates, the `uint8_t` normal flag, the `uint32_t`
packed uv word. The word is `none` when it is indeterminate: computed from an object whose
lifetime had ended. -/
structure vertex_t where
  x : Nat
  y : Nat
  z : Nat
  n : Nat
  uv : Option Nat
deriving DecidableEq, Repr

/-- The record `chunk_data_t`: the storage of `int8_t types[CHUNK_SIZE][CHUNK_HEIGHT][CHUNK_SIZE]`
as the flat sequence of cells C lays it out in, `types[x][y][z]` being cell
`(x * CHUNK_HEIGHT + y) * CHUNK_SIZE + z`. -/
structure chunk_data_t where
  types : Nat → Int

/-- The read `blocks->types[x][y][z]`: defined when every index is inside its dimension. -/
def chunk_data_t.idx (blocks : chunk_data_t) (x y z : Nat) : Option Int :=
  if x < CHUNK_SIZE ∧ y < CHUNK_HEIGHT ∧ z < CHUNK_SIZE then
    some (blocks.types ((x * CHUNK_HEIGHT + y) * CHUNK_SIZE + z))
  else none

/-- The read `((int8_t *) blocks->types)[i]`: defined inside the array object. -/
def chunk_data_t.flat (blocks : chunk_data_t) (i : Nat) : Option Int :=
  if i < CHUNK_SIZE * CHUNK_HEIGHT * CHUNK_SIZE then some (blocks.types i) else none

/-- A heap block of `size` slots; a slot is `none` until something is stored in it. -/
structure buffer (α : Type) where
  size : Nat
  data : Nat → Option α

/-- The allocation `malloc(n * sizeof(α))`, taken to succeed: `n` unwritten slots. -/
def malloc (α : Type) (n : Nat) : Option (buffer α) :=
  some { size := n, data := fun _ => none }

/-- The store `buf[p] = a`: defined inside the block. -/
def buffer.write {α : Type} (buf : buffer α) (p : Nat) (a : α) : Option (buffer α) :=
  if p < buf.size then
    some { buf with data := fun q => if q = p then some a else buf.data q }
  else none

/-- The record `mesh_t`; a null buffer pointer is `none`. -/
structure mesh_t where
  v_rsrv : Nat
  i_rsrv : Nat
  v_cnt : Nat
  i_cnt : Nat
  __start_canary : Nat
  v_buf : Option (buffer vertex_t)
  __mid_canary : Nat
  i_buf : Option (buffer Nat)
  __end_canary : Nat

/-- The record `buf_offsets_t`. -/
structure buf_offsets_t where
  v_ofst : Nat
  i_ofst : Nat
  v_len : Nat
  i_len : Nat

/-- The record `chunk_t`; `blocks` is the pointed-to grid. -/
structure chunk_t where
  x : Int
  y : Int
  z : Int
  blocks : chunk_data_t
  buf_data : buf_offsets_t
  mesh : mesh_t
  staged : Bool
  visible : Bool
  age : Nat

/-- The record `quad_desc_t`, five `uint8_t` fields. -/
structure quad_desc_t where
  x : Nat
  y : Nat
  z : Nat
  type : Nat
  face : Nat
deriving DecidableEq, Repr

/-! ## Static tables -/

/-- The table `face_vertices[6][4]`, rows in index order (the designators put `RIGHT` at 2 and
`LEFT` at 3). -/
def face_vertices : List (List vertex_t) :=
  [ [ ⟨2, 0, 0, 16, some (PACK 0.0 0.0)⟩, ⟨0, 0, 0, 16, some (PACK SIZ 0.0)⟩,
      ⟨0, 2, 0, 16, some (PACK SIZ SIZ)⟩, ⟨2, 2, 0, 16, some (PACK 0.0 SIZ)⟩ ],
    [ ⟨0, 0, 2, 32, some (PACK 0.0 0.0)⟩, ⟨2, 0, 2, 32, some (PACK SIZ 0.0)⟩,
      ⟨2, 2, 2, 32, some (PACK SIZ SIZ)⟩, ⟨0, 2, 2, 32, some (PACK 0.0 SIZ)⟩ ],
    [ ⟨2, 0, 2, 2, some (PACK 0.0 0.0)⟩, ⟨2, 0, 0, 2, some (PACK SIZ 0.0)⟩,
      ⟨2, 2, 0, 2, some (PACK SIZ SIZ)⟩, ⟨2, 2, 2, 2, some (PACK 0.0 SIZ)⟩ ],
    [ ⟨0, 0, 0, 1, some (PACK 0.0 0.0)⟩, ⟨0, 0, 2, 1, some (PACK SIZ 0.0)⟩,
      ⟨0, 2, 2, 1, some (PACK SIZ SIZ)⟩, ⟨0, 2, 0, 1, some (PACK 0.0 SIZ)⟩ ],
    [ ⟨0, 0, 0, 8, some (PACK 0.0 0.0)⟩, ⟨2, 0, 0, 8, some (PACK SIZ 0.0)⟩,
      ⟨2, 0, 2, 8, some (PACK SIZ SIZ)⟩, ⟨0, 0, 2, 8, some (PACK 0.0 SIZ)⟩ ],
    [ ⟨0, 2, 2, 4, some (PACK 0.0 0.0)⟩, ⟨2, 2, 2, 4, some (PACK SIZ 0.0)⟩,
      ⟨2, 2, 0, 4, some (PACK SIZ SIZ)⟩, ⟨0, 2, 0, 4, some (PACK 0.0 SIZ)⟩ ] ]

/-- The table `uv_lookup[MAX_BLOCK_TYPES * 6]`: six entries per block type `0..6`, and the six
entries of type 7, which the initialiser leaves at zero. -/
def uv_lookup : List (ℚ × ℚ) :=
  [ (0.0, 0.0), (0.0, 0.0), (0.0, 0.0), (0.0, 0.0), (0.0, 0.0), (0.0, 0.0),
    (TX 1, TX 15), (TX 1, TX 15), (TX 1, TX 15), (TX 1, TX 15), (TX 2, TX 15), (TX 0, TX 15),
    (TX 2, TX 15), (TX 2, TX 15), (TX 2, TX 15), (TX 2, TX 15), (TX 2, TX 15), (TX 2, TX 15),
    (TX 3, TX 15), (TX 3, TX 15), (TX 3, TX 15), (TX 3, TX 15), (TX 3, TX 15), (TX 3, TX 15),
    (TX 4, TX 15), (TX 4, TX 15), (TX 4, TX 15), (TX 4, TX 15), (TX 4, TX 15), (TX 4, TX 15),
    (TX 6, TX 15), (TX 6, TX 15), (TX 6, TX 15), (TX 6, TX 15), (TX 5, TX 15), (TX 5, TX 15),
    (TX 7, TX 15), (TX 7, TX 15), (TX 7, TX 15), (TX 7, TX 15), (TX 7, TX 15), (TX 7, TX 15),
    (0, 0), (0, 0), (0, 0), (0, 0), (0, 0), (0, 0) ]

/-! ## `geometry.c` -/

/-- A value of type `float *` that points to an array of two floats: the two elements, and
whether the array is still alive when the pointer is used. -/
structure float_ptr where
  elt0 : ℚ
  elt1 : ℚ
  alive : Bool
deriving DecidableEq, Repr

/-- The read `p[k]`: the element while the array is alive and `k` is inside it; no value once
the lifetime of the array has ended. -/
def float_ptr.read (p : float_ptr) (k : Nat) : Option ℚ :=
  if p.alive then
    if k = 0 then some p.elt0 else if k = 1 then some p.elt1 else none
  else none

/-- The function `_unpack`: the two 16-bit halves of the word, each divided by `65535.0`, are
put in the compound literal `(float[]) {a, b}`, whose address is returned. The literal has
automatic storage in the block of the function body, so on return the array is no longer
alive. -/
def _unpack (packed : Nat) : float_ptr :=
  let a : ℚ := ((packed >>> 16 : Nat) : ℚ) / 65535.0
  let b : ℚ := ((packed &&& 0xFFFF : Nat) : ℚ) / 65535.0
  { elt0 := a, elt1 := b, alive := false }

/-- The function `_get_neighbour`: a `switch` over the six face indices; any other `face` runs
off the end of the function without a value. -/
def _get_neighbour (x y z : Nat) (face : cube_face_idx_e) (blocks : chunk_data_t) :
    Option cube_type_e :=
  if face = FACEIDX_BACK then
    if z = 0 then some CUBETYPE_AIR else blocks.idx x y (z - 1)
  else if face = FACEIDX_FRONT then
    if z = CHUNK_SIZE - 1 then some CUBETYPE_AIR else blocks.idx x y (z + 1)
  else if face = FACEIDX_RIGHT then
    if x ≥ CHUNK_SIZE - 1 then some CUBETYPE_AIR else blocks.idx (x + 1) y z
  else if face = FACEIDX_LEFT then
    if x = 0 then some CUBETYPE_AIR else blocks.idx (x - 1) y z
  else if face = FACEIDX_BOTTOM then
    if y = 0 then some CUBETYPE_AIR else blocks.idx x (y - 1) z
  else if face = FACEIDX_TOP then
    if y = CHUNK_HEIGHT - 1 then some CUBETYPE_AIR else blocks.idx x (y + 1) z
  else none

/-- The state `_add_face_to_mesh` works on through its four pointer arguments. -/
structure emit_state where
  i_cnt : Nat
  v_cnt : Nat
  indices : buffer Nat
  vertices : buffer vertex_t

/-- The body of the first loop of `_add_face_to_mesh` for one template vertex: unpack its uv, add
the atlas origin `uv_lookup[type * 6 + face]` to `uv[0]` and `uv[1]`, pack again, and add twice
the voxel position to the three `uint8_t` coordinates. The reads of `uv[0]` and `uv[1]` go
through the pointer `_unpack` returned; when they have no value the packed word is
indeterminate. -/
def transform_vertex (desc : quad_desc_t) (vert : vertex_t) : Option vertex_t :=
  match uv_lookup[(desc.type * 6) + desc.face]? with
  | none => none
  | some t =>
    let word : Option Nat :=
      match vert.uv with
      | none => none
      | some packed =>
        let uv := _unpack packed
        match uv.read 0, uv.read 1 with
        | some u0, some u1 => some (PACK (u0 + t.1) (u1 + t.2))
        | _, _ => none
    some { x := (vert.x + desc.x * 2) % 256,
           y := (vert.y + desc.y * 2) % 256,
           z := (vert.z + desc.z * 2) % 256,
           n := vert.n,
           uv := word }

/-- The local array `verts[4]` of `_add_face_to_mesh` after its first loop. -/
def quad_vertices (desc : quad_desc_t) : Option (List vertex_t) :=
  match face_vertices[desc.face]? with
  | some [t0, t1, t2, t3] =>
    match transform_vertex desc t0, transform_vertex desc t1,
          transform_vertex desc t2, transform_vertex desc t3 with
    | some a0, some a1, some a2, some a3 => some [a0, a1, a2, a3]
    | _, _, _, _ => none
  | _ => none

/-- The function `_add_face_to_mesh`. The vertex stores are addressed in `size_t`, the index
stores and the stored values in `uint32_t`, as are the two counters. -/
def _add_face_to_mesh (desc : quad_desc_t) (s : emit_state) : Option emit_state :=
  match quad_vertices desc with
  | some [a0, a1, a2, a3] =>
    let v_ofst := s.v_cnt
    let i_ofst := s.i_cnt
    do
      let vs ← s.vertices.write (v_ofst + 0) a0
      let vs ← vs.write (v_ofst + 1) a1
      let vs ← vs.write (v_ofst + 2) a2
      let vs ← vs.write (v_ofst + 3) a3
      let v_cnt := (s.v_cnt + 4) % 2 ^ 32
      let is ← s.indices.write ((i_ofst + 0) % 2 ^ 32) ((v_ofst + 0) % 2 ^ 32)
      let is ← is.write ((i_ofst + 1) % 2 ^ 32) ((v_ofst + 2) % 2 ^ 32)
      let is ← is.write ((i_ofst + 2) % 2 ^ 32) ((v_ofst + 1) % 2 ^ 32)
      let is ← is.write ((i_ofst + 3) % 2 ^ 32) ((v_ofst + 0) % 2 ^ 32)
      let is ← is.write ((i_ofst + 4) % 2 ^ 32) ((v_ofst + 3) % 2 ^ 32)
      let is ← is.write ((i_ofst + 5) % 2 ^ 32) ((v_ofst + 2) % 2 ^ 32)
      pure { i_cnt := (s.i_cnt + 6) % 2 ^ 32, v_cnt := v_cnt, indices := is, vertices := vs }
  | _ => none

/-- The function `canaries_failed`. -/
def canaries_failed (c : chunk_t) : Bool :=
  (c.mesh.__start_canary != START_CANARY_VAL)
    || (c.mesh.__mid_canary != MID_CANARY_VAL)
    || (c.mesh.__end_canary != END_CANARY_VAL)

/-- The function `is_transparent`. -/
def is_transparent (type : cube_type_e) : Bool :=
  if type = CUBETYPE_AIR then true
  else if type = CUBETYPE_LEAF then true
  else false

/-- The ways `chunk_generate_mesh` ends without returning: its three `exit(1)` calls, and an
access the model leaves undefined. -/
inductive exit_t where
  | alloc_failed
  | buffer_overflow
  | buffer_overrun
  | undefined
deriving DecidableEq, Repr

/-- The rounds `i, i + 1, ..., i + k - 1` of a counted loop, threading the state; an exit
inside the body ends the run. -/
def for_loop_from {σ : Type} (body : Nat → σ → Except exit_t σ) :
    Nat → Nat → σ → Except exit_t σ
  | 0, _, s => .ok s
  | k + 1, i, s =>
    match body i s with
    | .ok s1 => for_loop_from body k (i + 1) s1
    | .error e => .error e

/-- The loop `for (i = 0; i < n; i++) body`. -/
def for_loop {σ : Type} (body : Nat → σ → Except exit_t σ) (n : Nat) (s : σ) :
    Except exit_t σ :=
  for_loop_from body n 0 s

/-- The body of the face loop of `chunk_generate_mesh`. -/
def face_body (blocks : chunk_data_t) (x y z : Nat) (type : cube_type_e) (face : Nat)
    (s : emit_state) : Except exit_t emit_state :=
  match _get_neighbour x y z face blocks with
  | none => .error .undefined
  | some nhbr =>
    if !is_transparent nhbr then .ok s
    else
      match _add_face_to_mesh
          { x := x, y := y, z := z, type := (type % 256).toNat, face := face } s with
      | none => .error .undefined
      | some s1 => .ok s1

/-- The body of the voxel loop of `chunk_generate_mesh`. -/
def voxel_body (blocks : chunk_data_t) (i : Nat) (s : emit_state) : Except exit_t emit_state :=
  match blocks.flat i with
  | none => .error .undefined
  | some type =>
    if type = CUBETYPE_AIR then .ok s
    else
      let x := (i / (CHUNK_HEIGHT * CHUNK_SIZE)) % 256
      let y := ((i / CHUNK_SIZE) % CHUNK_HEIGHT) % 256
      let z := (i % CHUNK_SIZE) % 256
      if (s.v_cnt + 24) % 2 ^ 32 ≥ V_MAX then .error .buffer_overflow
      else for_loop (face_body blocks x y z type) 6 s

/-- The function `chunk_generate_mesh`: the chunk as the call leaves it, or the way the run
ended. -/
def chunk_generate_mesh (c : chunk_t) : Except exit_t chunk_t :=
  let c : chunk_t :=
    { c with mesh := { c.mesh with __start_canary := START_CANARY_VAL,
                                   __mid_canary := MID_CANARY_VAL,
                                   __end_canary := END_CANARY_VAL } }
  match malloc vertex_t V_MAX, malloc Nat I_MAX with
  | some v_buf, some i_buf =>
    match for_loop (voxel_body c.blocks) (CHUNK_SIZE * CHUNK_HEIGHT * CHUNK_SIZE)
        { i_cnt := 0, v_cnt := 0, indices := i_buf, vertices := v_buf } with
    | .error e => .error e
    | .ok s =>
      if canaries_failed c then .error .buffer_overrun
      else if s.i_cnt = 0 then
        .ok { c with mesh := { c.mesh with v_rsrv := 0, i_rsrv := 0, v_cnt := 0, i_cnt := 0,
                                           v_buf := none, i_buf := none } }
      else
        .ok { c with mesh := { c.mesh with v_rsrv := V_MAX, i_rsrv := I_MAX,
                                           v_cnt := s.v_cnt, i_cnt := s.i_cnt,
                                           v_buf := some s.vertices, i_buf := some s.indices } }
  | _, _ => .error .alloc_failed

/-! ## The mesh as a function of the emitted quads -/

/-- The order in which `_add_face_to_mesh` references the four vertices of a quad. -/
def index_pattern : List Nat := [0, 2, 1, 0, 3, 2]

/-- Slot `q` of the vertex buffer once the quads of `L` have been appended in order. -/
def vertex_at (L : List quad_desc_t) (q : Nat) : Option vertex_t :=
  match L[q / 4]? with
  | some d =>
    match quad_vertices d with
    | some vs => vs[q % 4]?
    | none => none
  | none => none

/-- Slot `q` of the index buffer once `n` quads have been appended. -/
def index_at (n : Nat) (q : Nat) : Option Nat :=
  if q / 6 < n then
    match index_pattern[q % 6]? with
    | some r => some (4 * (q / 6) + r)
    | none => none
  else none

/-- The emission state after the quads of `L` have been appended to fresh buffers. -/
def state_of (L : List quad_desc_t) : emit_state :=
  { i_cnt := 6 * L.length, v_cnt := 4 * L.length,
    indices := { size := I_MAX, data := index_at L.length },
    vertices := { size := V_MAX, data := vertex_at L } }

/-! ## The quads a run emits -/

/-- A cell value whose `uint8_t` narrowing indexes inside `uv_lookup` for every face. -/
def valid_type (t : Int) : Prop := (t % 256).toNat < MAX_BLOCK_TYPES

instance (t : Int) : Decidable (valid_type t) := by unfold valid_type; infer_instance

/-- The `uint8_t x` the voxel loop computes from the flat index `i`. -/
def voxel_x (i : Nat) : Nat := (i / (CHUNK_HEIGHT * CHUNK_SIZE)) % 256

/-- The `uint8_t y` the voxel loop computes from the flat index `i`. -/
def voxel_y (i : Nat) : Nat := ((i / CHUNK_SIZE) % CHUNK_HEIGHT) % 256

/-- The `uint8_t z` the voxel loop computes from the flat index `i`. -/
def voxel_z (i : Nat) : Nat := (i % CHUNK_SIZE) % 256

/-- The descriptor the face loop builds for face `f` of the voxel at flat index `i`. -/
def quad_of (b : chunk_data_t) (i f : Nat) : quad_desc_t :=
  { x := voxel_x i, y := voxel_y i, z := voxel_z i, type := (b.types i % 256).toNat, face := f }

/-- Whether the face loop finds a transparent neighbour on face `f` of the voxel at `i`. -/
def face_visible (b : chunk_data_t) (i f : Nat) : Bool :=
  match _get_neighbour (voxel_x i) (voxel_y i) (voxel_z i) f b with
  | some t => is_transparent t
  | none => false

/-- The descriptors of the faces below `m` of the voxel at `i` that have a transparent
neighbour, in face order. -/
def faces_upto (b : chunk_data_t) (i m : Nat) : List quad_desc_t :=
  ((List.range m).filter (face_visible b i)).map (quad_of b i)

/-- The descriptors the voxel at `i` contributes: none for AIR. -/
def voxel_faces (b : chunk_data_t) (i : Nat) : List quad_desc_t :=
  if b.types i = CUBETYPE_AIR then [] else faces_upto b i 6

/-- The descriptors contributed by the `k` voxels from flat index `i` on, in traversal
order. -/
def visible_from (b : chunk_data_t) : Nat → Nat → List quad_desc_t
  | _, 0 => []
  | i, k + 1 => voxel_faces b i ++ visible_from b (i + 1) k

/-- The descriptors contributed by the voxels below `n`, in traversal order. -/
def visible_upto (b : chunk_data_t) (n : Nat) : List quad_desc_t :=
  visible_from b 0 n

/-- The descriptors contributed by the whole chunk. -/
def visible (b : chunk_data_t) : List quad_desc_t :=
  visible_upto b (CHUNK_SIZE * CHUNK_HEIGHT * CHUNK_SIZE)

/-- What an outcome of the first `n` rounds of the voxel loop tells about the grid. -/
def loop_post (b : chunk_data_t) (n : Nat) : Except exit_t emit_state → Prop
  | .ok s =>
    s = state_of (visible_upto b n) ∧ 4 * (visible_upto b n).length < V_MAX ∧
      (∀ i < n, b.types i ≠ CUBETYPE_AIR → 4 * (visible_upto b i).length + 24 < V_MAX) ∧
      ∀ i < n, valid_type (b.types i) ∨ voxel_faces b i = []
  | .error .buffer_overflow =>
    ∃ i < n, b.types i ≠ CUBETYPE_AIR ∧ V_MAX ≤ 4 * (visible_upto b i).length + 24
  | .error .undefined => ∃ i < n, ¬ valid_type (b.types i)
  | .error _ => False

/-- The chunk `chunk_generate_mesh` returns when its voxel loop has emitted the quads of `L`. -/
def mesh_result (c : chunk_t) (L : List quad_desc_t) : chunk_t :=
  if L.length = 0 then
    { c with mesh := { v_rsrv := 0, i_rsrv := 0, v_cnt := 0, i_cnt := 0,
                       __start_canary := START_CANARY_VAL, v_buf := none,
                       __mid_canary := MID_CANARY_VAL, i_buf := none,
                       __end_canary := END_CANARY_VAL } }
  else
    { c with mesh := { v_rsrv := V_MAX, i_rsrv := I_MAX,
                       v_cnt := 4 * L.length, i_cnt := 6 * L.length,
                       __start_canary := START_CANARY_VAL,
                       v_buf := some { size := V_MAX, data := vertex_at L },
                       __mid_canary := MID_CANARY_VAL,
                       i_buf := some { size := I_MAX, data := index_at L.length },
                       __end_canary := END_CANARY_VAL } }

/-- What an outcome of `chunk_generate_mesh` tells about the chunk. -/
def generate_post (c : chunk_t) : Except exit_t chunk_t → Prop
  | .ok c1 =>
    c1 = mesh_result c (visible c.blocks) ∧ 4 * (visible c.blocks).length < V_MAX ∧
      (∀ i < CHUNK_SIZE * CHUNK_HEIGHT * CHUNK_SIZE, c.blocks.types i ≠ CUBETYPE_AIR →
        4 * (visible_upto c.blocks i).length + 24 < V_MAX) ∧
      ∀ i < CHUNK_SIZE * CHUNK_HEIGHT * CHUNK_SIZE,
        valid_type (c.blocks.types i) ∨ voxel_faces c.blocks i = []
  | .error .buffer_overflow =>
    ∃ i < CHUNK_SIZE * CHUNK_HEIGHT * CHUNK_SIZE, c.blocks.types i ≠ CUBETYPE_AIR ∧
      V_MAX ≤ 4 * (visible_upto c.blocks i).length + 24
  | .error .undefined =>
    ∃ i < CHUNK_SIZE * CHUNK_HEIGHT * CHUNK_SIZE, ¬ valid_type (c.blocks.types i)
  | .error _ => False

/-- A grid all of whose cells are valid block types. -/
def valid_grid (b : chunk_data_t) : Prop :=
  ∀ i < CHUNK_SIZE * CHUNK_HEIGHT * CHUNK_SIZE, valid_type (b.types i)

/-- Every voxel that contributes a quad holds a valid block type. -/
def defined_everywhere (b : chunk_data_t) : Prop :=
  ∀ i < CHUNK_SIZE * CHUNK_HEIGHT * CHUNK_SIZE, valid_type (b.types i) ∨ voxel_faces b i = []

/-- Every round of the voxel loop that meets a non-AIR voxel finds room for 24 vertices. -/
def room_everywhere (b : chunk_data_t) : Prop :=
  ∀ i < CHUNK_SIZE * CHUNK_HEIGHT * CHUNK_SIZE, b.types i ≠ CUBETYPE_AIR →
    4 * (visible_upto b i).length + 24 < V_MAX

/-! ## The face count of the specification -/

/-- The unit step of each face direction: BACK `z-1`, FRONT `z+1`, RIGHT `x+1`, LEFT `x-1`,
BOTTOM `y-1`, TOP `y+1`. -/
def face_step : Nat → Int × Int × Int
  | 0 => (0, 0, -1)
  | 1 => (0, 0, 1)
  | 2 => (1, 0, 0)
  | 3 => (-1, 0, 0)
  | 4 => (0, -1, 0)
  | 5 => (0, 1, 0)
  | _ => (0, 0, 0)

/-- The grid value at integer coordinates: `types[x][y][z]` inside the chunk, nothing outside. -/
def cell_at (b : chunk_data_t) (x y z : Int) : Option Int :=
  if 0 ≤ x ∧ x < 16 ∧ 0 ≤ y ∧ y < 64 ∧ 0 ≤ z ∧ z < 16 then
    some (b.types ((x.toNat * 64 + y.toNat) * 16 + z.toNat))
  else none

/-- The voxel one step from `(x, y, z)` in direction `f`, nothing when the step leaves the
chunk. -/
def adjacent (b : chunk_data_t) (x y z f : Nat) : Option Int :=
  cell_at b (x + (face_step f).1) (y + (face_step f).2.1) (z + (face_step f).2.2)

/-- Whether the voxel in front of `(x, y, z)` in direction `d` is transparent: AIR, LEAF or
outside the chunk. -/
def front_transparent (b : chunk_data_t) (x y z d : Nat) : Bool :=
  match adjacent b x y z d with
  | none => true
  | some n => decide (n = CUBETYPE_AIR ∨ n = CUBETYPE_LEAF)

/-- Whether the pair (voxel `(x, y, z)`, direction `d`) counts: the voxel is not AIR and the
voxel next to it in direction `d` is AIR, LEAF or outside the chunk. -/
def exposed (b : chunk_data_t) (x y z d : Nat) : Bool :=
  match cell_at b x y z with
  | some t => decide (t ≠ CUBETYPE_AIR) && front_transparent b x y z d
  | none => false

/-- Whether the voxel `(x, y, z)` is opaque (neither AIR nor LEAF) and the voxel in front of it
in direction `d` is transparent. -/
def opaque_exposed (b : chunk_data_t) (x y z d : Nat) : Bool :=
  match cell_at b x y z with
  | some t => decide (t ≠ CUBETYPE_AIR ∧ t ≠ CUBETYPE_LEAF) && front_transparent b x y z d
  | none => false

/-- The number of pairs (voxel, direction in `0..5`) that count. -/
def exposed_count (b : chunk_data_t) : Nat :=
  ((Finset.range CHUNK_SIZE ×ˢ Finset.range CHUNK_HEIGHT ×ˢ Finset.range CHUNK_SIZE ×ˢ
      Finset.range 6).filter (fun p => exposed b p.1 p.2.1 p.2.2.1 p.2.2.2 = true)).card

/-! ## Quads in a mesh -/

/-- The flat index of `types[x][y][z]`. -/
def flat_of (x y z : Nat) : Nat := (x * CHUNK_HEIGHT + y) * CHUNK_SIZE + z

/-- The descriptor of the quad of voxel `(x, y, z)` in direction `f`: the one the face loop
builds when it reaches that voxel and face. -/
def quad_desc_at (b : chunk_data_t) (x y z f : Nat) : quad_desc_t :=
  { x := x, y := y, z := z,
    type := (b.types (flat_of x y z) % 256).toNat, face := f }

/-- Whether quad slot `k` of the mesh (vertices `4k..4k+3`, indices `6k..6k+5`) lies inside the
used part of both buffers and holds the quad of descriptor `d`. -/
def quad_in_slot (m : mesh_t) (k : Nat) (d : quad_desc_t) : Bool :=
  match m.v_buf, m.i_buf, quad_vertices d with
  | some vb, some ib, some vs =>
    decide (4 * k + 4 ≤ m.v_cnt) && decide (6 * k + 6 ≤ m.i_cnt) &&
      (List.range 4).all (fun j => vb.data (4 * k + j) == vs[j]?) &&
      (List.range 6).all (fun j =>
        ib.data (6 * k + j) == (index_pattern[j]?).map (fun r => 4 * k + r))
  | _, _, _ => false

/-- Whether the mesh holds the quad of descriptor `d` in one of its slots. -/
def quad_emitted (m : mesh_t) (d : quad_desc_t) : Bool :=
  (List.range (m.v_cnt / 4)).any (fun k => quad_in_slot m k d)

/-- The template vertex transformed for descriptor `d`: moved by twice the voxel position, the
normal flag kept, the uv word indeterminate. -/
def moved (d : quad_desc_t) (t : vertex_t) : vertex_t :=
  { x := (t.x + d.x * 2) % 256, y := (t.y + d.y * 2) % 256, z := (t.z + d.z * 2) % 256,
    n := t.n, uv := none }

/-! ## Neighbours by flat index -/

/-- The flat index of the voxel one step from `(x, y, z)` in direction `d`, nothing when the
step leaves the chunk. -/
def neighbour_index (x y z d : Nat) : Option Nat :=
  if d = 0 then (if z = 0 then none else some (flat_of x y (z - 1)))
  else if d = 1 then (if z + 1 < CHUNK_SIZE then some (flat_of x y (z + 1)) else none)
  else if d = 2 then (if x + 1 < CHUNK_SIZE then some (flat_of (x + 1) y z) else none)
  else if d = 3 then (if x = 0 then none else some (flat_of (x - 1) y z))
  else if d = 4 then (if y = 0 then none else some (flat_of x (y - 1) z))
  else if d = 5 then (if y + 1 < CHUNK_HEIGHT then some (flat_of x (y + 1) z) else none)
  else none

/-! ## Face geometry -/

/-- The face index pointing the other way: BACK and FRONT, RIGHT and LEFT, BOTTOM and TOP. -/
def opposite (f : Nat) : Nat :=
  if f = FACEIDX_BACK then FACEIDX_FRONT
  else if f = FACEIDX_FRONT then FACEIDX_BACK
  else if f = FACEIDX_RIGHT then FACEIDX_LEFT
  else if f = FACEIDX_LEFT then FACEIDX_RIGHT
  else if f = FACEIDX_BOTTOM then FACEIDX_TOP
  else FACEIDX_BOTTOM

/-- The position of a vertex as an integer vector. -/
def position (v : vertex_t) : Int × Int × Int := (v.x, v.y, v.z)

/-- The cross product `(b - a) × (c - a)` of a triangle `(a, b, c)`. -/
def triangle_normal (a b c : vertex_t) : Int × Int × Int :=
  let p := position a
  let u : Int × Int × Int := ((position b).1 - p.1, (position b).2.1 - p.2.1,
    (position b).2.2 - p.2.2)
  let v : Int × Int × Int := ((position c).1 - p.1, (position c).2.1 - p.2.1,
    (position c).2.2 - p.2.2)
  (u.2.1 * v.2.2 - u.2.2 * v.2.1, u.2.2 * v.1 - u.1 * v.2.2, u.1 * v.2.1 - u.2.1 * v.1)

/-- The triangle `(a, b, c)` is clockwise seen from outside face `d`: its cross product is a
positive multiple of minus the outward normal (right-handed frame). -/
def clockwise_from_outside (d : Nat) (a b c : vertex_t) : Prop :=
  ∃ k : Int, 0 < k ∧
    triangle_normal a b c =
      (-k * (face_step d).1, -k * (face_step d).2.1, -k * (face_step d).2.2)

/-- The triangle `(a, b, c)` is counter-clockwise seen from outside face `d`: its cross product
is a positive multiple of the outward normal. -/
def counter_clockwise_from_outside (d : Nat) (a b c : vertex_t) : Prop :=
  ∃ k : Int, 0 < k ∧
    triangle_normal a b c =
      (k * (face_step d).1, k * (face_step d).2.1, k * (face_step d).2.2)

/-! ## Sample chunks -/

/-- A chunk around the grid `b`, with a zeroed mesh record. -/
def chunk_of (b : chunk_data_t) : chunk_t :=
  { x := 0, y := 0, z := 0, blocks := b,
    buf_data := { v_ofst := 0, i_ofst := 0, v_len := 0, i_len := 0 },
    mesh := { v_rsrv := 0, i_rsrv := 0, v_cnt := 0, i_cnt := 0, __start_canary := 0,
              v_buf := none, __mid_canary := 0, i_buf := none, __end_canary := 0 },
    staged := false, visible := false, age := 0 }

/-- The grid that is AIR everywhere. -/
def air_grid : chunk_data_t := { types := fun _ => CUBETYPE_AIR }

/-- The grid that is AIR except for type `t` at `(x, y, z)`. -/
def single_grid (x y z : Nat) (t : Int) : chunk_data_t :=
  { types := fun i => if i = flat_of x y z then t else CUBETYPE_AIR }

/-- The grid that is AIR except for STONE at `(x, 0, z)` and `(x, 1, z)`. -/
def column_grid (x z : Nat) : chunk_data_t :=
  { types := fun i =>
      if i = flat_of x 0 z ∨ i = flat_of x 1 z then CUBETYPE_STONE else CUBETYPE_AIR }

/-! ## Reading a mesh -/

/-- Slot `q` of the vertex buffer of a mesh: nothing when the buffer reference is null or the
slot was never written. -/
def vertex_slot (m : mesh_t) (q : Nat) : Option vertex_t :=
  match m.v_buf with
  | some buf => buf.data q
  | none => none

/-- Slot `q` of the index buffer of a mesh: nothing when the buffer reference is null or the
slot was never written. -/
def index_slot (m : mesh_t) (q : Nat) : Option Nat :=
  match m.i_buf with
  | some buf => buf.data q
  | none => none

/-! ## Dense grids -/

/-- The 3D checkerboard: STONE at the voxels `(x, y, z)` with `x + y + z` even, AIR at the
others, given by flat index. -/
def checker_grid : chunk_data_t :=
  { types := fun i =>
      if (i / (CHUNK_HEIGHT * CHUNK_SIZE) + (i / CHUNK_SIZE) % CHUNK_HEIGHT + i % CHUNK_SIZE) % 2 = 0
      then CUBETYPE_STONE else CUBETYPE_AIR }

/-- The grid of 512 separate STONE voxels: those `(x, y, z)` with `x`, `y`, `z` even and
`y < 16`; AIR at the others, given by flat index. -/
def scattered_grid : chunk_data_t :=
  { types := fun i =>
      if (i / (CHUNK_HEIGHT * CHUNK_SIZE)) % 2 = 0 ∧ ((i / CHUNK_SIZE) % CHUNK_HEIGHT) % 2 = 0 ∧
          (i / CHUNK_SIZE) % CHUNK_HEIGHT < 16 ∧ (i % CHUNK_SIZE) % 2 = 0
      then CUBETYPE_STONE else CUBETYPE_AIR }

/-- No non-AIR voxel of the grid has a non-AIR voxel next to it. -/
def isolated (b : chunk_data_t) : Prop :=
  ∀ i < CHUNK_SIZE * CHUNK_HEIGHT * CHUNK_SIZE, b.types i ≠ CUBETYPE_AIR →
    ∀ d < 6, ∀ j, neighbour_index (voxel_x i) (voxel_y i) (voxel_z i) d = some j →
      b.types j = CUBETYPE_AIR

/-! ## Triangles -/

/-- The three vertices the index entries `p`, `p + 1`, `p + 2` of an emission state refer to:
nothing when one of the three entries or one of the vertex slots they name was never
written. -/
def triangle_from (s : emit_state) (p : Nat) : Option (vertex_t × vertex_t × vertex_t) :=
  match s.indices.data p, s.indices.data (p + 1), s.indices.data (p + 2) with
  | some i0, some i1, some i2 =>
    match s.vertices.data i0, s.vertices.data i1, s.vertices.data i2 with
    | some a, some b, some c => some (a, b, c)
    | _, _, _ => none
  | _, _, _ => none

/-- Triangle `k` of a mesh: the three vertices its index entries `3k`, `3k + 1`, `3k + 2` refer
to. -/
def mesh_triangle (m : mesh_t) (k : Nat) : Option (vertex_t × vertex_t × vertex_t) :=
  match index_slot m (3 * k), index_slot m (3 * k + 1), index_slot m (3 * k + 2) with
  | some i0, some i1, some i2 =>
    match vertex_slot m i0, vertex_slot m i1, vertex_slot m i2 with
    | some a, some b, some c => some (a, b, c)
    | _, _, _ => none
  | _, _, _ => none

/-- The normal flag the vertices of face `f` carry in `face_vertices`. -/
def face_flag (f : Nat) : Option Nat :=
  match face_vertices[f]? with
  | some (t :: _) => some t.n
  | _ => none

/-! ## Lemmas -/

theorem buffer_write_eq {α : Type} (buf : buffer α) (p : Nat) (a : α) (h : p < buf.size) :
    buf.write p a = some { size := buf.size, data := fun q => if q = p then some a else buf.data q } := by
  simp [buffer.write, h]

theorem quad_vertices_length (d : quad_desc_t) (vs : List vertex_t)
    (h : quad_vertices d = some vs) : ∃ a0 a1 a2 a3, vs = [a0, a1, a2, a3] := by
  unfold quad_vertices at h
  split at h
  · split at h
    · simp at h; exact ⟨_, _, _, _, h.symm⟩
    · simp at h
  · simp at h

theorem index_at_succ (n q : Nat) :
    (if q = 6 * n + 5 then some (4 * n + 2)
      else if q = 6 * n + 4 then some (4 * n + 3)
      else if q = 6 * n + 3 then some (4 * n + 0)
      else if q = 6 * n + 2 then some (4 * n + 1)
      else if q = 6 * n + 1 then some (4 * n + 2)
      else if q = 6 * n + 0 then some (4 * n + 0) else index_at n q) = index_at (n + 1) q := by
  unfold index_at
  rcases Nat.lt_trichotomy (q / 6) n with h | h | h
  · have h1 : q / 6 < n + 1 := by omega
    have h2 : q < 6 * n := by omega
    rw [if_neg (by omega), if_neg (by omega), if_neg (by omega), if_neg (by omega),
      if_neg (by omega), if_neg (by omega), if_pos h, if_pos h1]
  · have h1 : q / 6 < n + 1 := by omega
    have h0 : ¬ (q / 6 < n) := by omega
    have hr : q % 6 < 6 := Nat.mod_lt _ (by decide)
    have hq : q = 6 * n + q % 6 := by omega
    rw [if_pos h1, h]
    generalize q % 6 = r at hr hq
    subst hq
    interval_cases r <;> simp [index_pattern]
  · have h1 : ¬ (q / 6 < n + 1) := by omega
    have h0 : ¬ (q / 6 < n) := by omega
    rw [if_neg (by omega), if_neg (by omega), if_neg (by omega), if_neg (by omega),
      if_neg (by omega), if_neg (by omega), if_neg h0, if_neg h1]

theorem vertex_at_snoc (L : List quad_desc_t) (d : quad_desc_t) (a0 a1 a2 a3 : vertex_t)
    (hq : quad_vertices d = some [a0, a1, a2, a3]) (q : Nat) :
    (if q = 4 * L.length + 3 then some a3
      else if q = 4 * L.length + 2 then some a2
      else if q = 4 * L.length + 1 then some a1
      else if q = 4 * L.length + 0 then some a0 else vertex_at L q) = vertex_at (L ++ [d]) q := by
  unfold vertex_at
  rcases Nat.lt_trichotomy (q / 4) L.length with h | h | h
  · have h2 : q < 4 * L.length := by omega
    rw [if_neg (by omega), if_neg (by omega), if_neg (by omega), if_neg (by omega),
      List.getElem?_append_left h]
  · have hr : q % 4 < 4 := Nat.mod_lt _ (by decide)
    have hq4 : q = 4 * L.length + q % 4 := by omega
    have hg : (L ++ [d])[q / 4]? = some d := by
      rw [h, List.getElem?_append_right (Nat.le_refl _)]; simp
    have hg0 : L[q / 4]? = none := by
      rw [List.getElem?_eq_none]; omega
    rw [hg, hg0]
    simp only [hq]
    generalize q % 4 = r at hr hq4
    subst hq4
    interval_cases r <;> simp
  · have hg : (L ++ [d])[q / 4]? = none := by
      rw [List.getElem?_eq_none]; simp; omega
    have hg0 : L[q / 4]? = none := by
      rw [List.getElem?_eq_none]; omega
    rw [if_neg (by omega), if_neg (by omega), if_neg (by omega), if_neg (by omega), hg, hg0]

theorem add_face_state_of (L : List quad_desc_t) (d : quad_desc_t) (vs : List vertex_t)
    (hq : quad_vertices d = some vs)
    (hv : 4 * L.length + 4 ≤ V_MAX) (hi : 6 * L.length + 6 ≤ I_MAX) :
    _add_face_to_mesh d (state_of L) = some (state_of (L ++ [d])) := by
  obtain ⟨a0, a1, a2, a3, rfl⟩ := quad_vertices_length d vs hq
  have e1 : ∀ k, k < 6 → (6 * L.length + k) % 2 ^ 32 = 6 * L.length + k := by
    intro k hk; apply Nat.mod_eq_of_lt; simp only [I_MAX] at hi; omega
  have e2 : ∀ k, k < 6 → (4 * L.length + k) % 2 ^ 32 = 4 * L.length + k := by
    intro k hk; apply Nat.mod_eq_of_lt; simp only [V_MAX] at hv; omega
  simp only [_add_face_to_mesh, hq, state_of]
  rw [buffer_write_eq _ _ _ (by simp only [V_MAX] at hv ⊢; omega)]
  simp only [Option.bind_eq_bind, Option.some_bind]
  rw [buffer_write_eq _ _ _ (by simp only [V_MAX] at hv ⊢; omega)]
  simp only [Option.bind_eq_bind, Option.some_bind]
  rw [buffer_write_eq _ _ _ (by simp only [V_MAX] at hv ⊢; omega)]
  simp only [Option.bind_eq_bind, Option.some_bind]
  rw [buffer_write_eq _ _ _ (by simp only [V_MAX] at hv ⊢; omega)]
  simp only [Option.bind_eq_bind, Option.some_bind]
  rw [e1 0 (by omega), e1 1 (by omega), e1 2 (by omega), e1 3 (by omega), e1 4 (by omega), e1 5 (by omega),
    e2 0 (by omega), e2 1 (by omega), e2 2 (by omega), e2 3 (by omega)]
  rw [buffer_write_eq _ _ _ (by simp only [I_MAX] at hi ⊢; omega)]
  simp only [Option.bind_eq_bind, Option.some_bind]
  rw [buffer_write_eq _ _ _ (by simp only [I_MAX] at hi ⊢; omega)]
  simp only [Option.bind_eq_bind, Option.some_bind]
  rw [buffer_write_eq _ _ _ (by simp only [I_MAX] at hi ⊢; omega)]
  simp only [Option.bind_eq_bind, Option.some_bind]
  rw [buffer_write_eq _ _ _ (by simp only [I_MAX] at hi ⊢; omega)]
  simp only [Option.bind_eq_bind, Option.some_bind]
  rw [buffer_write_eq _ _ _ (by simp only [I_MAX] at hi ⊢; omega)]
  simp only [Option.bind_eq_bind, Option.some_bind]
  rw [buffer_write_eq _ _ _ (by simp only [I_MAX] at hi ⊢; omega)]
  simp only [Option.bind_eq_bind, Option.some_bind]
  simp only [pure, List.length_append, List.length_singleton]
  have e3 : (6 * L.length + 6) % 2 ^ 32 = 6 * (L.length + 1) := by
    rw [Nat.mod_eq_of_lt (by simp only [I_MAX] at hi; omega)]; ring
  have e4 : (4 * L.length + 4) % 2 ^ 32 = 4 * (L.length + 1) := by
    rw [Nat.mod_eq_of_lt (by simp only [V_MAX] at hv; omega)]; ring
  rw [e3, e4]
  congr 3
  · funext q; exact index_at_succ L.length q
  · funext q; exact vertex_at_snoc L d a0 a1 a2 a3 hq q

theorem for_loop_from_succ {σ : Type} (body : Nat → σ → Except exit_t σ) (k : Nat) :
    ∀ (i : Nat) (s : σ), for_loop_from body (k + 1) i s =
      match for_loop_from body k i s with
      | .ok s1 => body (i + k) s1
      | .error e => .error e := by
  induction k with
  | zero =>
    intro i s
    simp only [for_loop_from, Nat.add_zero]
    cases body i s <;> rfl
  | succ k ih =>
    intro i s
    rw [for_loop_from]
    cases h : body i s with
    | error e => simp only [for_loop_from, h]
    | ok s1 =>
      simp only []
      rw [ih (i + 1) s1]
      conv_rhs => rw [for_loop_from]
      simp only [h]
      have : i + 1 + k = i + (k + 1) := by omega
      rw [this]

theorem for_loop_zero {σ : Type} (body : Nat → σ → Except exit_t σ) (s : σ) :
    for_loop body 0 s = .ok s := rfl

theorem for_loop_succ {σ : Type} (body : Nat → σ → Except exit_t σ) (n : Nat) (s : σ) :
    for_loop body (n + 1) s =
      match for_loop body n s with
      | .ok s1 => body n s1
      | .error e => .error e := by
  unfold for_loop
  rw [for_loop_from_succ, Nat.zero_add]

theorem visible_from_succ (b : chunk_data_t) (k : Nat) :
    ∀ i, visible_from b i (k + 1) = visible_from b i k ++ voxel_faces b (i + k) := by
  induction k with
  | zero => intro i; simp [visible_from]
  | succ k ih =>
    intro i
    rw [visible_from, ih (i + 1)]
    conv_rhs => rw [visible_from]
    have : i + 1 + k = i + (k + 1) := by omega
    rw [this, List.append_assoc]

theorem visible_upto_zero (b : chunk_data_t) : visible_upto b 0 = [] := rfl

theorem visible_upto_succ (b : chunk_data_t) (n : Nat) :
    visible_upto b (n + 1) = visible_upto b n ++ voxel_faces b n := by
  unfold visible_upto
  rw [visible_from_succ, Nat.zero_add]

theorem visible_def (b : chunk_data_t) :
    visible b = visible_upto b (CHUNK_SIZE * CHUNK_HEIGHT * CHUNK_SIZE) := rfl

attribute [irreducible] for_loop for_loop_from visible_from visible_upto visible

theorem voxel_coords_lt (i : Nat) (hi : i < CHUNK_SIZE * CHUNK_HEIGHT * CHUNK_SIZE) :
    voxel_x i < CHUNK_SIZE ∧ voxel_y i < CHUNK_HEIGHT ∧ voxel_z i < CHUNK_SIZE := by
  simp only [voxel_x, voxel_y, voxel_z, CHUNK_SIZE, CHUNK_HEIGHT] at *
  omega

theorem idx_some (b : chunk_data_t) (x y z : Nat) (hx : x < CHUNK_SIZE) (hy : y < CHUNK_HEIGHT)
    (hz : z < CHUNK_SIZE) :
    b.idx x y z = some (b.types ((x * CHUNK_HEIGHT + y) * CHUNK_SIZE + z)) := by
  simp [chunk_data_t.idx, hx, hy, hz]

theorem get_neighbour_eq (b : chunk_data_t) (x y z f : Nat) (hx : x < CHUNK_SIZE)
    (hy : y < CHUNK_HEIGHT) (hz : z < CHUNK_SIZE) (hf : f < 6) :
    _get_neighbour x y z f b = some ((adjacent b x y z f).getD CUBETYPE_AIR) := by
  simp only [CHUNK_SIZE, CHUNK_HEIGHT] at hx hy hz
  unfold _get_neighbour adjacent cell_at
  interval_cases f
  · by_cases h : z = 0
    · subst h; simp [face_step]
    · have e : ((z : Int) + -1).toNat = z - 1 := by omega
      have c : 0 ≤ (z : Int) + -1 ∧ (z : Int) + -1 < 16 := by omega
      simp [face_step, h, c, e, idx_some b x y (z - 1) hx hy (by simp only [CHUNK_SIZE]; omega), hx, hy]
  · by_cases h : z = 15
    · subst h; simp [face_step]
    · have e : ((z : Int) + 1).toNat = z + 1 := by omega
      have c : 0 ≤ (z : Int) + 1 ∧ (z : Int) + 1 < 16 := by omega
      simp [face_step, h, c, e, idx_some b x y (z + 1) hx hy (by simp only [CHUNK_SIZE]; omega), hx, hy]
  · by_cases h : 15 ≤ x
    · have c : ¬ ((x : Int) + 1 < 16) := by omega
      simp [face_step, h, c]
    · have e : ((x : Int) + 1).toNat = x + 1 := by omega
      have c : 0 ≤ (x : Int) + 1 ∧ (x : Int) + 1 < 16 := by omega
      simp [face_step, h, c, e, idx_some b (x + 1) y z (by simp only [CHUNK_SIZE]; omega) hy hz, hy, hz]
  · by_cases h : x = 0
    · subst h; simp [face_step]
    · have e : ((x : Int) + -1).toNat = x - 1 := by omega
      have c : 0 ≤ (x : Int) + -1 ∧ (x : Int) + -1 < 16 := by omega
      simp [face_step, h, c, e, idx_some b (x - 1) y z (by simp only [CHUNK_SIZE]; omega) hy hz, hy, hz]
  · by_cases h : y = 0
    · subst h; simp [face_step]
    · have e : ((y : Int) + -1).toNat = y - 1 := by omega
      have c : 0 ≤ (y : Int) + -1 ∧ (y : Int) + -1 < 64 := by omega
      simp [face_step, h, c, e, idx_some b x (y - 1) z hx (by simp only [CHUNK_HEIGHT]; omega) hz, hx, hz]
  · by_cases h : y = 63
    · subst h; simp [face_step]
    · have e : ((y : Int) + 1).toNat = y + 1 := by omega
      have c : 0 ≤ (y : Int) + 1 ∧ (y : Int) + 1 < 64 := by omega
      simp [face_step, h, c, e, idx_some b x (y + 1) z hx (by simp only [CHUNK_HEIGHT]; omega) hz, hx, hz]

theorem uv_lookup_length : uv_lookup.length = 48 := rfl

theorem transform_vertex_isSome (d : quad_desc_t) (vert : vertex_t) :
    (transform_vertex d vert).isSome = decide (d.type * 6 + d.face < 48) := by
  unfold transform_vertex
  by_cases h : d.type * 6 + d.face < 48
  · have : (d.type * 6 + d.face) < uv_lookup.length := by rw [uv_lookup_length]; exact h
    rw [List.getElem?_eq_getElem this]
    simp [h]
  · have : uv_lookup[d.type * 6 + d.face]? = none := by
      rw [List.getElem?_eq_none]; rw [uv_lookup_length]; omega
    rw [this]; simp [h]

theorem face_vertices_row (f : Nat) (hf : f < 6) :
    ∃ t0 t1 t2 t3, face_vertices[f]? = some [t0, t1, t2, t3] := by
  interval_cases f <;> exact ⟨_, _, _, _, rfl⟩

theorem quad_vertices_isSome (d : quad_desc_t) :
    (quad_vertices d).isSome = decide (d.face < 6 ∧ d.type * 6 + d.face < 48) := by
  unfold quad_vertices
  by_cases hf : d.face < 6
  · obtain ⟨t0, t1, t2, t3, hrow⟩ := face_vertices_row d.face hf
    rw [hrow]
    have h0 := transform_vertex_isSome d t0
    have h1 := transform_vertex_isSome d t1
    have h2 := transform_vertex_isSome d t2
    have h3 := transform_vertex_isSome d t3
    by_cases h : d.type * 6 + d.face < 48
    · simp only [h, decide_True, Option.isSome_iff_exists] at h0 h1 h2 h3
      obtain ⟨a0, e0⟩ := h0
      obtain ⟨a1, e1⟩ := h1
      obtain ⟨a2, e2⟩ := h2
      obtain ⟨a3, e3⟩ := h3
      simp [e0, e1, e2, e3, hf, h]
    · have h0 : transform_vertex d t0 = none := by simpa [h] using h0
      simp [h0, h]
  · have : face_vertices[d.face]? = none := by
      rw [List.getElem?_eq_none]
      have : face_vertices.length = 6 := rfl
      omega
    rw [this]; simp [hf]

theorem quad_of_isSome (b : chunk_data_t) (i f : Nat) (hf : f < 6) :
    (quad_vertices (quad_of b i f)).isSome = decide (valid_type (b.types i)) := by
  rw [quad_vertices_isSome]
  simp only [quad_of, valid_type, MAX_BLOCK_TYPES]
  by_cases h : (b.types i % 256).toNat < 8
  · have : (b.types i % 256).toNat * 6 + f < 48 := by omega
    simp [h, hf, this]
  · have : ¬ ((b.types i % 256).toNat * 6 + f < 48) := by omega
    simp [h, this]

theorem faces_upto_succ (b : chunk_data_t) (i m : Nat) :
    faces_upto b i (m + 1) =
      faces_upto b i m ++ (if face_visible b i m then [quad_of b i m] else []) := by
  unfold faces_upto
  rw [List.range_succ, List.filter_append, List.map_append]
  by_cases h : face_visible b i m <;> simp [h]

theorem faces_upto_length_le (b : chunk_data_t) (i m : Nat) : (faces_upto b i m).length ≤ m := by
  unfold faces_upto
  rw [List.length_map]
  calc ((List.range m).filter (face_visible b i)).length ≤ (List.range m).length :=
        List.length_filter_le _ _
    _ = m := List.length_range m

/-- The face loop on a voxel inside the chunk, started with room for 24 more vertices: it
appends the descriptors of the visible faces, unless the cell value is not a valid type and a
face is visible. -/
theorem face_loop_spec (b : chunk_data_t) (i : Nat) (L : List quad_desc_t)
    (hi : i < CHUNK_SIZE * CHUNK_HEIGHT * CHUNK_SIZE)
    (hroom : 4 * L.length + 24 < V_MAX) (m : Nat) (hm : m ≤ 6) :
    for_loop (face_body b (voxel_x i) (voxel_y i) (voxel_z i) (b.types i)) m (state_of L) =
      if valid_type (b.types i) ∨ faces_upto b i m = [] then
        .ok (state_of (L ++ faces_upto b i m))
      else .error .undefined := by
  induction m with
  | zero => simp [for_loop_zero, faces_upto]
  | succ m ih =>
    have ih := ih (by omega)
    obtain ⟨hx, hy, hz⟩ := voxel_coords_lt i hi
    have hn := get_neighbour_eq b (voxel_x i) (voxel_y i) (voxel_z i) m hx hy hz (by omega)
    have hvis : face_visible b i m =
        is_transparent ((adjacent b (voxel_x i) (voxel_y i) (voxel_z i) m).getD CUBETYPE_AIR) := by
      simp [face_visible, hn]
    have hlen := faces_upto_length_le b i m
    rw [for_loop_succ, ih, faces_upto_succ]
    by_cases hv : valid_type (b.types i)
    · simp only [hv, true_or, if_true]
      simp only [face_body, hn]
      by_cases ht : face_visible b i m
      · have hq : (quad_vertices (quad_of b i m)).isSome = true := by
          rw [quad_of_isSome b i m (by omega)]; simp [hv]
        obtain ⟨vs, hvs⟩ := Option.isSome_iff_exists.mp hq
        have hstep := add_face_state_of (L ++ faces_upto b i m) (quad_of b i m) vs hvs
          (by simp only [V_MAX, List.length_append] at hroom ⊢; omega)
          (by simp only [V_MAX, I_MAX, List.length_append] at hroom ⊢; omega)
        rw [← hvis]
        simp only [ht, Bool.not_true, Bool.false_eq_true, if_false, if_true]
        unfold quad_of at hstep
        rw [hstep]
        simp [quad_of]
      · rw [← hvis]
        simp [ht]
    · simp only [hv, false_or]
      by_cases he : faces_upto b i m = []
      · simp only [he, if_true, List.append_nil, List.nil_append]
        simp only [face_body, hn]
        rw [← hvis]
        by_cases ht : face_visible b i m
        · have hq : (quad_vertices (quad_of b i m)).isSome = false := by
            rw [quad_of_isSome b i m (by omega)]; simp [hv]
          have hq2 : quad_vertices (quad_of b i m) = none := by
            simpa using hq
          unfold quad_of at hq2
          simp [ht, _add_face_to_mesh, hq2]
        · simp [ht]
      · simp [he]

theorem state_of_nil :
    state_of [] = { i_cnt := 0, v_cnt := 0,
                    indices := { size := I_MAX, data := fun _ => none },
                    vertices := { size := V_MAX, data := fun _ => none } } := by
  simp [state_of, index_at, vertex_at]
  constructor <;> funext q <;> simp [index_at, vertex_at]

theorem voxel_faces_length_le (b : chunk_data_t) (i : Nat) : (voxel_faces b i).length ≤ 6 := by
  unfold voxel_faces
  split
  · simp
  · exact faces_upto_length_le b i 6

theorem voxel_loop_spec (b : chunk_data_t) (n : Nat)
    (hn : n ≤ CHUNK_SIZE * CHUNK_HEIGHT * CHUNK_SIZE) :
    loop_post b n (for_loop (voxel_body b) n (state_of [])) := by
  induction n with
  | zero => simp [for_loop_zero, loop_post, visible_upto_zero]
  | succ n ih =>
    have ih := ih (by omega)
    rw [for_loop_succ]
    generalize for_loop (voxel_body b) n (state_of []) = r at ih
    cases r with
    | error e =>
      cases e with
      | alloc_failed => exact ih
      | buffer_overrun => exact ih
      | buffer_overflow =>
        obtain ⟨i, hi, h1, h2⟩ := ih
        exact ⟨i, by omega, h1, h2⟩
      | undefined =>
        obtain ⟨i, hi, h1⟩ := ih
        exact ⟨i, by omega, h1⟩
    | ok s =>
      obtain ⟨hs, hlt, hall, hdef⟩ := ih
      subst hs
      have hflat : b.flat n = some (b.types n) := by
        simp only [chunk_data_t.flat]
        rw [if_pos (by omega)]
      simp only [voxel_body, hflat]
      by_cases h0 : b.types n = CUBETYPE_AIR
      · simp only [h0, if_true]
        have : visible_upto b (n + 1) = visible_upto b n := by
          simp [visible_upto_succ, voxel_faces, h0]
        refine ⟨by rw [this], by rw [this]; exact hlt, ?_, ?_⟩
        · intro i hi hne
          rcases Nat.lt_succ_iff_lt_or_eq.mp hi with h | h
          · exact hall i h hne
          · subst h; exact absurd h0 hne
        · intro i hi
          rcases Nat.lt_succ_iff_lt_or_eq.mp hi with h | h
          · exact hdef i h
          · subst h; right; simp [voxel_faces, h0]
      · simp only [h0, if_false]
        have hmod : (4 * (visible_upto b n).length + 24) % 2 ^ 32 =
            4 * (visible_upto b n).length + 24 := by
          apply Nat.mod_eq_of_lt; simp only [V_MAX] at hlt; omega
        have hv : (state_of (visible_upto b n)).v_cnt = 4 * (visible_upto b n).length := rfl
        rw [hv, hmod]
        by_cases hov : 4 * (visible_upto b n).length + 24 ≥ V_MAX
        · simp only [hov, if_true]
          exact ⟨n, by omega, h0, hov⟩
        · simp only [hov, if_false]
          have hroom : 4 * (visible_upto b n).length + 24 < V_MAX := by omega
          have hf := face_loop_spec b n (visible_upto b n) (by omega) hroom 6 (le_refl 6)
          simp only [voxel_x, voxel_y, voxel_z] at hf
          rw [hf]
          have hvf : voxel_faces b n = faces_upto b n 6 := by simp [voxel_faces, h0]
          have hlen := faces_upto_length_le b n 6
          by_cases hc : valid_type (b.types n) ∨ faces_upto b n 6 = []
          · simp only [hc, if_true]
            refine ⟨by rw [visible_upto_succ, hvf], ?_, ?_, ?_⟩
            · rw [visible_upto_succ, hvf, List.length_append]; omega
            · intro i hi hne
              rcases Nat.lt_succ_iff_lt_or_eq.mp hi with h | h
              · exact hall i h hne
              · subst h; exact hroom
            · intro i hi
              rcases Nat.lt_succ_iff_lt_or_eq.mp hi with h | h
              · exact hdef i h
              · subst h; rw [hvf]; exact hc
          · simp only [hc, if_false]
            exact ⟨n, by omega, fun h => hc (Or.inl h)⟩

theorem generate_unfold (c : chunk_t) :
    chunk_generate_mesh c =
      match for_loop (voxel_body c.blocks) (CHUNK_SIZE * CHUNK_HEIGHT * CHUNK_SIZE)
          (state_of []) with
      | .error e => .error e
      | .ok s =>
        if s.i_cnt = 0 then
          .ok { c with mesh := { v_rsrv := 0, i_rsrv := 0, v_cnt := 0, i_cnt := 0,
                                 __start_canary := START_CANARY_VAL, v_buf := none,
                                 __mid_canary := MID_CANARY_VAL, i_buf := none,
                                 __end_canary := END_CANARY_VAL } }
        else
          .ok { c with mesh := { v_rsrv := V_MAX, i_rsrv := I_MAX,
                                 v_cnt := s.v_cnt, i_cnt := s.i_cnt,
                                 __start_canary := START_CANARY_VAL,
                                 v_buf := some s.vertices,
                                 __mid_canary := MID_CANARY_VAL,
                                 i_buf := some s.indices,
                                 __end_canary := END_CANARY_VAL } } := by
  rw [state_of_nil]
  unfold chunk_generate_mesh
  simp only [malloc, canaries_failed, bne_self_eq_false, Bool.or_self, Bool.false_eq_true,
    if_false]

theorem state_of_i_cnt (L : List quad_desc_t) : (state_of L).i_cnt = 6 * L.length := rfl

theorem state_of_v_cnt (L : List quad_desc_t) : (state_of L).v_cnt = 4 * L.length := rfl

theorem generate_spec (c : chunk_t) : generate_post c (chunk_generate_mesh c) := by
  have h := voxel_loop_spec c.blocks (CHUNK_SIZE * CHUNK_HEIGHT * CHUNK_SIZE) (le_refl _)
  rw [generate_unfold]
  generalize for_loop (voxel_body c.blocks) (CHUNK_SIZE * CHUNK_HEIGHT * CHUNK_SIZE)
    (state_of []) = r at h
  cases r with
  | error e =>
    cases e <;> exact h
  | ok s =>
    obtain ⟨hs, hlt, hall, hdef⟩ := h
    subst hs
    simp only [generate_post]
    rw [visible_def]
    generalize visible_upto c.blocks (CHUNK_SIZE * CHUNK_HEIGHT * CHUNK_SIZE) = L at hlt ⊢
    rw [state_of_i_cnt]
    by_cases h0 : L.length = 0
    · have h6 : 6 * L.length = 0 := by omega
      simp only [h6, if_true]
      refine ⟨?_, hlt, hall, hdef⟩
      simp [mesh_result, h0]
    · have h6 : ¬ (6 * L.length = 0) := by omega
      simp only [h6, if_false]
      refine ⟨?_, hlt, hall, hdef⟩
      simp [mesh_result, h0, state_of]

theorem generate_ok_eq (c c1 : chunk_t) (h : chunk_generate_mesh c = .ok c1) :
    c1 = mesh_result c (visible c.blocks) ∧ 4 * (visible c.blocks).length < V_MAX ∧
      room_everywhere c.blocks ∧ defined_everywhere c.blocks := by
  have hs := generate_spec c
  rw [h] at hs
  exact hs

theorem generate_ok_of_room (c : chunk_t) (hv : valid_grid c.blocks)
    (hr : room_everywhere c.blocks) :
    chunk_generate_mesh c = .ok (mesh_result c (visible c.blocks)) := by
  have hs := generate_spec c
  generalize chunk_generate_mesh c = r at hs
  cases r with
  | ok c1 => rw [hs.1]
  | error e =>
    cases e with
    | alloc_failed => exact absurd hs id
    | buffer_overrun => exact absurd hs id
    | buffer_overflow =>
      obtain ⟨i, hi, h1, h2⟩ := hs
      have := hr i hi h1
      omega
    | undefined =>
      obtain ⟨i, hi, h1⟩ := hs
      exact absurd (hv i hi) h1

theorem generate_overflow_of_valid (c : chunk_t) (hv : valid_grid c.blocks)
    (hr : ¬ room_everywhere c.blocks) :
    chunk_generate_mesh c = .error .buffer_overflow := by
  have hs := generate_spec c
  generalize chunk_generate_mesh c = r at hs
  cases r with
  | ok c1 => exact absurd hs.2.2.1 hr
  | error e =>
    cases e with
    | alloc_failed => exact absurd hs id
    | buffer_overrun => exact absurd hs id
    | buffer_overflow => rfl
    | undefined =>
      obtain ⟨i, hi, h1⟩ := hs
      exact absurd (hv i hi) h1

theorem cell_at_voxel (b : chunk_data_t) (i : Nat)
    (hi : i < CHUNK_SIZE * CHUNK_HEIGHT * CHUNK_SIZE) :
    cell_at b (voxel_x i) (voxel_y i) (voxel_z i) = some (b.types i) := by
  obtain ⟨hx, hy, hz⟩ := voxel_coords_lt i hi
  simp only [CHUNK_SIZE, CHUNK_HEIGHT] at hx hy hz hi
  have e : (voxel_x i * 64 + voxel_y i) * 16 + voxel_z i = i := by
    simp only [voxel_x, voxel_y, voxel_z, CHUNK_SIZE, CHUNK_HEIGHT]
    omega
  unfold cell_at
  rw [if_pos (by omega)]
  simp only [Int.toNat_ofNat, e]

theorem face_visible_eq (b : chunk_data_t) (i d : Nat)
    (hi : i < CHUNK_SIZE * CHUNK_HEIGHT * CHUNK_SIZE) (hd : d < 6) :
    face_visible b i d =
      is_transparent ((adjacent b (voxel_x i) (voxel_y i) (voxel_z i) d).getD CUBETYPE_AIR) := by
  obtain ⟨hx, hy, hz⟩ := voxel_coords_lt i hi
  simp [face_visible, get_neighbour_eq b _ _ _ d hx hy hz hd]

theorem exposed_voxel (b : chunk_data_t) (i d : Nat)
    (hi : i < CHUNK_SIZE * CHUNK_HEIGHT * CHUNK_SIZE) (hd : d < 6) :
    exposed b (voxel_x i) (voxel_y i) (voxel_z i) d =
      (decide (b.types i ≠ CUBETYPE_AIR) && face_visible b i d) := by
  rw [face_visible_eq b i d hi hd]
  unfold exposed front_transparent
  rw [cell_at_voxel b i hi]
  cases h : adjacent b (voxel_x i) (voxel_y i) (voxel_z i) d with
  | none => simp [is_transparent]
  | some n =>
    simp only [Option.getD_some, is_transparent]
    by_cases h0 : n = CUBETYPE_AIR
    · simp [h0]
    · by_cases h6 : n = CUBETYPE_LEAF
      · simp [h6]
      · simp [h0, h6]

theorem faces_upto_length (b : chunk_data_t) (i m : Nat) :
    (faces_upto b i m).length = ∑ d in Finset.range m, if face_visible b i d then 1 else 0 := by
  induction m with
  | zero => simp [faces_upto]
  | succ m ih =>
    rw [faces_upto_succ, List.length_append, ih, Finset.sum_range_succ]
    by_cases h : face_visible b i m <;> simp [h]

theorem voxel_faces_length (b : chunk_data_t) (i : Nat)
    (hi : i < CHUNK_SIZE * CHUNK_HEIGHT * CHUNK_SIZE) :
    (voxel_faces b i).length =
      ∑ d in Finset.range 6,
        if exposed b (voxel_x i) (voxel_y i) (voxel_z i) d then 1 else 0 := by
  unfold voxel_faces
  by_cases h0 : b.types i = CUBETYPE_AIR
  · rw [if_pos h0]
    symm
    apply Finset.sum_eq_zero
    intro d hd
    rw [exposed_voxel b i d hi (Finset.mem_range.mp hd)]
    simp [h0]
  · rw [if_neg h0, faces_upto_length]
    apply Finset.sum_congr rfl
    intro d hd
    rw [exposed_voxel b i d hi (Finset.mem_range.mp hd)]
    simp [h0]

theorem visible_upto_length (b : chunk_data_t) (n : Nat) :
    (visible_upto b n).length = ∑ i in Finset.range n, (voxel_faces b i).length := by
  induction n with
  | zero => simp [visible_upto_zero]
  | succ n ih => rw [visible_upto_succ, List.length_append, ih, Finset.sum_range_succ]

theorem sum_range_mul (f : Nat → Nat) (a b : Nat) :
    ∑ i in Finset.range (a * b), f i =
      ∑ p in Finset.range a, ∑ q in Finset.range b, f (p * b + q) := by
  induction a with
  | zero => simp
  | succ a ih =>
    rw [Nat.succ_mul, Finset.sum_range_add, ih, Finset.sum_range_succ]

theorem sum_voxels (g : Nat → Nat → Nat → Nat) :
    ∑ i in Finset.range (CHUNK_SIZE * CHUNK_HEIGHT * CHUNK_SIZE),
        g (voxel_x i) (voxel_y i) (voxel_z i) =
      ∑ x in Finset.range CHUNK_SIZE, ∑ y in Finset.range CHUNK_HEIGHT,
        ∑ z in Finset.range CHUNK_SIZE, g x y z := by
  have e : CHUNK_SIZE * CHUNK_HEIGHT * CHUNK_SIZE = CHUNK_SIZE * (CHUNK_HEIGHT * CHUNK_SIZE) := by
    ring
  rw [e, sum_range_mul]
  apply Finset.sum_congr rfl
  intro x hx
  rw [sum_range_mul]
  apply Finset.sum_congr rfl
  intro y hy
  apply Finset.sum_congr rfl
  intro z hz
  have hx := Finset.mem_range.mp hx
  have hy := Finset.mem_range.mp hy
  have hz := Finset.mem_range.mp hz
  simp only [CHUNK_SIZE, CHUNK_HEIGHT] at hx hy hz
  have e1 : voxel_x (x * (CHUNK_HEIGHT * CHUNK_SIZE) + (y * CHUNK_SIZE + z)) = x := by
    simp only [voxel_x, CHUNK_SIZE, CHUNK_HEIGHT]; omega
  have e2 : voxel_y (x * (CHUNK_HEIGHT * CHUNK_SIZE) + (y * CHUNK_SIZE + z)) = y := by
    simp only [voxel_y, CHUNK_SIZE, CHUNK_HEIGHT]; omega
  have e3 : voxel_z (x * (CHUNK_HEIGHT * CHUNK_SIZE) + (y * CHUNK_SIZE + z)) = z := by
    simp only [voxel_z, CHUNK_SIZE, CHUNK_HEIGHT]; omega
  rw [e1, e2, e3]

theorem exposed_count_eq_sum (b : chunk_data_t) :
    exposed_count b =
      ∑ x in Finset.range CHUNK_SIZE, ∑ y in Finset.range CHUNK_HEIGHT,
        ∑ z in Finset.range CHUNK_SIZE, ∑ d in Finset.range 6,
          if exposed b x y z d then 1 else 0 := by
  unfold exposed_count
  rw [Finset.card_filter, Finset.sum_product]
  apply Finset.sum_congr rfl
  intro x _
  rw [Finset.sum_product]
  apply Finset.sum_congr rfl
  intro y _
  rw [Finset.sum_product]

theorem visible_length (b : chunk_data_t) : (visible b).length = exposed_count b := by
  rw [visible_def, visible_upto_length, exposed_count_eq_sum,
    ← sum_voxels (fun x y z => ∑ d in Finset.range 6, if exposed b x y z d then 1 else 0)]
  apply Finset.sum_congr rfl
  intro i hi
  exact voxel_faces_length b i (Finset.mem_range.mp hi)
/-- Every read through the pointer `_unpack` returns is without a value. -/
theorem unpack_read (packed k : Nat) : (_unpack packed).read k = none := by
  simp [_unpack, float_ptr.read]

theorem transform_vertex_eq (d : quad_desc_t) (t : vertex_t) (o : ℚ × ℚ)
    (ho : uv_lookup[d.type * 6 + d.face]? = some o) :
    transform_vertex d t = some (moved d t) := by
  unfold transform_vertex
  rw [ho]
  cases huv : t.uv with
  | none => simp [moved]
  | some w => simp [moved, unpack_read]

theorem quad_vertices_eq (d : quad_desc_t) (vs : List vertex_t) (h : quad_vertices d = some vs) :
    ∃ t0 t1 t2 t3 o, face_vertices[d.face]? = some [t0, t1, t2, t3] ∧
      uv_lookup[d.type * 6 + d.face]? = some o ∧
      vs = [moved d t0, moved d t1, moved d t2, moved d t3] := by
  have hs : (quad_vertices d).isSome = true := by rw [h]; rfl
  rw [quad_vertices_isSome] at hs
  have hs := of_decide_eq_true hs
  obtain ⟨t0, t1, t2, t3, hrow⟩ := face_vertices_row d.face hs.1
  have hlt : d.type * 6 + d.face < uv_lookup.length := by rw [uv_lookup_length]; exact hs.2
  have ho : uv_lookup[d.type * 6 + d.face]? = some uv_lookup[d.type * 6 + d.face] :=
    List.getElem?_eq_getElem hlt
  refine ⟨t0, t1, t2, t3, _, hrow, ho, ?_⟩
  unfold quad_vertices at h
  rw [hrow] at h
  simp only [transform_vertex_eq d _ _ ho] at h
  exact (Option.some.inj h).symm

theorem face_row_flag (f : Nat) (hf : f < 6) (t0 t1 t2 t3 : vertex_t)
    (h : face_vertices[f]? = some [t0, t1, t2, t3]) :
    t0.n = [16, 32, 2, 1, 8, 4][f]! ∧ t0.x ≤ 2 ∧ t0.y ≤ 2 ∧ t0.z ≤ 2 := by
  interval_cases f <;> simp [face_vertices] at h <;> obtain ⟨rfl, -, -, -⟩ := h <;> simp

theorem quad_vertices_inj (d1 d2 : quad_desc_t) (vs : List vertex_t)
    (h1 : quad_vertices d1 = some vs) (h2 : quad_vertices d2 = some vs)
    (hx1 : d1.x < 16) (hy1 : d1.y < 64) (hz1 : d1.z < 16)
    (hx2 : d2.x < 16) (hy2 : d2.y < 64) (hz2 : d2.z < 16) :
    d1.x = d2.x ∧ d1.y = d2.y ∧ d1.z = d2.z ∧ d1.face = d2.face := by
  have hs1 : (quad_vertices d1).isSome = true := by rw [h1]; rfl
  have hs2 : (quad_vertices d2).isSome = true := by rw [h2]; rfl
  rw [quad_vertices_isSome] at hs1 hs2
  have hf1 := (of_decide_eq_true hs1).1
  have hf2 := (of_decide_eq_true hs2).1
  obtain ⟨t0, t1, t2, t3, o, hrow, -, hvs⟩ := quad_vertices_eq d1 vs h1
  obtain ⟨u0, u1, u2, u3, p, hrow2, -, hvs2⟩ := quad_vertices_eq d2 vs h2
  rw [hvs] at hvs2
  have hhead : moved d1 t0 = moved d2 u0 := by
    have := List.cons.inj hvs2
    exact this.1
  obtain ⟨hn1, ha1, hb1, hc1⟩ := face_row_flag d1.face hf1 t0 t1 t2 t3 hrow
  obtain ⟨hn2, ha2, hb2, hc2⟩ := face_row_flag d2.face hf2 u0 u1 u2 u3 hrow2
  have en : t0.n = u0.n := by
    have := congrArg vertex_t.n hhead
    simpa [moved] using this
  have hface : d1.face = d2.face := by
    rw [hn1, hn2] at en
    generalize d1.face = f1 at hf1 en
    generalize d2.face = f2 at hf2 en
    interval_cases f1 <;> interval_cases f2 <;> simp at en <;> rfl
  rw [hface, hrow2] at hrow
  have et : u0 = t0 := by
    have := Option.some.inj hrow
    exact (List.cons.inj this).1
  subst et
  have ex : (u0.x + d1.x * 2) % 256 = (u0.x + d2.x * 2) % 256 := by
    have := congrArg vertex_t.x hhead
    simpa [moved] using this
  have ey : (u0.y + d1.y * 2) % 256 = (u0.y + d2.y * 2) % 256 := by
    have := congrArg vertex_t.y hhead
    simpa [moved] using this
  have ez : (u0.z + d1.z * 2) % 256 = (u0.z + d2.z * 2) % 256 := by
    have := congrArg vertex_t.z hhead
    simpa [moved] using this
  refine ⟨by omega, by omega, by omega, hface⟩

theorem vertex_at_slot (L : List quad_desc_t) (k j : Nat) (hj : j < 4) (d : quad_desc_t)
    (vs : List vertex_t) (hk : L[k]? = some d) (hq : quad_vertices d = some vs) :
    vertex_at L (4 * k + j) = vs[j]? := by
  have e1 : (4 * k + j) / 4 = k := by omega
  have e2 : (4 * k + j) % 4 = j := by omega
  simp [vertex_at, e1, e2, hk, hq]

theorem index_at_slot (n k j : Nat) (hj : j < 6) (hk : k < n) :
    index_at n (6 * k + j) = (index_pattern[j]?).map (fun r => 4 * k + r) := by
  have e1 : (6 * k + j) / 6 = k := by omega
  have e2 : (6 * k + j) % 6 = j := by omega
  unfold index_at
  rw [e1, e2, if_pos hk]
  interval_cases j <;> simp [index_pattern]

theorem mesh_result_v_cnt (c : chunk_t) (L : List quad_desc_t) :
    (mesh_result c L).mesh.v_cnt = 4 * L.length := by
  unfold mesh_result
  by_cases h : L.length = 0
  · simp [h]
  · simp [h]

theorem mesh_result_i_cnt (c : chunk_t) (L : List quad_desc_t) :
    (mesh_result c L).mesh.i_cnt = 6 * L.length := by
  unfold mesh_result
  by_cases h : L.length = 0
  · simp [h]
  · simp [h]

theorem quad_in_slot_result (c : chunk_t) (L : List quad_desc_t)
    (hdef : ∀ d1 ∈ L, (quad_vertices d1).isSome = true) (k : Nat) (d : quad_desc_t) :
    quad_in_slot (mesh_result c L).mesh k d = true ↔
      ∃ d1, L[k]? = some d1 ∧ quad_vertices d1 = quad_vertices d := by
  by_cases hk : k < L.length
  · have hL : ¬ L.length = 0 := by omega
    have hget : L[k]? = some L[k] := List.getElem?_eq_getElem hk
    have hmem : L[k] ∈ L := List.getElem_mem hk
    obtain ⟨vs1, hvs1⟩ := Option.isSome_iff_exists.mp (hdef _ hmem)
    obtain ⟨b0, b1, b2, b3, rfl⟩ := quad_vertices_length _ _ hvs1
    have hv : ∀ j, j < 4 → vertex_at L (4 * k + j) = [b0, b1, b2, b3][j]? :=
      fun j hj => vertex_at_slot L k j hj _ _ hget hvs1
    have hi : ∀ j, j < 6 →
        index_at L.length (6 * k + j) = (index_pattern[j]?).map (fun r => 4 * k + r) :=
      fun j hj => index_at_slot L.length k j hj hk
    cases hq : quad_vertices d with
    | none =>
      constructor
      · intro h; simp [quad_in_slot, hq] at h
      · rintro ⟨d1, h1, h2⟩
        rw [hget] at h1
        rw [← Option.some.inj h1, hvs1] at h2
        exact absurd h2 (by simp)
    | some vs =>
      obtain ⟨a0, a1, a2, a3, rfl⟩ := quad_vertices_length _ _ hq
      have hc1 : 4 * k + 4 ≤ 4 * L.length := by omega
      have hc2 : 6 * k + 6 ≤ 6 * L.length := by omega
      have h0 := hv 0 (by omega)
      have h1 := hv 1 (by omega)
      have h2 := hv 2 (by omega)
      have h3 := hv 3 (by omega)
      have i0 := hi 0 (by omega)
      have i1 := hi 1 (by omega)
      have i2 := hi 2 (by omega)
      have i3 := hi 3 (by omega)
      have i4 := hi 4 (by omega)
      have i5 := hi 5 (by omega)
      simp only [List.getElem?_cons_zero, List.getElem?_cons_succ, Nat.add_zero] at h0 h1 h2 h3
      simp only [Nat.add_zero] at i0
      simp only [quad_in_slot, mesh_result, hL, if_false, hq, hc1, hc2, decide_True,
        Bool.true_and, List.range_succ, List.range_zero, List.nil_append, List.cons_append,
        List.all_cons, List.all_nil, Bool.and_true, Nat.add_zero, h0, h1, h2, h3, i0, i1, i2,
        i3, i4, i5, List.getElem?_cons_zero, List.getElem?_cons_succ, beq_self_eq_true,
        Bool.and_eq_true, beq_iff_eq, Option.some.injEq, and_true]
      constructor
      · rintro ⟨e0, e1, e2, e3⟩
        refine ⟨L[k], hget, ?_⟩
        rw [hvs1, e0, e1, e2, e3]
      · rintro ⟨d1, hd1, hd2⟩
        rw [hget] at hd1
        rw [← Option.some.inj hd1, hvs1] at hd2
        have := Option.some.inj hd2
        simp only [List.cons.injEq, and_true] at this
        exact this
  · have hnone : L[k]? = none := by
      rw [List.getElem?_eq_none]; omega
    constructor
    · intro h
      exfalso
      unfold quad_in_slot at h
      split at h
      · rw [mesh_result_v_cnt] at h
        have : ¬ (4 * k + 4 ≤ 4 * L.length) := by omega
        simp [this] at h
      · exact absurd h (by simp)
    · rintro ⟨d1, h1, -⟩
      rw [hnone] at h1
      exact absurd h1 (by simp)

theorem quad_emitted_result (c : chunk_t) (L : List quad_desc_t)
    (hdef : ∀ d1 ∈ L, (quad_vertices d1).isSome = true) (d : quad_desc_t) :
    quad_emitted (mesh_result c L).mesh d = true ↔
      ∃ d1 ∈ L, quad_vertices d1 = quad_vertices d := by
  unfold quad_emitted
  rw [List.any_eq_true, mesh_result_v_cnt]
  have e : 4 * L.length / 4 = L.length := by omega
  rw [e]
  constructor
  · rintro ⟨k, hk, hs⟩
    obtain ⟨d1, h1, h2⟩ := (quad_in_slot_result c L hdef k d).mp hs
    exact ⟨d1, List.getElem?_mem h1, h2⟩
  · rintro ⟨d1, hm, h2⟩
    obtain ⟨k, hk, hget⟩ := List.getElem_of_mem hm
    refine ⟨k, List.mem_range.mpr hk, (quad_in_slot_result c L hdef k d).mpr ⟨d1, ?_, h2⟩⟩
    rw [List.getElem?_eq_getElem hk, hget]

theorem mem_visible_upto (b : chunk_data_t) (d : quad_desc_t) (n : Nat) :
    d ∈ visible_upto b n ↔ ∃ i < n, d ∈ voxel_faces b i := by
  induction n with
  | zero => simp [visible_upto_zero]
  | succ n ih =>
    rw [visible_upto_succ, List.mem_append, ih]
    constructor
    · rintro (⟨i, hi, hm⟩ | hm)
      · exact ⟨i, by omega, hm⟩
      · exact ⟨n, by omega, hm⟩
    · rintro ⟨i, hi, hm⟩
      rcases Nat.lt_succ_iff_lt_or_eq.mp hi with h | h
      · exact Or.inl ⟨i, h, hm⟩
      · subst h; exact Or.inr hm

theorem mem_voxel_faces (b : chunk_data_t) (d : quad_desc_t) (i : Nat) :
    d ∈ voxel_faces b i ↔
      b.types i ≠ CUBETYPE_AIR ∧ ∃ f < 6, face_visible b i f = true ∧ d = quad_of b i f := by
  unfold voxel_faces
  by_cases h0 : b.types i = CUBETYPE_AIR
  · simp [h0]
  · simp only [h0, if_false, faces_upto, List.mem_map, List.mem_filter, List.mem_range, ne_eq,
      not_false_eq_true, true_and]
    constructor
    · rintro ⟨f, ⟨hf, hv⟩, rfl⟩
      exact ⟨f, hf, hv, rfl⟩
    · rintro ⟨f, hf, hv, rfl⟩
      exact ⟨f, ⟨hf, hv⟩, rfl⟩

theorem visible_defined (b : chunk_data_t) (hdef : defined_everywhere b) :
    ∀ d ∈ visible b, (quad_vertices d).isSome = true := by
  intro d hd
  rw [visible_def, mem_visible_upto] at hd
  obtain ⟨i, hi, hm⟩ := hd
  have hne : voxel_faces b i ≠ [] := List.ne_nil_of_mem hm
  have hv : valid_type (b.types i) := by
    rcases hdef i hi with h | h
    · exact h
    · exact absurd h hne
  obtain ⟨-, f, hf, -, rfl⟩ := (mem_voxel_faces b d i).mp hm
  rw [quad_of_isSome b i f hf]
  simp [hv]

theorem flat_index_facts (x y z : Nat) (hx : x < CHUNK_SIZE) (hy : y < CHUNK_HEIGHT)
    (hz : z < CHUNK_SIZE) :
    flat_of x y z < CHUNK_SIZE * CHUNK_HEIGHT * CHUNK_SIZE ∧
      voxel_x (flat_of x y z) = x ∧ voxel_y (flat_of x y z) = y ∧
      voxel_z (flat_of x y z) = z := by
  simp only [flat_of, voxel_x, voxel_y, voxel_z, CHUNK_SIZE, CHUNK_HEIGHT] at *
  omega

theorem quad_of_flat (b : chunk_data_t) (x y z f : Nat) (hx : x < CHUNK_SIZE)
    (hy : y < CHUNK_HEIGHT) (hz : z < CHUNK_SIZE) :
    quad_of b (flat_of x y z) f = quad_desc_at b x y z f := by
  obtain ⟨-, e1, e2, e3⟩ := flat_index_facts x y z hx hy hz
  simp only [quad_of, quad_desc_at, e1, e2, e3]

/-- In the mesh of a run that returned, the quad of a voxel and direction is present exactly
when the voxel is not AIR and the voxel in front of it is AIR, LEAF or outside the chunk. -/
theorem emitted_iff (c c1 : chunk_t) (h : chunk_generate_mesh c = .ok c1) (x y z f : Nat)
    (hx : x < CHUNK_SIZE) (hy : y < CHUNK_HEIGHT) (hz : z < CHUNK_SIZE) (hf : f < 6) :
    quad_emitted c1.mesh (quad_desc_at c.blocks x y z f) = true ↔
      exposed c.blocks x y z f = true := by
  obtain ⟨hc1, -, -, hdef⟩ := generate_ok_eq c c1 h
  subst hc1
  have hsome := visible_defined c.blocks hdef
  rw [quad_emitted_result c _ hsome]
  obtain ⟨hi, e1, e2, e3⟩ := flat_index_facts x y z hx hy hz
  have hexp := exposed_voxel c.blocks _ f hi hf
  rw [e1, e2, e3] at hexp
  rw [hexp]
  constructor
  · rintro ⟨d1, hm, heq⟩
    have hs1 := hsome d1 hm
    obtain ⟨vs, hvs⟩ := Option.isSome_iff_exists.mp hs1
    rw [visible_def, mem_visible_upto] at hm
    obtain ⟨j, hj, hmj⟩ := hm
    obtain ⟨hne, g, hg, hvis, rfl⟩ := (mem_voxel_faces c.blocks d1 j).mp hmj
    obtain ⟨jx, jy, jz⟩ := voxel_coords_lt j hj
    have hinj := quad_vertices_inj (quad_of c.blocks j g) (quad_desc_at c.blocks x y z f) vs hvs
      (by rw [← heq]; exact hvs) jx jy jz hx hy hz
    simp only [quad_of, quad_desc_at] at hinj
    obtain ⟨i1, i2, i3, i4⟩ := hinj
    have hji : j = flat_of x y z := by
      simp only [flat_of, voxel_x, voxel_y, voxel_z, CHUNK_SIZE, CHUNK_HEIGHT] at i1 i2 i3 hj ⊢
      omega
    subst hji
    subst i4
    simp [hne, hvis]
  · intro hb
    simp only [Bool.and_eq_true, decide_eq_true_eq] at hb
    refine ⟨quad_desc_at c.blocks x y z f, ?_, rfl⟩
    rw [visible_def, mem_visible_upto]
    refine ⟨_, hi, (mem_voxel_faces c.blocks _ _).mpr ⟨hb.1, f, hf, hb.2, ?_⟩⟩
    exact (quad_of_flat c.blocks x y z f hx hy hz).symm

theorem adjacent_eq_index (b : chunk_data_t) (x y z d : Nat) (hx : x < CHUNK_SIZE)
    (hy : y < CHUNK_HEIGHT) (hz : z < CHUNK_SIZE) (hd : d < 6) :
    adjacent b x y z d = (neighbour_index x y z d).map b.types := by
  simp only [CHUNK_SIZE, CHUNK_HEIGHT] at hx hy hz
  unfold adjacent cell_at neighbour_index flat_of
  interval_cases d
  · by_cases h : z = 0
    · subst h; simp [face_step]
    · have e : ((z : Int) + -1).toNat = z - 1 := by omega
      have c : 0 ≤ (z : Int) + -1 ∧ (z : Int) + -1 < 16 := by omega
      simp [face_step, h, c, e, hx, hy]
  · by_cases h : z + 1 < 16
    · have e : ((z : Int) + 1).toNat = z + 1 := by omega
      have c : 0 ≤ (z : Int) + 1 ∧ (z : Int) + 1 < 16 := by omega
      simp [face_step, h, c, e, hx, hy]
    · have c : ¬ ((z : Int) + 1 < 16) := by omega
      simp [face_step, h, c]
  · by_cases h : x + 1 < 16
    · have e : ((x : Int) + 1).toNat = x + 1 := by omega
      have c : 0 ≤ (x : Int) + 1 ∧ (x : Int) + 1 < 16 := by omega
      simp [face_step, h, c, e, hy, hz]
    · have c : ¬ ((x : Int) + 1 < 16) := by omega
      simp [face_step, h, c]
  · by_cases h : x = 0
    · subst h; simp [face_step]
    · have e : ((x : Int) + -1).toNat = x - 1 := by omega
      have c : 0 ≤ (x : Int) + -1 ∧ (x : Int) + -1 < 16 := by omega
      simp [face_step, h, c, e, hy, hz]
  · by_cases h : y = 0
    · subst h; simp [face_step]
    · have e : ((y : Int) + -1).toNat = y - 1 := by omega
      have c : 0 ≤ (y : Int) + -1 ∧ (y : Int) + -1 < 64 := by omega
      simp [face_step, h, c, e, hx, hz]
  · by_cases h : y + 1 < 64
    · have e : ((y : Int) + 1).toNat = y + 1 := by omega
      have c : 0 ≤ (y : Int) + 1 ∧ (y : Int) + 1 < 64 := by omega
      simp [face_step, h, c, e, hx, hz]
    · have c : ¬ ((y : Int) + 1 < 64) := by omega
      simp [face_step, h, c]

theorem neighbour_index_lt (x y z d j : Nat) (hx : x < CHUNK_SIZE) (hy : y < CHUNK_HEIGHT)
    (hz : z < CHUNK_SIZE) (h : neighbour_index x y z d = some j) :
    j < CHUNK_SIZE * CHUNK_HEIGHT * CHUNK_SIZE ∧ j ≠ flat_of x y z := by
  simp only [CHUNK_SIZE, CHUNK_HEIGHT] at hx hy hz
  unfold neighbour_index at h
  simp only [flat_of, CHUNK_SIZE, CHUNK_HEIGHT] at h ⊢
  split_ifs at h <;> simp only [Option.some.injEq] at h <;> omega

theorem exposed_index (b : chunk_data_t) (x y z d : Nat) (hx : x < CHUNK_SIZE)
    (hy : y < CHUNK_HEIGHT) (hz : z < CHUNK_SIZE) (hd : d < 6) :
    exposed b x y z d =
      (decide (b.types (flat_of x y z) ≠ CUBETYPE_AIR) &&
        (match neighbour_index x y z d with
         | none => true
         | some j => decide (b.types j = CUBETYPE_AIR ∨ b.types j = CUBETYPE_LEAF))) := by
  unfold exposed front_transparent
  rw [adjacent_eq_index b x y z d hx hy hz hd]
  have hc : cell_at b x y z = some (b.types (flat_of x y z)) := by
    simp only [CHUNK_SIZE, CHUNK_HEIGHT] at hx hy hz
    unfold cell_at flat_of
    rw [if_pos (by omega)]
    simp
  rw [hc]
  cases neighbour_index x y z d <;> simp

theorem visible_upto_length_le (b : chunk_data_t) (n : Nat)
    (hn : n ≤ CHUNK_SIZE * CHUNK_HEIGHT * CHUNK_SIZE) :
    (visible_upto b n).length ≤ (visible b).length := by
  rw [visible_def, visible_upto_length, visible_upto_length]
  apply Finset.sum_le_sum_of_subset
  exact Finset.range_mono hn

theorem room_of_small (b : chunk_data_t) (h : 4 * (visible b).length + 24 < V_MAX) :
    room_everywhere b := by
  intro i hi _
  have := visible_upto_length_le b i (le_of_lt hi)
  omega

/-- The length of the emitted list as the sum over flat indices of the exposed directions. -/
theorem visible_length_flat (b : chunk_data_t) :
    (visible b).length =
      ∑ i in Finset.range (CHUNK_SIZE * CHUNK_HEIGHT * CHUNK_SIZE),
        ∑ d in Finset.range 6,
          if exposed b (voxel_x i) (voxel_y i) (voxel_z i) d then 1 else 0 := by
  rw [visible_def, visible_upto_length]
  apply Finset.sum_congr rfl
  intro i hi
  exact voxel_faces_length b i (Finset.mem_range.mp hi)

theorem exposed_air (b : chunk_data_t) (i d : Nat)
    (hi : i < CHUNK_SIZE * CHUNK_HEIGHT * CHUNK_SIZE) (hd : d < 6)
    (h0 : b.types i = CUBETYPE_AIR) :
    exposed b (voxel_x i) (voxel_y i) (voxel_z i) d = false := by
  rw [exposed_voxel b i d hi hd]
  simp [h0]

theorem exposed_of_clear (b : chunk_data_t) (x y z d : Nat) (hx : x < CHUNK_SIZE)
    (hy : y < CHUNK_HEIGHT) (hz : z < CHUNK_SIZE) (hd : d < 6)
    (hne : b.types (flat_of x y z) ≠ CUBETYPE_AIR)
    (hn : ∀ j, neighbour_index x y z d = some j →
      b.types j = CUBETYPE_AIR ∨ b.types j = CUBETYPE_LEAF) :
    exposed b x y z d = true := by
  rw [exposed_index b x y z d hx hy hz hd]
  cases h : neighbour_index x y z d with
  | none => simp [hne]
  | some j => simp [hne, hn j h]

theorem not_exposed_of_opaque (b : chunk_data_t) (x y z d j : Nat) (hx : x < CHUNK_SIZE)
    (hy : y < CHUNK_HEIGHT) (hz : z < CHUNK_SIZE) (hd : d < 6)
    (hj : neighbour_index x y z d = some j)
    (h0 : b.types j ≠ CUBETYPE_AIR) (h6 : b.types j ≠ CUBETYPE_LEAF) :
    exposed b x y z d = false := by
  rw [exposed_index b x y z d hx hy hz hd, hj]
  simp [h0, h6]

/-- A grid that is AIR except for one non-AIR voxel contributes six quads. -/
theorem single_voxel_length (b : chunk_data_t) (x y z : Nat) (t : Int) (hx : x < CHUNK_SIZE)
    (hy : y < CHUNK_HEIGHT) (hz : z < CHUNK_SIZE) (ht : t ≠ CUBETYPE_AIR)
    (hgrid : ∀ i < CHUNK_SIZE * CHUNK_HEIGHT * CHUNK_SIZE,
      b.types i = if i = flat_of x y z then t else CUBETYPE_AIR) :
    (visible b).length = 6 := by
  obtain ⟨hi, e1, e2, e3⟩ := flat_index_facts x y z hx hy hz
  rw [visible_length_flat,
    Finset.sum_eq_single_of_mem (flat_of x y z) (Finset.mem_range.mpr hi)]
  · have : ∀ d ∈ Finset.range 6,
        (if exposed b (voxel_x (flat_of x y z)) (voxel_y (flat_of x y z))
          (voxel_z (flat_of x y z)) d = true then 1 else 0) = 1 := by
      intro d hd
      have hd := Finset.mem_range.mp hd
      rw [e1, e2, e3, exposed_of_clear b x y z d hx hy hz hd]
      · simp
      · rw [hgrid _ hi]; simp [ht]
      · intro j hj
        obtain ⟨hjlt, hjne⟩ := neighbour_index_lt x y z d j hx hy hz hj
        left
        rw [hgrid j hjlt, if_neg hjne]
    rw [Finset.sum_congr rfl this]
    simp
  · intro i hir hne
    have hir := Finset.mem_range.mp hir
    apply Finset.sum_eq_zero
    intro d hd
    rw [exposed_air b i d hir (Finset.mem_range.mp hd) (by rw [hgrid i hir, if_neg hne])]
    simp

/-- A grid that is AIR except for two STONE voxels stacked at `y = 0` and `y = 1` contributes
ten quads. -/
theorem column_length (b : chunk_data_t) (x z : Nat) (hx : x < CHUNK_SIZE) (hz : z < CHUNK_SIZE)
    (hgrid : ∀ i < CHUNK_SIZE * CHUNK_HEIGHT * CHUNK_SIZE,
      b.types i = if i = flat_of x 0 z ∨ i = flat_of x 1 z then CUBETYPE_STONE
        else CUBETYPE_AIR) :
    (visible b).length = 10 := by
  have hy0 : 0 < CHUNK_HEIGHT := by decide
  have hy1 : 1 < CHUNK_HEIGHT := by decide
  obtain ⟨hi0, a1, a2, a3⟩ := flat_index_facts x 0 z hx hy0 hz
  obtain ⟨hi1, b1, b2, b3⟩ := flat_index_facts x 1 z hx hy1 hz
  have hne : flat_of x 0 z ≠ flat_of x 1 z := by
    simp only [flat_of, CHUNK_SIZE, CHUNK_HEIGHT]; omega
  have ht0 : b.types (flat_of x 0 z) = CUBETYPE_STONE := by rw [hgrid _ hi0]; simp
  have ht1 : b.types (flat_of x 1 z) = CUBETYPE_STONE := by rw [hgrid _ hi1]; simp
  have hx' := hx
  have hz' := hz
  simp only [CHUNK_SIZE] at hx' hz'
  have clear0 : ∀ d, d < 5 → exposed b x 0 z d = true := by
    intro d hd
    apply exposed_of_clear b x 0 z d hx hy0 hz (by omega) (by rw [ht0]; decide)
    intro j hj
    obtain ⟨hjlt, hjne⟩ := neighbour_index_lt x 0 z d j hx hy0 hz hj
    left
    rw [hgrid j hjlt, if_neg]
    rintro (h | h)
    · exact hjne h
    · subst h
      unfold neighbour_index at hj
      simp only [flat_of, CHUNK_SIZE, CHUNK_HEIGHT] at hj
      interval_cases d <;> simp at hj <;> omega
  have top0 : exposed b x 0 z 5 = false := by
    apply not_exposed_of_opaque b x 0 z 5 (flat_of x 1 z) hx hy0 hz (by omega)
    · simp [neighbour_index]
    · rw [ht1]; decide
    · rw [ht1]; decide
  have clear1 : ∀ d, d < 6 → d ≠ 4 → exposed b x 1 z d = true := by
    intro d hd hd4
    apply exposed_of_clear b x 1 z d hx hy1 hz hd (by rw [ht1]; decide)
    intro j hj
    obtain ⟨hjlt, hjne⟩ := neighbour_index_lt x 1 z d j hx hy1 hz hj
    left
    rw [hgrid j hjlt, if_neg]
    rintro (h | h)
    · subst h
      unfold neighbour_index at hj
      simp only [flat_of, CHUNK_SIZE, CHUNK_HEIGHT] at hj
      interval_cases d <;> simp at hj <;> omega
    · exact hjne h
  have bottom1 : exposed b x 1 z 4 = false := by
    apply not_exposed_of_opaque b x 1 z 4 (flat_of x 0 z) hx hy1 hz (by omega)
    · simp [neighbour_index]
    · rw [ht0]; decide
    · rw [ht0]; decide
  rw [visible_length_flat,
    Finset.sum_eq_add (flat_of x 0 z) (flat_of x 1 z) hne]
  · rw [a1, a2, a3, b1, b2, b3]
    simp only [Finset.sum_range_succ, Finset.sum_range_zero, Nat.zero_add]
    rw [clear0 0 (by omega), clear0 1 (by omega), clear0 2 (by omega), clear0 3 (by omega),
      clear0 4 (by omega), top0, clear1 0 (by omega) (by omega), clear1 1 (by omega) (by omega),
      clear1 2 (by omega) (by omega), clear1 3 (by omega) (by omega), bottom1,
      clear1 5 (by omega) (by omega)]
    simp
  · intro i hir hne2
    have hir := Finset.mem_range.mp hir
    apply Finset.sum_eq_zero
    intro d hd
    rw [exposed_air b i d hir (Finset.mem_range.mp hd)
      (by rw [hgrid i hir, if_neg (fun h => h.elim hne2.1 hne2.2)])]
    simp
  · intro h; exact absurd (Finset.mem_range.mpr hi0) h
  · intro h; exact absurd (Finset.mem_range.mpr hi1) h

/-- An all-AIR grid contributes no quad. -/
theorem air_length (b : chunk_data_t)
    (hgrid : ∀ i < CHUNK_SIZE * CHUNK_HEIGHT * CHUNK_SIZE, b.types i = CUBETYPE_AIR) :
    (visible b).length = 0 := by
  rw [visible_length_flat]
  apply Finset.sum_eq_zero
  intro i hi
  apply Finset.sum_eq_zero
  intro d hd
  rw [exposed_air b i d (Finset.mem_range.mp hi) (Finset.mem_range.mp hd)
    (hgrid i (Finset.mem_range.mp hi))]
  simp

/-- What `_add_face_to_mesh` returns when all ten stores land inside their buffers. -/
theorem add_face_eq (d : quad_desc_t) (s : emit_state) (a0 a1 a2 a3 : vertex_t)
    (hq : quad_vertices d = some [a0, a1, a2, a3])
    (hv : s.v_cnt + 4 ≤ s.vertices.size) (hi : s.i_cnt + 6 ≤ s.indices.size)
    (hvs : s.vertices.size < 2 ^ 32) (his : s.indices.size < 2 ^ 32) :
    _add_face_to_mesh d s = some
      { i_cnt := s.i_cnt + 6, v_cnt := s.v_cnt + 4,
        indices :=
          { size := s.indices.size,
            data := fun q =>
              if q = s.i_cnt + 5 then some (s.v_cnt + 2)
              else if q = s.i_cnt + 4 then some (s.v_cnt + 3)
              else if q = s.i_cnt + 3 then some (s.v_cnt + 0)
              else if q = s.i_cnt + 2 then some (s.v_cnt + 1)
              else if q = s.i_cnt + 1 then some (s.v_cnt + 2)
              else if q = s.i_cnt + 0 then some (s.v_cnt + 0) else s.indices.data q },
        vertices :=
          { size := s.vertices.size,
            data := fun q =>
              if q = s.v_cnt + 3 then some a3
              else if q = s.v_cnt + 2 then some a2
              else if q = s.v_cnt + 1 then some a1
              else if q = s.v_cnt + 0 then some a0 else s.vertices.data q } } := by
  have e1 : ∀ k, k ≤ 6 → (s.i_cnt + k) % 2 ^ 32 = s.i_cnt + k := by
    intro k hk; apply Nat.mod_eq_of_lt; omega
  have e2 : ∀ k, k ≤ 4 → (s.v_cnt + k) % 2 ^ 32 = s.v_cnt + k := by
    intro k hk; apply Nat.mod_eq_of_lt; omega
  simp only [_add_face_to_mesh, hq]
  rw [buffer_write_eq _ _ _ (by omega)]
  simp only [Option.bind_eq_bind, Option.some_bind]
  rw [buffer_write_eq _ _ _ (by simp only []; omega)]
  simp only [Option.bind_eq_bind, Option.some_bind]
  rw [buffer_write_eq _ _ _ (by simp only []; omega)]
  simp only [Option.bind_eq_bind, Option.some_bind]
  rw [buffer_write_eq _ _ _ (by simp only []; omega)]
  simp only [Option.bind_eq_bind, Option.some_bind]
  rw [e1 0 (by omega), e1 1 (by omega), e1 2 (by omega), e1 3 (by omega), e1 4 (by omega),
    e1 5 (by omega), e1 6 (by omega), e2 0 (by omega), e2 1 (by omega), e2 2 (by omega),
    e2 3 (by omega), e2 4 (by omega)]
  rw [buffer_write_eq _ _ _ (by omega)]
  simp only [Option.bind_eq_bind, Option.some_bind]
  rw [buffer_write_eq _ _ _ (by simp only []; omega)]
  simp only [Option.bind_eq_bind, Option.some_bind]
  rw [buffer_write_eq _ _ _ (by simp only []; omega)]
  simp only [Option.bind_eq_bind, Option.some_bind]
  rw [buffer_write_eq _ _ _ (by simp only []; omega)]
  simp only [Option.bind_eq_bind, Option.some_bind]
  rw [buffer_write_eq _ _ _ (by simp only []; omega)]
  simp only [Option.bind_eq_bind, Option.some_bind]
  rw [buffer_write_eq _ _ _ (by simp only []; omega)]
  simp only [Option.bind_eq_bind, Option.some_bind]
  rfl

theorem buffer_write_some {α : Type} (buf buf1 : buffer α) (p : Nat) (a : α)
    (h : buf.write p a = some buf1) :
    p < buf.size ∧ buf1.size = buf.size ∧
      buf1.data = fun q => if q = p then some a else buf.data q := by
  unfold buffer.write at h
  split at h
  · rename_i hp
    have := Option.some.inj h
    subst this
    exact ⟨hp, rfl, rfl⟩
  · exact absurd h (by simp)

/-- The four vertex slots a returning call of `_add_face_to_mesh` has filled. -/
theorem add_face_vertices (d : quad_desc_t) (s s1 : emit_state)
    (h : _add_face_to_mesh d s = some s1) :
    ∃ a0 a1 a2 a3, quad_vertices d = some [a0, a1, a2, a3] ∧
      s1.vertices.data (s.v_cnt + 0) = some a0 ∧ s1.vertices.data (s.v_cnt + 1) = some a1 ∧
      s1.vertices.data (s.v_cnt + 2) = some a2 ∧ s1.vertices.data (s.v_cnt + 3) = some a3 := by
  cases hq : quad_vertices d with
  | none => simp [_add_face_to_mesh, hq] at h
  | some vs =>
    obtain ⟨a0, a1, a2, a3, rfl⟩ := quad_vertices_length d vs hq
    refine ⟨a0, a1, a2, a3, rfl, ?_⟩
    simp only [_add_face_to_mesh, hq, Option.bind_eq_bind] at h
    cases w0 : s.vertices.write (s.v_cnt + 0) a0 with
    | none => rw [w0] at h; simp at h
    | some v0 =>
    rw [w0] at h; simp only [Option.some_bind] at h
    cases w1 : v0.write (s.v_cnt + 1) a1 with
    | none => rw [w1] at h; simp at h
    | some v1 =>
    rw [w1] at h; simp only [Option.some_bind] at h
    cases w2 : v1.write (s.v_cnt + 2) a2 with
    | none => rw [w2] at h; simp at h
    | some v2 =>
    rw [w2] at h; simp only [Option.some_bind] at h
    cases w3 : v2.write (s.v_cnt + 3) a3 with
    | none => rw [w3] at h; simp at h
    | some v3 =>
    rw [w3] at h; simp only [Option.some_bind] at h
    have hvert : s1.vertices = v3 := by
      simp only [Option.bind_eq_some] at h
      obtain ⟨_, _, _, _, _, _, _, _, _, _, _, _, h⟩ := h
      have := Option.some.inj h
      rw [← this]
    obtain ⟨-, -, d0⟩ := buffer_write_some _ _ _ _ w0
    obtain ⟨-, -, d1⟩ := buffer_write_some _ _ _ _ w1
    obtain ⟨-, -, d2⟩ := buffer_write_some _ _ _ _ w2
    obtain ⟨-, -, d3⟩ := buffer_write_some _ _ _ _ w3
    rw [hvert, d3, d2, d1, d0]
    simp

theorem floor_scaled (a n : Nat) :
    ⌊((a : ℚ) / 65535.0 + TX n) * 0xFFFF⌋₊ = a + n * 65535 / 16 := by
  have e : ((a : ℚ) / 65535.0 + TX n) * 0xFFFF = ((n * 65535 : ℕ) : ℚ) / (16 : ℕ) + (a : ℕ) := by
    unfold TX
    push_cast
    norm_num
    ring
  rw [e, Nat.floor_add_nat (by positivity), Nat.floor_div_eq_div]
  omega

theorem floor_siz : ⌊SIZ * 0xFFFF⌋₊ = 4095 := by
  have h := floor_scaled 0 1
  have e : ((0 : ℕ) : ℚ) / 65535.0 + TX ((1 : ℕ) : ℚ) = SIZ := by
    unfold SIZ; norm_num
  rw [e] at h
  rw [h]

theorem floor_zero : ⌊(0.0 : ℚ) * 0xFFFF⌋₊ = 0 := by
  norm_num

theorem pack_eq (u v : ℚ) (hu : ⌊u * 0xFFFF⌋₊ < 65536) (hv : ⌊v * 0xFFFF⌋₊ < 65536) :
    PACK u v = ⌊u * 0xFFFF⌋₊ * 65536 + ⌊v * 0xFFFF⌋₊ := by
  unfold PACK
  generalize ⌊u * 0xFFFF⌋₊ = hi at hu
  generalize ⌊v * 0xFFFF⌋₊ = lo at hv
  have h1 : hi % 2 ^ 32 = hi := Nat.mod_eq_of_lt (by omega)
  have h2 : lo % 2 ^ 32 = lo := Nat.mod_eq_of_lt (by omega)
  have h3 : hi <<< 16 = 2 ^ 16 * hi := by rw [Nat.shiftLeft_eq]; ring
  have h4 : (2 ^ 16 * hi) % 2 ^ 32 = 2 ^ 16 * hi := Nat.mod_eq_of_lt (by omega)
  have h5 : lo &&& 0xFFFF = lo := by
    have := Nat.and_pow_two_sub_one_of_lt_two_pow (x := lo) (n := 16) (by omega)
    simpa using this
  have h6 : lo < 2 ^ 16 := by omega
  rw [h1, h2, h3, h4, h5, ← Nat.mul_add_lt_is_or h6 hi]
  rw [Nat.mod_eq_of_lt (by omega)]
  omega

theorem pack_templates :
    PACK 0.0 0.0 = 0 ∧ PACK SIZ 0.0 = 268369920 ∧ PACK SIZ SIZ = 268374015 ∧
      PACK 0.0 SIZ = 4095 := by
  refine ⟨?_, ?_, ?_, ?_⟩
  · rw [pack_eq _ _ (by rw [floor_zero]; omega) (by rw [floor_zero]; omega), floor_zero]
  · rw [pack_eq _ _ (by rw [floor_siz]; omega) (by rw [floor_zero]; omega), floor_zero,
      floor_siz]
  · rw [pack_eq _ _ (by rw [floor_siz]; omega) (by rw [floor_siz]; omega), floor_siz]
  · rw [pack_eq _ _ (by rw [floor_zero]; omega) (by rw [floor_siz]; omega), floor_zero,
      floor_siz]

/-- Every template vertex has coordinates at most 2 and a uv word whose halves are 0 or
4095. -/
theorem template_vertex (d k : Nat) (hd : d < 6) (hk : k < 4) (row : List vertex_t)
    (tv : vertex_t) (hrow : face_vertices[d]? = some row) (htv : row[k]? = some tv) :
    tv.x ≤ 2 ∧ tv.y ≤ 2 ∧ tv.z ≤ 2 ∧
      ∃ a b w : ℕ, (a = 0 ∨ a = 4095) ∧ (b = 0 ∨ b = 4095) ∧ tv.uv = some w ∧
        _unpack w = { elt0 := (a : ℚ) / 65535.0, elt1 := (b : ℚ) / 65535.0, alive := false } := by
  obtain ⟨p0, p1, p2, p3⟩ := pack_templates
  have s1 : 268369920 >>> 16 = 4095 := by decide
  have s2 : 268374015 >>> 16 = 4095 := by decide
  have s3 : 4095 >>> 16 = 0 := by decide
  have l1 : 268369920 &&& 0xFFFF = 0 := by decide
  have l2 : 268374015 &&& 0xFFFF = 4095 := by decide
  have l3 : 4095 &&& 0xFFFF = 4095 := by decide
  have u0 : _unpack 0 =
      { elt0 := ((0 : ℕ) : ℚ) / 65535.0, elt1 := ((0 : ℕ) : ℚ) / 65535.0, alive := false } := by
    simp [_unpack]
  have u1 : _unpack 268369920 =
      { elt0 := ((4095 : ℕ) : ℚ) / 65535.0, elt1 := ((0 : ℕ) : ℚ) / 65535.0, alive := false } := by
    simp only [_unpack, s1, l1]
  have u2 : _unpack 268374015 =
      { elt0 := ((4095 : ℕ) : ℚ) / 65535.0, elt1 := ((4095 : ℕ) : ℚ) / 65535.0, alive := false } := by
    simp only [_unpack, s2, l2]
  have u3 : _unpack 4095 =
      { elt0 := ((0 : ℕ) : ℚ) / 65535.0, elt1 := ((4095 : ℕ) : ℚ) / 65535.0, alive := false } := by
    simp only [_unpack, s3, l3]
  interval_cases d <;> simp only [face_vertices, List.getElem?_cons_zero,
      List.getElem?_cons_succ, Option.some.injEq] at hrow <;> subst hrow <;>
    interval_cases k <;> simp only [List.getElem?_cons_zero, List.getElem?_cons_succ,
      Option.some.injEq] at htv <;> subst htv <;>
    simp only [p0, p1, p2, p3] <;>
    first
    | exact ⟨by omega, by omega, by omega, 0, 0, 0, Or.inl rfl, Or.inl rfl, rfl, u0⟩
    | exact ⟨by omega, by omega, by omega, 4095, 0, 268369920, Or.inr rfl, Or.inl rfl, rfl, u1⟩
    | exact ⟨by omega, by omega, by omega, 4095, 4095, 268374015, Or.inr rfl, Or.inr rfl, rfl,
        u2⟩
    | exact ⟨by omega, by omega, by omega, 0, 4095, 4095, Or.inl rfl, Or.inr rfl, rfl, u3⟩

/-- Every atlas origin of the block types `0..6` is a pair of sixteenths, at most `7/16` and
`15/16`. -/
theorem uv_lookup_entry (t d : Nat) (ht : t < 7) (hd : d < 6) :
    ∃ n m : ℕ, n ≤ 7 ∧ m ≤ 15 ∧ uv_lookup[t * 6 + d]? = some (TX n, TX m) := by
  have z : (0.0 : ℚ) = TX ((0 : ℕ) : ℚ) := by norm_num [TX]
  interval_cases t <;> interval_cases d <;>
    simp only [uv_lookup, Nat.reduceMul, Nat.reduceAdd, List.getElem?_cons_zero,
      List.getElem?_cons_succ] <;>
    first
    | (refine ⟨0, 0, by omega, by omega, ?_⟩; show some ((0.0 : ℚ), (0.0 : ℚ)) = _; rw [← z])
    | (refine ⟨0, 15, by omega, by omega, ?_⟩; norm_num; done)
    | (refine ⟨1, 15, by omega, by omega, ?_⟩; norm_num; done)
    | (refine ⟨2, 15, by omega, by omega, ?_⟩; norm_num; done)
    | (refine ⟨3, 15, by omega, by omega, ?_⟩; norm_num; done)
    | (refine ⟨4, 15, by omega, by omega, ?_⟩; norm_num; done)
    | (refine ⟨5, 15, by omega, by omega, ?_⟩; norm_num; done)
    | (refine ⟨6, 15, by omega, by omega, ?_⟩; norm_num; done)
    | (refine ⟨7, 15, by omega, by omega, ?_⟩; norm_num)

theorem cell_at_nat (b : chunk_data_t) (x y z : Nat) (hx : x < CHUNK_SIZE)
    (hy : y < CHUNK_HEIGHT) (hz : z < CHUNK_SIZE) :
    cell_at b x y z = some (b.types (flat_of x y z)) := by
  simp only [CHUNK_SIZE, CHUNK_HEIGHT] at hx hy hz
  unfold cell_at flat_of
  rw [if_pos (by omega)]
  simp

theorem exposed_iff (b : chunk_data_t) (x y z d : Nat) (hx : x < CHUNK_SIZE)
    (hy : y < CHUNK_HEIGHT) (hz : z < CHUNK_SIZE) :
    exposed b x y z d = true ↔
      b.types (flat_of x y z) ≠ CUBETYPE_AIR ∧ front_transparent b x y z d = true := by
  unfold exposed
  rw [cell_at_nat b x y z hx hy hz]
  simp

theorem opaque_exposed_iff (b : chunk_data_t) (x y z d : Nat) (hx : x < CHUNK_SIZE)
    (hy : y < CHUNK_HEIGHT) (hz : z < CHUNK_SIZE) :
    opaque_exposed b x y z d = true ↔
      (b.types (flat_of x y z) ≠ CUBETYPE_AIR ∧ b.types (flat_of x y z) ≠ CUBETYPE_LEAF) ∧
        front_transparent b x y z d = true := by
  unfold opaque_exposed
  rw [cell_at_nat b x y z hx hy hz]
  simp

theorem is_transparent_false_iff (t : Int) :
    is_transparent t = false ↔ t ≠ CUBETYPE_AIR ∧ t ≠ CUBETYPE_LEAF := by
  unfold is_transparent
  by_cases h0 : t = CUBETYPE_AIR
  · simp [h0]
  · by_cases h6 : t = CUBETYPE_LEAF
    · simp [h6]
    · simp [h0, h6]

theorem face_step_opposite (f : Nat) (hf : f < 6) :
    face_step (opposite f) =
      (-(face_step f).1, -(face_step f).2.1, -(face_step f).2.2) ∧ opposite f < 6 := by
  interval_cases f <;> simp [opposite, face_step] <;> decide

/-- A voxel whose neighbour in direction `f` lies in the chunk and is opaque does not count in
that direction. -/
theorem not_exposed_of_opaque_front (b : chunk_data_t) (x y z f x1 y1 z1 : Nat)
    (hx1 : x1 < CHUNK_SIZE) (hy1 : y1 < CHUNK_HEIGHT) (hz1 : z1 < CHUNK_SIZE)
    (ex : (x1 : Int) = x + (face_step f).1) (ey : (y1 : Int) = y + (face_step f).2.1)
    (ez : (z1 : Int) = z + (face_step f).2.2)
    (hop : is_transparent (b.types (flat_of x1 y1 z1)) = false) :
    exposed b x y z f = false := by
  have hadj : adjacent b x y z f = some (b.types (flat_of x1 y1 z1)) := by
    unfold adjacent
    rw [← ex, ← ey, ← ez]
    exact cell_at_nat b x1 y1 z1 hx1 hy1 hz1
  obtain ⟨h0, h6⟩ := (is_transparent_false_iff _).mp hop
  unfold exposed front_transparent
  rw [hadj]
  cases cell_at b x y z <;> simp [h0, h6]

theorem valid_type_zero : valid_type CUBETYPE_AIR := by
  unfold valid_type; decide

/-- A run on a grid that is AIR except for one voxel of a valid non-AIR type returns, with six
quads. -/
theorem single_voxel_ok (c : chunk_t) (x y z : Nat) (t : Int) (hx : x < CHUNK_SIZE)
    (hy : y < CHUNK_HEIGHT) (hz : z < CHUNK_SIZE) (ht : t ≠ CUBETYPE_AIR) (hv : valid_type t)
    (hgrid : ∀ i < CHUNK_SIZE * CHUNK_HEIGHT * CHUNK_SIZE,
      c.blocks.types i = if i = flat_of x y z then t else CUBETYPE_AIR) :
    chunk_generate_mesh c = .ok (mesh_result c (visible c.blocks)) ∧
      (visible c.blocks).length = 6 := by
  have hlen := single_voxel_length c.blocks x y z t hx hy hz ht hgrid
  refine ⟨generate_ok_of_room c ?_ (room_of_small _ (by rw [hlen]; decide)), hlen⟩
  intro i hi
  rw [hgrid i hi]
  split
  · exact hv
  · exact valid_type_zero

/-- A run on the two-voxel STONE column returns, with ten quads. -/
theorem column_ok (c : chunk_t) (x z : Nat) (hx : x < CHUNK_SIZE) (hz : z < CHUNK_SIZE)
    (hgrid : ∀ i < CHUNK_SIZE * CHUNK_HEIGHT * CHUNK_SIZE,
      c.blocks.types i = if i = flat_of x 0 z ∨ i = flat_of x 1 z then CUBETYPE_STONE
        else CUBETYPE_AIR) :
    chunk_generate_mesh c = .ok (mesh_result c (visible c.blocks)) ∧
      (visible c.blocks).length = 10 := by
  have hlen := column_length c.blocks x z hx hz hgrid
  refine ⟨generate_ok_of_room c ?_ (room_of_small _ (by rw [hlen]; decide)), hlen⟩
  intro i hi
  rw [hgrid i hi]
  split
  · unfold valid_type; decide
  · exact valid_type_zero

/-- A run on an all-AIR grid returns, with no quad. -/
theorem air_ok (c : chunk_t)
    (hgrid : ∀ i < CHUNK_SIZE * CHUNK_HEIGHT * CHUNK_SIZE, c.blocks.types i = CUBETYPE_AIR) :
    chunk_generate_mesh c = .ok (mesh_result c (visible c.blocks)) ∧
      (visible c.blocks).length = 0 := by
  have hlen := air_length c.blocks hgrid
  refine ⟨generate_ok_of_room c ?_ (room_of_small _ (by rw [hlen]; decide)), hlen⟩
  intro i hi
  rw [hgrid i hi]
  exact valid_type_zero

theorem front_transparent_of_edge (b : chunk_data_t) (x y z d : Nat) (hx : x < CHUNK_SIZE)
    (hy : y < CHUNK_HEIGHT) (hz : z < CHUNK_SIZE) (hd : d < 6)
    (h : neighbour_index x y z d = none) : front_transparent b x y z d = true := by
  unfold front_transparent
  rw [adjacent_eq_index b x y z d hx hy hz hd, h]
  rfl

theorem chunk_of_blocks (b : chunk_data_t) : (chunk_of b).blocks = b := rfl

/-- The `k`-th vertex of the quad of a descriptor with a position inside the chunk, a block
type `0..6` and a face `0..5`: the template vertex moved by twice the position without
wrapping, its normal flag kept, its uv word indeterminate; the two quotients `_unpack` computes
from the template word, with the atlas origin added and scaled, fit 16 bits each. -/
theorem quad_vertex_spec (x y z t d k : Nat) (hx : x < CHUNK_SIZE) (hy : y < CHUNK_HEIGHT)
    (hz : z < CHUNK_SIZE) (ht : t < 7) (hd : d < 6) (hk : k < 4) :
    ∃ row tv o vs w, face_vertices[d]? = some row ∧ row[k]? = some tv ∧
      uv_lookup[t * 6 + d]? = some o ∧
      quad_vertices { x := x, y := y, z := z, type := t, face := d } = some vs ∧
      vs[k]? = some { x := tv.x + 2 * x, y := tv.y + 2 * y, z := tv.z + 2 * z, n := tv.n,
                      uv := none } ∧
      tv.x + 2 * x ≤ 128 ∧ tv.y + 2 * y ≤ 128 ∧ tv.z + 2 * z ≤ 128 ∧
      tv.uv = some w ∧
      ⌊((_unpack w).elt0 + o.1) * 0xFFFF⌋₊ < 65536 ∧
      ⌊((_unpack w).elt1 + o.2) * 0xFFFF⌋₊ < 65536 := by
  have hsome : (quad_vertices { x := x, y := y, z := z, type := t, face := d }).isSome = true := by
    rw [quad_vertices_isSome]
    simp only [decide_eq_true_eq]
    omega
  obtain ⟨vs, hvs⟩ := Option.isSome_iff_exists.mp hsome
  obtain ⟨t0, t1, t2, t3, o, hrow, ho, hlist⟩ := quad_vertices_eq _ vs hvs
  simp only [] at hrow ho
  have hklt : k < [t0, t1, t2, t3].length := by simpa using hk
  have htv : [t0, t1, t2, t3][k]? = some ([t0, t1, t2, t3][k]) := List.getElem?_eq_getElem hklt
  generalize [t0, t1, t2, t3][k] = tv at htv
  obtain ⟨bx, by_, bz, a, b, w, ha, hb, hw, hun⟩ := template_vertex d k hd hk _ tv hrow htv
  obtain ⟨n, m, hn, hm, hent⟩ := uv_lookup_entry t d ht hd
  have ho2 : o = (TX n, TX m) := by
    rw [ho] at hent
    exact Option.some.inj hent
  simp only [CHUNK_SIZE, CHUNK_HEIGHT] at hx hy hz
  have f1 : ⌊((_unpack w).elt0 + o.1) * 0xFFFF⌋₊ = a + n * 65535 / 16 := by
    rw [hun, ho2]; exact floor_scaled a n
  have f2 : ⌊((_unpack w).elt1 + o.2) * 0xFFFF⌋₊ = b + m * 65535 / 16 := by
    rw [hun, ho2]; exact floor_scaled b m
  have g1 : ⌊((_unpack w).elt0 + o.1) * 0xFFFF⌋₊ < 65536 := by
    rw [f1]; rcases ha with h | h <;> subst h <;> omega
  have g2 : ⌊((_unpack w).elt1 + o.2) * 0xFFFF⌋₊ < 65536 := by
    rw [f2]; rcases hb with h | h <;> subst h <;> omega
  refine ⟨_, tv, o, vs, w, hrow, htv, ho, hvs, ?_, by omega, by omega, by omega, hw, g1, g2⟩
  have hmv : vs[k]? = some (moved { x := x, y := y, z := z, type := t, face := d } tv) := by
    rw [hlist]
    have hk4 : k = 0 ∨ k = 1 ∨ k = 2 ∨ k = 3 := by omega
    rcases hk4 with h | h | h | h <;> subst h <;>
      simp only [List.getElem?_cons_zero, List.getElem?_cons_succ, Option.some.injEq] at htv ⊢ <;>
      rw [htv]
  rw [hmv]
  simp only [moved, Option.some.injEq, vertex_t.mk.injEq, and_true]
  refine ⟨?_, ?_, ?_⟩ <;> omega

theorem position_moved (d : quad_desc_t) (t : vertex_t) (hx : d.x < CHUNK_SIZE)
    (hy : d.y < CHUNK_HEIGHT) (hz : d.z < CHUNK_SIZE) (tx : t.x ≤ 2) (ty : t.y ≤ 2)
    (tz : t.z ≤ 2) :
    position (moved d t) =
      ((t.x : Int) + 2 * d.x, (t.y : Int) + 2 * d.y, (t.z : Int) + 2 * d.z) := by
  simp only [CHUNK_SIZE, CHUNK_HEIGHT] at hx hy hz
  have e1 : (t.x + d.x * 2) % 256 = t.x + 2 * d.x := by omega
  have e2 : (t.y + d.y * 2) % 256 = t.y + 2 * d.y := by omega
  have e3 : (t.z + d.z * 2) % 256 = t.z + 2 * d.z := by omega
  simp only [position, moved, e1, e2, e3]
  push_cast
  rfl

theorem triangle_normal_moved (d : quad_desc_t) (a b c : vertex_t)
    (hx : d.x < CHUNK_SIZE) (hy : d.y < CHUNK_HEIGHT) (hz : d.z < CHUNK_SIZE)
    (ha : a.x ≤ 2 ∧ a.y ≤ 2 ∧ a.z ≤ 2) (hb : b.x ≤ 2 ∧ b.y ≤ 2 ∧ b.z ≤ 2)
    (hc : c.x ≤ 2 ∧ c.y ≤ 2 ∧ c.z ≤ 2) :
    triangle_normal (moved d a) (moved d b) (moved d c) = triangle_normal a b c := by
  unfold triangle_normal
  rw [position_moved d a hx hy hz ha.1 ha.2.1 ha.2.2,
    position_moved d b hx hy hz hb.1 hb.2.1 hb.2.2,
    position_moved d c hx hy hz hc.1 hc.2.1 hc.2.2]
  simp only [position]
  refine Prod.ext ?_ (Prod.ext ?_ ?_) <;> simp only [] <;> ring

/-- The winding of the four template vertices of every face: the two index triangles are
clockwise seen from outside, the stored order is counter-clockwise. -/
theorem template_winding (d : Nat) (hd : d < 6) :
    ∃ v0 v1 v2 v3, face_vertices[d]? = some [v0, v1, v2, v3] ∧
      clockwise_from_outside d v0 v2 v1 ∧ clockwise_from_outside d v0 v3 v2 ∧
      counter_clockwise_from_outside d v0 v1 v2 ∧ counter_clockwise_from_outside d v1 v2 v3 ∧
      counter_clockwise_from_outside d v2 v3 v0 ∧ counter_clockwise_from_outside d v3 v0 v1 := by
  interval_cases d <;>
    exact ⟨_, _, _, _, rfl, ⟨4, by decide, by decide⟩, ⟨4, by decide, by decide⟩,
      ⟨4, by decide, by decide⟩, ⟨4, by decide, by decide⟩, ⟨4, by decide, by decide⟩,
      ⟨4, by decide, by decide⟩⟩

theorem mesh_result_reserved (c : chunk_t) (L : List quad_desc_t) :
    ((mesh_result c L).mesh.v_rsrv = 0 ∧ (mesh_result c L).mesh.i_rsrv = 0 ∧ L.length = 0) ∨
      ((mesh_result c L).mesh.v_rsrv = V_MAX ∧ (mesh_result c L).mesh.i_rsrv = I_MAX ∧
        0 < L.length) := by
  unfold mesh_result
  by_cases h : L.length = 0
  · left; simp [h]
  · right; simp [h]; omega

theorem mesh_result_canaries (c : chunk_t) (L : List quad_desc_t) :
    (mesh_result c L).mesh.__start_canary = START_CANARY_VAL ∧
      (mesh_result c L).mesh.__mid_canary = MID_CANARY_VAL ∧
      (mesh_result c L).mesh.__end_canary = END_CANARY_VAL := by
  unfold mesh_result
  by_cases h : L.length = 0
  · simp [h]
  · simp [h]

theorem mesh_result_blocks (c : chunk_t) (L : List quad_desc_t) :
    (mesh_result c L).blocks = c.blocks := by
  unfold mesh_result
  by_cases h : L.length = 0
  · simp [h]
  · simp [h]

theorem unpack_of_halves (hi lo : Nat) (hlo : lo < 65536) :
    _unpack (hi * 65536 + lo) =
      { elt0 := (hi : ℚ) / 65535, elt1 := (lo : ℚ) / 65535, alive := false } := by
  have e1 : (hi * 65536 + lo) >>> 16 = hi := by
    rw [Nat.shiftRight_eq_div_pow]; omega
  have e2 : (hi * 65536 + lo) &&& 0xFFFF = lo := by
    have := Nat.and_pow_two_sub_one_eq_mod (hi * 65536 + lo) 16
    simp only [Nat.reducePow, Nat.add_one_sub_one] at this
    rw [this]; omega
  have e3 : (65535.0 : ℚ) = 65535 := by norm_num
  simp only [_unpack, e1, e2, e3]

theorem floor_scaled_lt (u : ℚ) (hu0 : 0 ≤ u) (hu1 : u < 1) : ⌊u * 0xFFFF⌋₊ < 65535 := by
  rw [Nat.floor_lt (by positivity)]
  push_cast
  linarith

theorem floor_scaled_close (u : ℚ) (hu0 : 0 ≤ u) :
    |u - (⌊u * 0xFFFF⌋₊ : ℚ) / 65535| ≤ 1 / 65535 := by
  have h1 : (⌊u * 0xFFFF⌋₊ : ℚ) ≤ u * 0xFFFF := Nat.floor_le (by positivity)
  have h2 : u * 0xFFFF < (⌊u * 0xFFFF⌋₊ : ℚ) + 1 := Nat.lt_floor_add_one _
  rw [abs_le]
  constructor
  · have : (⌊u * 0xFFFF⌋₊ : ℚ) / 65535 ≤ u := by
      rw [div_le_iff₀ (by norm_num)]; linarith
    linarith
  · have : u < ((⌊u * 0xFFFF⌋₊ : ℚ) + 1) / 65535 := by
      rw [lt_div_iff₀ (by norm_num)]; linarith
    have e : ((⌊u * 0xFFFF⌋₊ : ℚ) + 1) / 65535 = (⌊u * 0xFFFF⌋₊ : ℚ) / 65535 + 1 / 65535 := by
      ring
    linarith

/-- The outcome of `chunk_generate_mesh` is read off the grid alone: a chunk with the same grid
gets the same mesh. -/
theorem generate_congr (c c2 c1 : chunk_t) (hb : c2.blocks = c.blocks)
    (h : chunk_generate_mesh c = .ok c1) :
    chunk_generate_mesh c2 = .ok { c2 with mesh := c1.mesh } := by
  rw [generate_unfold] at h ⊢
  rw [hb]
  generalize for_loop (voxel_body c.blocks) (CHUNK_SIZE * CHUNK_HEIGHT * CHUNK_SIZE)
    (state_of []) = r at h ⊢
  cases r with
  | error e => exact Except.noConfusion h
  | ok s =>
    simp only [] at h ⊢
    by_cases h0 : s.i_cnt = 0
    · simp only [h0, if_true] at h ⊢
      have := Except.ok.inj h
      subst this
      rfl
    · simp only [h0, if_false] at h ⊢
      have := Except.ok.inj h
      subst this
      rfl

theorem vertex_slot_result (c : chunk_t) (L : List quad_desc_t) (q : Nat)
    (hq : q < 4 * L.length) : vertex_slot (mesh_result c L).mesh q = vertex_at L q := by
  have h : ¬ L.length = 0 := by omega
  simp [vertex_slot, mesh_result, h]

theorem index_slot_result (c : chunk_t) (L : List quad_desc_t) (q : Nat)
    (hq : q < 6 * L.length) : index_slot (mesh_result c L).mesh q = index_at L.length q := by
  have h : ¬ L.length = 0 := by omega
  simp [index_slot, mesh_result, h]

theorem vertex_at_isSome (L : List quad_desc_t)
    (hdef : ∀ d ∈ L, (quad_vertices d).isSome = true) (q : Nat) (hq : q < 4 * L.length) :
    (vertex_at L q).isSome = true := by
  have hk : q / 4 < L.length := by omega
  have hget : L[q / 4]? = some L[q / 4] := List.getElem?_eq_getElem hk
  obtain ⟨vs, hvs⟩ := Option.isSome_iff_exists.mp (hdef _ (List.getElem_mem hk))
  obtain ⟨a0, a1, a2, a3, rfl⟩ := quad_vertices_length _ _ hvs
  have e : q = 4 * (q / 4) + q % 4 := by omega
  have hr : q % 4 < 4 := Nat.mod_lt _ (by decide)
  rw [e, vertex_at_slot L (q / 4) (q % 4) hr _ _ hget hvs]
  generalize q % 4 = r at hr
  interval_cases r <;> rfl

/-- Every index slot below `6 n` holds a value below `4 n`. -/
theorem index_at_lt (n q : Nat) (hq : q < 6 * n) :
    ∃ r, index_at n q = some r ∧ r < 4 * n := by
  have hk : q / 6 < n := by omega
  have e : q = 6 * (q / 6) + q % 6 := by omega
  have hr : q % 6 < 6 := Nat.mod_lt _ (by decide)
  rw [e, index_at_slot n (q / 6) (q % 6) hr hk]
  generalize q % 6 = r at hr
  interval_cases r <;> simp [index_pattern] <;> omega

/-- The non-AIR voxel met last by the traversal has a transparent RIGHT neighbour: the voxel at
`x + 1` comes later in the traversal, or lies outside the chunk. -/
theorem last_voxel_right_visible (b : chunk_data_t)
    (h : ∃ i, i < CHUNK_SIZE * CHUNK_HEIGHT * CHUNK_SIZE ∧ b.types i ≠ CUBETYPE_AIR) :
    ∃ i, i < CHUNK_SIZE * CHUNK_HEIGHT * CHUNK_SIZE ∧ b.types i ≠ CUBETYPE_AIR ∧
      face_visible b i FACEIDX_RIGHT = true := by
  obtain ⟨i, hi, hne⟩ := h
  have hle : i ≤ CHUNK_SIZE * CHUNK_HEIGHT * CHUNK_SIZE - 1 := by omega
  have hspec := Nat.findGreatest_spec (P := fun k => b.types k ≠ CUBETYPE_AIR) hle hne
  have hbound := Nat.findGreatest_le (P := fun k => b.types k ≠ CUBETYPE_AIR)
    (CHUNK_SIZE * CHUNK_HEIGHT * CHUNK_SIZE - 1)
  have hgreat : ∀ k, Nat.findGreatest (fun k => b.types k ≠ CUBETYPE_AIR)
      (CHUNK_SIZE * CHUNK_HEIGHT * CHUNK_SIZE - 1) < k →
      k ≤ CHUNK_SIZE * CHUNK_HEIGHT * CHUNK_SIZE - 1 → ¬ (b.types k ≠ CUBETYPE_AIR) :=
    fun k hk hkb => Nat.findGreatest_is_greatest hk hkb
  generalize Nat.findGreatest (fun k => b.types k ≠ CUBETYPE_AIR)
    (CHUNK_SIZE * CHUNK_HEIGHT * CHUNK_SIZE - 1) = m at hspec hbound hgreat
  have hm : m < CHUNK_SIZE * CHUNK_HEIGHT * CHUNK_SIZE := by
    have : 0 < CHUNK_SIZE * CHUNK_HEIGHT * CHUNK_SIZE := by decide
    omega
  refine ⟨m, hm, hspec, ?_⟩
  obtain ⟨hx, hy, hz⟩ := voxel_coords_lt m hm
  rw [face_visible_eq b m FACEIDX_RIGHT hm (by decide),
    adjacent_eq_index b _ _ _ FACEIDX_RIGHT hx hy hz (by decide)]
  cases hn : neighbour_index (voxel_x m) (voxel_y m) (voxel_z m) FACEIDX_RIGHT with
  | none => rfl
  | some j =>
    obtain ⟨hj, -⟩ := neighbour_index_lt _ _ _ _ j hx hy hz hn
    have hgt : m < j := by
      have hr : neighbour_index (voxel_x m) (voxel_y m) (voxel_z m) FACEIDX_RIGHT =
          if voxel_x m + 1 < CHUNK_SIZE then some (flat_of (voxel_x m + 1) (voxel_y m) (voxel_z m))
          else none := by
        simp [neighbour_index, FACEIDX_RIGHT]
      rw [hr] at hn
      simp only [flat_of, voxel_x, voxel_y, voxel_z, CHUNK_SIZE, CHUNK_HEIGHT] at hn hm ⊢
      split_ifs at hn
      simp only [Option.some.injEq] at hn
      omega
    have hair : b.types j = CUBETYPE_AIR := by
      have := hgreat j hgt (by omega)
      exact not_not.mp this
    simp [hair, is_transparent]

theorem visible_pos_of_non_air (b : chunk_data_t)
    (h : ∃ i, i < CHUNK_SIZE * CHUNK_HEIGHT * CHUNK_SIZE ∧ b.types i ≠ CUBETYPE_AIR) :
    0 < (visible b).length := by
  obtain ⟨i, hi, hne, hvis⟩ := last_voxel_right_visible b h
  apply List.length_pos_of_mem (a := quad_of b i FACEIDX_RIGHT)
  rw [visible_def, mem_visible_upto]
  exact ⟨i, hi, (mem_voxel_faces b _ i).mpr ⟨hne, FACEIDX_RIGHT, by decide, hvis, rfl⟩⟩

/-- The state after `n` rounds of the voxel loop that have not ended the run. -/
theorem voxel_loop_state (b : chunk_data_t) (n : Nat) (s : emit_state)
    (hn : n ≤ CHUNK_SIZE * CHUNK_HEIGHT * CHUNK_SIZE)
    (h : for_loop (voxel_body b) n (state_of []) = .ok s) :
    s = state_of (visible_upto b n) ∧ 4 * (visible_upto b n).length < V_MAX := by
  have hs := voxel_loop_spec b n hn
  rw [h] at hs
  exact ⟨hs.1, hs.2.1⟩

/-- The state after `m` rounds of the face loop that have not ended the run. -/
theorem face_loop_state (b : chunk_data_t) (i : Nat) (L : List quad_desc_t) (m : Nat)
    (s : emit_state) (hi : i < CHUNK_SIZE * CHUNK_HEIGHT * CHUNK_SIZE)
    (hroom : 4 * L.length + 24 < V_MAX) (hm : m ≤ 6)
    (h : for_loop (face_body b (voxel_x i) (voxel_y i) (voxel_z i) (b.types i)) m (state_of L) =
      .ok s) :
    s = state_of (L ++ faces_upto b i m) := by
  rw [face_loop_spec b i L hi hroom m hm] at h
  split_ifs at h
  exact (Except.ok.inj h).symm

theorem flat_of_voxel (i : Nat) (hi : i < CHUNK_SIZE * CHUNK_HEIGHT * CHUNK_SIZE) :
    flat_of (voxel_x i) (voxel_y i) (voxel_z i) = i := by
  simp only [flat_of, voxel_x, voxel_y, voxel_z, CHUNK_SIZE, CHUNK_HEIGHT] at *
  omega

/-- In an isolated grid every non-AIR voxel contributes its six faces. -/
theorem voxel_faces_isolated (b : chunk_data_t) (hb : isolated b) (i : Nat)
    (hi : i < CHUNK_SIZE * CHUNK_HEIGHT * CHUNK_SIZE) :
    (voxel_faces b i).length = if b.types i = CUBETYPE_AIR then 0 else 6 := by
  rw [voxel_faces_length b i hi]
  obtain ⟨hx, hy, hz⟩ := voxel_coords_lt i hi
  by_cases h0 : b.types i = CUBETYPE_AIR
  · rw [if_pos h0]
    apply Finset.sum_eq_zero
    intro d hd
    rw [exposed_air b i d hi (Finset.mem_range.mp hd) h0]
    simp
  · rw [if_neg h0]
    have : ∀ d ∈ Finset.range 6,
        (if exposed b (voxel_x i) (voxel_y i) (voxel_z i) d = true then 1 else 0) = 1 := by
      intro d hd
      have hd := Finset.mem_range.mp hd
      rw [exposed_of_clear b _ _ _ d hx hy hz hd (by rw [flat_of_voxel i hi]; exact h0)
        (fun j hj => Or.inl (hb i hi h0 d hd j hj))]
      simp
    rw [Finset.sum_congr rfl this]
    simp

theorem visible_upto_isolated (b : chunk_data_t) (hb : isolated b) (n : Nat)
    (hn : n ≤ CHUNK_SIZE * CHUNK_HEIGHT * CHUNK_SIZE) :
    (visible_upto b n).length =
      ∑ i in Finset.range n, if b.types i = CUBETYPE_AIR then 0 else 6 := by
  rw [visible_upto_length]
  apply Finset.sum_congr rfl
  intro i hi
  exact voxel_faces_isolated b hb i (lt_of_lt_of_le (Finset.mem_range.mp hi) hn)

theorem visible_upto_length_mono (b : chunk_data_t) (i n : Nat) (h : i ≤ n) :
    (visible_upto b i).length ≤ (visible_upto b n).length := by
  rw [visible_upto_length, visible_upto_length]
  exact Finset.sum_le_sum_of_subset (Finset.range_mono h)

/-- A run on a valid grid whose quads do not fit below `V_MAX` vertices ends in the overflow
exit. -/
theorem generate_overflow_of_large (c : chunk_t) (hv : valid_grid c.blocks)
    (h : V_MAX ≤ 4 * (visible c.blocks).length) :
    chunk_generate_mesh c = .error .buffer_overflow := by
  apply generate_overflow_of_valid c hv
  intro hr
  have := (generate_ok_eq c _ (generate_ok_of_room c hv hr)).2.1
  omega

/-- On a valid grid the overflow exit is taken exactly when the run reaches a non-AIR voxel
with at most 24 vertices of capacity left. -/
theorem overflow_iff_no_room (c : chunk_t) (hv : valid_grid c.blocks) :
    chunk_generate_mesh c = .error .buffer_overflow ↔
      ∃ i, i < CHUNK_SIZE * CHUNK_HEIGHT * CHUNK_SIZE ∧ c.blocks.types i ≠ CUBETYPE_AIR ∧
        (∀ k, k < i → c.blocks.types k ≠ CUBETYPE_AIR →
          24 < V_MAX - 4 * (visible_upto c.blocks k).length) ∧
        V_MAX - 4 * (visible_upto c.blocks i).length ≤ 24 := by
  constructor
  · intro h
    have hs := generate_spec c
    rw [h] at hs
    obtain ⟨i, hi, hne, hov⟩ := hs
    have hex : ∃ i, i < CHUNK_SIZE * CHUNK_HEIGHT * CHUNK_SIZE ∧
        c.blocks.types i ≠ CUBETYPE_AIR ∧
        V_MAX ≤ 4 * (visible_upto c.blocks i).length + 24 := ⟨i, hi, hne, hov⟩
    classical
    refine ⟨Nat.find hex, (Nat.find_spec hex).1, (Nat.find_spec hex).2.1, ?_, ?_⟩
    · intro k hk hnek
      have hmin := Nat.find_min hex hk
      have hklt : k < CHUNK_SIZE * CHUNK_HEIGHT * CHUNK_SIZE :=
        lt_trans hk (Nat.find_spec hex).1
      have : ¬ V_MAX ≤ 4 * (visible_upto c.blocks k).length + 24 :=
        fun hle => hmin ⟨hklt, hnek, hle⟩
      omega
    · have := (Nat.find_spec hex).2.2
      omega
  · rintro ⟨i, hi, hne, -, hov⟩
    apply generate_overflow_of_valid c hv
    intro hr
    have := hr i hi hne
    omega

theorem valid_type_stone : valid_type CUBETYPE_STONE := by unfold valid_type; decide

theorem checker_valid : valid_grid checker_grid := by
  intro i _
  show valid_type (if _ then CUBETYPE_STONE else CUBETYPE_AIR)
  split
  · exact valid_type_stone
  · exact valid_type_zero

theorem scattered_valid : valid_grid scattered_grid := by
  intro i _
  show valid_type (if _ then CUBETYPE_STONE else CUBETYPE_AIR)
  split
  · exact valid_type_stone
  · exact valid_type_zero

theorem checker_types (i : Nat) :
    checker_grid.types i =
      if (i / 1024 + (i / 16) % 64 + i % 16) % 2 = 0 then CUBETYPE_STONE else CUBETYPE_AIR := rfl

theorem scattered_types (i : Nat) :
    scattered_grid.types i =
      if (i / 1024) % 2 = 0 ∧ ((i / 16) % 64) % 2 = 0 ∧ (i / 16) % 64 < 16 ∧ (i % 16) % 2 = 0
      then CUBETYPE_STONE else CUBETYPE_AIR := rfl

theorem stone_ne_air : CUBETYPE_STONE ≠ CUBETYPE_AIR := by decide

/-- The coordinates of the voxel next to `(x, y, z)`: one coordinate moved by one step. -/
theorem neighbour_coords (x y z d j : Nat) (hx : x < CHUNK_SIZE) (hy : y < CHUNK_HEIGHT)
    (hz : z < CHUNK_SIZE) (h : neighbour_index x y z d = some j) :
    ∃ x1 y1 z1, x1 < CHUNK_SIZE ∧ y1 < CHUNK_HEIGHT ∧ z1 < CHUNK_SIZE ∧ j = flat_of x1 y1 z1 ∧
      (((x1 + 1 = x ∨ x1 = x + 1) ∧ y1 = y ∧ z1 = z) ∨
        (x1 = x ∧ (y1 + 1 = y ∨ y1 = y + 1) ∧ z1 = z) ∨
        (x1 = x ∧ y1 = y ∧ (z1 + 1 = z ∨ z1 = z + 1))) := by
  simp only [CHUNK_SIZE, CHUNK_HEIGHT] at hx hy hz ⊢
  unfold neighbour_index at h
  simp only [CHUNK_SIZE, CHUNK_HEIGHT] at h
  split_ifs at h
  · exact ⟨x, y, z - 1, by omega, by omega, by omega, (Option.some.inj h).symm, by omega⟩
  · exact ⟨x, y, z + 1, by omega, by omega, by omega, (Option.some.inj h).symm, by omega⟩
  · exact ⟨x + 1, y, z, by omega, by omega, by omega, (Option.some.inj h).symm, by omega⟩
  · exact ⟨x - 1, y, z, by omega, by omega, by omega, (Option.some.inj h).symm, by omega⟩
  · exact ⟨x, y - 1, z, by omega, by omega, by omega, (Option.some.inj h).symm, by omega⟩
  · exact ⟨x, y + 1, z, by omega, by omega, by omega, (Option.some.inj h).symm, by omega⟩

/-- The checkerboard by coordinates: STONE where `x + y + z` is even. -/
theorem checker_at (x y z : Nat) (_ : x < CHUNK_SIZE) (hy : y < CHUNK_HEIGHT)
    (hz : z < CHUNK_SIZE) :
    checker_grid.types (flat_of x y z) =
      if (x + y + z) % 2 = 0 then CUBETYPE_STONE else CUBETYPE_AIR := by
  simp only [CHUNK_SIZE, CHUNK_HEIGHT] at hy hz
  have e1 : flat_of x y z / 1024 = x := by simp only [flat_of, CHUNK_SIZE, CHUNK_HEIGHT]; omega
  have e2 : (flat_of x y z / 16) % 64 = y := by
    simp only [flat_of, CHUNK_SIZE, CHUNK_HEIGHT]; omega
  have e3 : flat_of x y z % 16 = z := by simp only [flat_of, CHUNK_SIZE, CHUNK_HEIGHT]; omega
  rw [checker_types, e1, e2, e3]

/-- The scattered grid by coordinates: STONE where `x`, `y`, `z` are even and `y < 16`. -/
theorem scattered_at (x y z : Nat) (_ : x < CHUNK_SIZE) (hy : y < CHUNK_HEIGHT)
    (hz : z < CHUNK_SIZE) :
    scattered_grid.types (flat_of x y z) =
      if x % 2 = 0 ∧ y % 2 = 0 ∧ y < 16 ∧ z % 2 = 0 then CUBETYPE_STONE else CUBETYPE_AIR := by
  simp only [CHUNK_SIZE, CHUNK_HEIGHT] at hy hz
  have e1 : flat_of x y z / 1024 = x := by simp only [flat_of, CHUNK_SIZE, CHUNK_HEIGHT]; omega
  have e2 : (flat_of x y z / 16) % 64 = y := by
    simp only [flat_of, CHUNK_SIZE, CHUNK_HEIGHT]; omega
  have e3 : flat_of x y z % 16 = z := by simp only [flat_of, CHUNK_SIZE, CHUNK_HEIGHT]; omega
  rw [scattered_types, e1, e2, e3]

theorem checker_isolated : isolated checker_grid := by
  intro i hi hne d hd j hj
  obtain ⟨hx, hy, hz⟩ := voxel_coords_lt i hi
  rw [← flat_of_voxel i hi, checker_at _ _ _ hx hy hz] at hne
  obtain ⟨x1, y1, z1, hx1, hy1, hz1, rfl, hstep⟩ := neighbour_coords _ _ _ d j hx hy hz hj
  have hc : (voxel_x i + voxel_y i + voxel_z i) % 2 = 0 := by
    by_contra h
    rw [if_neg h] at hne
    exact hne rfl
  rw [checker_at _ _ _ hx1 hy1 hz1, if_neg]
  omega

theorem scattered_isolated : isolated scattered_grid := by
  intro i hi hne d hd j hj
  obtain ⟨hx, hy, hz⟩ := voxel_coords_lt i hi
  rw [← flat_of_voxel i hi, scattered_at _ _ _ hx hy hz] at hne
  obtain ⟨x1, y1, z1, hx1, hy1, hz1, rfl, hstep⟩ := neighbour_coords _ _ _ d j hx hy hz hj
  have hc : voxel_x i % 2 = 0 ∧ voxel_y i % 2 = 0 ∧ voxel_y i < 16 ∧ voxel_z i % 2 = 0 := by
    by_contra h
    rw [if_neg h] at hne
    exact hne rfl
  rw [scattered_at _ _ _ hx1 hy1 hz1, if_neg]
  omega

theorem sum_parity_row (k : Nat) :
    ∑ z in Finset.range CHUNK_SIZE, (if (k + z) % 2 = 0 then 6 else 0) = 48 := by
  have hk : ∀ z, ((k + z) % 2 = 0) ↔ ((k % 2 + z) % 2 = 0) := by intro z; omega
  simp only [hk]
  have hp : k % 2 < 2 := Nat.mod_lt _ (by decide)
  generalize k % 2 = p at hp
  interval_cases p <;> decide

/-- The checkerboard emits `6 * 8192` quads. -/
theorem checker_length : (visible checker_grid).length = 49152 := by
  rw [visible_def, visible_upto_isolated _ checker_isolated _ (le_refl _)]
  have hterm : ∀ i ∈ Finset.range (CHUNK_SIZE * CHUNK_HEIGHT * CHUNK_SIZE),
      (if checker_grid.types i = CUBETYPE_AIR then 0 else 6) =
        (fun x y z => if (x + y + z) % 2 = 0 then 6 else 0)
          (voxel_x i) (voxel_y i) (voxel_z i) := by
    intro i hi
    have hi := Finset.mem_range.mp hi
    obtain ⟨hx, hy, hz⟩ := voxel_coords_lt i hi
    have h := checker_at _ _ _ hx hy hz
    rw [flat_of_voxel i hi] at h
    rw [h]
    by_cases hc : (voxel_x i + voxel_y i + voxel_z i) % 2 = 0
    · simp [hc, stone_ne_air]
    · simp [hc]
  rw [Finset.sum_congr rfl hterm,
    sum_voxels (fun x y z => if (x + y + z) % 2 = 0 then 6 else 0)]
  simp only [sum_parity_row]
  simp [CHUNK_SIZE, CHUNK_HEIGHT]

theorem sum_even_row :
    ∑ z in Finset.range CHUNK_SIZE, (if z % 2 = 0 then 6 else 0) = 48 := by decide

theorem sum_even_low_column :
    ∑ y in Finset.range CHUNK_HEIGHT, (if y % 2 = 0 ∧ y < 16 then 48 else 0) = 384 := by decide

theorem sum_even_slab :
    ∑ x in Finset.range CHUNK_SIZE, (if x % 2 = 0 then 384 else 0) = 3072 := by decide

theorem scattered_term (i : Nat) (hi : i < CHUNK_SIZE * CHUNK_HEIGHT * CHUNK_SIZE) :
    (if scattered_grid.types i = CUBETYPE_AIR then 0 else 6) =
      (fun x y z => if x % 2 = 0 ∧ y % 2 = 0 ∧ y < 16 ∧ z % 2 = 0 then 6 else 0)
        (voxel_x i) (voxel_y i) (voxel_z i) := by
  obtain ⟨hx, hy, hz⟩ := voxel_coords_lt i hi
  have h := scattered_at _ _ _ hx hy hz
  rw [flat_of_voxel i hi] at h
  rw [h]
  by_cases hc : voxel_x i % 2 = 0 ∧ voxel_y i % 2 = 0 ∧ voxel_y i < 16 ∧ voxel_z i % 2 = 0
  · simp only [if_pos hc, stone_ne_air, if_false]
  · simp only [if_neg hc, if_true]

/-- The scattered grid emits `6 * 512` quads. -/
theorem scattered_length : (visible scattered_grid).length = 3072 := by
  rw [visible_def, visible_upto_isolated _ scattered_isolated _ (le_refl _)]
  rw [Finset.sum_congr rfl (fun i hi => scattered_term i (Finset.mem_range.mp hi)),
    sum_voxels (fun x y z => if x % 2 = 0 ∧ y % 2 = 0 ∧ y < 16 ∧ z % 2 = 0 then 6 else 0)]
  have hz : ∀ x y, ∑ z in Finset.range CHUNK_SIZE,
      (if x % 2 = 0 ∧ y % 2 = 0 ∧ y < 16 ∧ z % 2 = 0 then 6 else 0) =
        if x % 2 = 0 ∧ y % 2 = 0 ∧ y < 16 then 48 else 0 := by
    intro x y
    by_cases h : x % 2 = 0 ∧ y % 2 = 0 ∧ y < 16
    · rw [if_pos h, ← sum_even_row]
      apply Finset.sum_congr rfl
      intro z _
      simp [h.1, h.2.1, h.2.2]
    · rw [if_neg h]
      apply Finset.sum_eq_zero
      intro z _
      rw [if_neg]
      tauto
  have hy : ∀ x, ∑ y in Finset.range CHUNK_HEIGHT,
      (if x % 2 = 0 ∧ y % 2 = 0 ∧ y < 16 then 48 else 0) = if x % 2 = 0 then 384 else 0 := by
    intro x
    by_cases h : x % 2 = 0
    · rw [if_pos h, ← sum_even_low_column]
      apply Finset.sum_congr rfl
      intro y _
      simp [h]
    · rw [if_neg h]
      apply Finset.sum_eq_zero
      intro y _
      rw [if_neg]
      tauto
  simp only [hz, hy]
  exact sum_even_slab

theorem scattered_last_stone : scattered_grid.types 14574 = CUBETYPE_STONE := by
  rw [scattered_types, if_pos (by decide)]

theorem scattered_air_after (i : Nat) (h : 14574 < i)
    (hi : i < CHUNK_SIZE * CHUNK_HEIGHT * CHUNK_SIZE) :
    scattered_grid.types i = CUBETYPE_AIR := by
  simp only [CHUNK_SIZE, CHUNK_HEIGHT] at hi
  rw [scattered_types, if_neg]
  omega

theorem scattered_tail (k : Nat) (hk : 14575 + k ≤ CHUNK_SIZE * CHUNK_HEIGHT * CHUNK_SIZE) :
    visible_upto scattered_grid (14575 + k) = visible_upto scattered_grid 14575 := by
  induction k with
  | zero => rfl
  | succ k ih =>
    have e : 14575 + (k + 1) = (14575 + k) + 1 := by omega
    have hair := scattered_air_after (14575 + k) (by omega) (by omega)
    rw [e, visible_upto_succ, ih (by omega)]
    simp [voxel_faces, hair]

/-- When the run on the scattered grid reaches its last STONE voxel, 3066 quads have been
emitted. -/
theorem scattered_length_before_last : (visible_upto scattered_grid 14574).length = 3066 := by
  have htotal := scattered_length
  have hN : CHUNK_SIZE * CHUNK_HEIGHT * CHUNK_SIZE = 14575 + 1809 := by decide
  rw [visible_def, hN, scattered_tail 1809 (by rw [hN])] at htotal
  have e : (14575 : Nat) = 14574 + 1 := by decide
  rw [e, visible_upto_succ, List.length_append,
    voxel_faces_isolated _ scattered_isolated 14574 (by decide), scattered_last_stone,
    if_neg stone_ne_air] at htotal
  omega

theorem scattered_room_before (i : Nat) (hi : i < 14574)
    (hne : scattered_grid.types i ≠ CUBETYPE_AIR) :
    4 * (visible_upto scattered_grid i).length + 24 < V_MAX := by
  have hlt : i < CHUNK_SIZE * CHUNK_HEIGHT * CHUNK_SIZE := by
    simp only [CHUNK_SIZE, CHUNK_HEIGHT]; omega
  have hmono := visible_upto_length_mono scattered_grid (i + 1) 14574 (by omega)
  rw [visible_upto_succ, List.length_append, voxel_faces_isolated _ scattered_isolated i hlt,
    if_neg hne, scattered_length_before_last] at hmono
  simp only [V_MAX]
  omega

/-- The run on the scattered grid reaches its last STONE voxel. -/
theorem scattered_reaches_last :
    for_loop (voxel_body scattered_grid) 14574 (state_of []) =
      .ok (state_of (visible_upto scattered_grid 14574)) := by
  have h := voxel_loop_spec scattered_grid 14574 (by decide)
  generalize for_loop (voxel_body scattered_grid) 14574 (state_of []) = r at h
  cases r with
  | ok s => rw [h.1]
  | error e =>
    cases e with
    | alloc_failed => exact absurd h id
    | buffer_overrun => exact absurd h id
    | buffer_overflow =>
      obtain ⟨i, hi, hne, hov⟩ := h
      have := scattered_room_before i hi hne
      omega
    | undefined =>
      obtain ⟨i, hi, hnv⟩ := h
      exact absurd (scattered_valid i (by simp only [CHUNK_SIZE, CHUNK_HEIGHT]; omega)) hnv

/-- The round of the voxel loop at the last STONE voxel of the scattered grid takes the overflow
exit. -/
theorem scattered_last_round :
    voxel_body scattered_grid 14574 (state_of (visible_upto scattered_grid 14574)) =
      .error .buffer_overflow := by
  have hflat : scattered_grid.flat 14574 = some (scattered_grid.types 14574) := by
    simp only [chunk_data_t.flat]
    rw [if_pos (by decide)]
  simp only [voxel_body, hflat, scattered_last_stone, state_of_v_cnt, scattered_length_before_last]
  rw [if_neg stone_ne_air, if_pos (by decide)]

/-- The four template vertices of a face carry the same normal flag. -/
theorem face_row_flags (f : Nat) (hf : f < 6) (t0 t1 t2 t3 : vertex_t)
    (h : face_vertices[f]? = some [t0, t1, t2, t3]) :
    t1.n = t0.n ∧ t2.n = t0.n ∧ t3.n = t0.n := by
  interval_cases f <;> simp [face_vertices] at h <;> obtain ⟨rfl, rfl, rfl, rfl⟩ := h <;>
    simp

/-- The quad built for a voxel inside the chunk: the four template vertices of its face, each
moved by twice the voxel position; the index triangles `(0, 2, 1)` and `(0, 3, 2)` are
clockwise seen from outside, the stored order is counter-clockwise, and the four vertices carry
the normal flag of the face. -/
theorem quad_winding (q : quad_desc_t) (vs : List vertex_t) (hx : q.x < CHUNK_SIZE)
    (hy : q.y < CHUNK_HEIGHT) (hz : q.z < CHUNK_SIZE) (h : quad_vertices q = some vs) :
    ∃ a0 a1 a2 a3, vs = [a0, a1, a2, a3] ∧
      clockwise_from_outside q.face a0 a2 a1 ∧ clockwise_from_outside q.face a0 a3 a2 ∧
      counter_clockwise_from_outside q.face a0 a1 a2 ∧
      counter_clockwise_from_outside q.face a1 a2 a3 ∧
      counter_clockwise_from_outside q.face a2 a3 a0 ∧
      counter_clockwise_from_outside q.face a3 a0 a1 ∧
      face_flag q.face = some a0.n ∧ a1.n = a0.n ∧ a2.n = a0.n ∧ a3.n = a0.n ∧
      a0.uv = none ∧ a1.uv = none ∧ a2.uv = none ∧ a3.uv = none := by
  have hs : (quad_vertices q).isSome = true := by rw [h]; rfl
  rw [quad_vertices_isSome] at hs
  have hf := (of_decide_eq_true hs).1
  obtain ⟨v0, v1, v2, v3, hrow, c1, c2, w1, w2, w3, w4⟩ := template_winding q.face hf
  obtain ⟨t0, t1, t2, t3, o, hrow2, -, hlist⟩ := quad_vertices_eq q vs h
  rw [hrow] at hrow2
  have hl := Option.some.inj hrow2
  simp only [List.cons.injEq, and_true] at hl
  obtain ⟨rfl, rfl, rfl, rfl⟩ := hl
  have b0 := template_vertex q.face 0 hf (by decide) _ v0 hrow rfl
  have b1 := template_vertex q.face 1 hf (by decide) _ v1 hrow rfl
  have b2 := template_vertex q.face 2 hf (by decide) _ v2 hrow rfl
  have b3 := template_vertex q.face 3 hf (by decide) _ v3 hrow rfl
  have p0 : v0.x ≤ 2 ∧ v0.y ≤ 2 ∧ v0.z ≤ 2 := ⟨b0.1, b0.2.1, b0.2.2.1⟩
  have p1 : v1.x ≤ 2 ∧ v1.y ≤ 2 ∧ v1.z ≤ 2 := ⟨b1.1, b1.2.1, b1.2.2.1⟩
  have p2 : v2.x ≤ 2 ∧ v2.y ≤ 2 ∧ v2.z ≤ 2 := ⟨b2.1, b2.2.1, b2.2.2.1⟩
  have p3 : v3.x ≤ 2 ∧ v3.y ≤ 2 ∧ v3.z ≤ 2 := ⟨b3.1, b3.2.1, b3.2.2.1⟩
  have hflag : face_flag q.face = some (moved q v0).n := by
    simp [face_flag, hrow, moved]
  obtain ⟨n1, n2, n3⟩ := face_row_flags q.face hf v0 v1 v2 v3 hrow
  refine ⟨_, _, _, _, hlist, ?_, ?_, ?_, ?_, ?_, ?_, hflag, n1, n2, n3, rfl, rfl, rfl, rfl⟩
  · obtain ⟨k, hk, he⟩ := c1
    exact ⟨k, hk, by rw [triangle_normal_moved q v0 v2 v1 hx hy hz p0 p2 p1]; exact he⟩
  · obtain ⟨k, hk, he⟩ := c2
    exact ⟨k, hk, by rw [triangle_normal_moved q v0 v3 v2 hx hy hz p0 p3 p2]; exact he⟩
  · obtain ⟨k, hk, he⟩ := w1
    exact ⟨k, hk, by rw [triangle_normal_moved q v0 v1 v2 hx hy hz p0 p1 p2]; exact he⟩
  · obtain ⟨k, hk, he⟩ := w2
    exact ⟨k, hk, by rw [triangle_normal_moved q v1 v2 v3 hx hy hz p1 p2 p3]; exact he⟩
  · obtain ⟨k, hk, he⟩ := w3
    exact ⟨k, hk, by rw [triangle_normal_moved q v2 v3 v0 hx hy hz p2 p3 p0]; exact he⟩
  · obtain ⟨k, hk, he⟩ := w4
    exact ⟨k, hk, by rw [triangle_normal_moved q v3 v0 v1 hx hy hz p3 p0 p1]; exact he⟩

/-- The two triangles a call of `_add_face_to_mesh` has stored: read back through the six index
entries it wrote, they are `(a0, a2, a1)` and `(a0, a3, a2)` of the four vertices it wrote. -/
theorem add_face_triangles (d : quad_desc_t) (s : emit_state) (a0 a1 a2 a3 : vertex_t)
    (hq : quad_vertices d = some [a0, a1, a2, a3])
    (hv : s.v_cnt + 4 ≤ s.vertices.size) (hi : s.i_cnt + 6 ≤ s.indices.size)
    (hvs : s.vertices.size < 2 ^ 32) (his : s.indices.size < 2 ^ 32) :
    ∃ s1, _add_face_to_mesh d s = some s1 ∧
      s1.vertices.data (s.v_cnt + 0) = some a0 ∧ s1.vertices.data (s.v_cnt + 1) = some a1 ∧
      s1.vertices.data (s.v_cnt + 2) = some a2 ∧ s1.vertices.data (s.v_cnt + 3) = some a3 ∧
      triangle_from s1 s.i_cnt = some (a0, a2, a1) ∧
      triangle_from s1 (s.i_cnt + 3) = some (a0, a3, a2) := by
  refine ⟨_, add_face_eq d s a0 a1 a2 a3 hq hv hi hvs his, ?_, ?_, ?_, ?_, ?_, ?_⟩
  · simp
  · simp
  · simp
  · simp
  · have i0 : ¬ s.i_cnt = s.i_cnt + 5 := by omega
    have i1 : ¬ s.i_cnt = s.i_cnt + 4 := by omega
    have i2 : ¬ s.i_cnt = s.i_cnt + 3 := by omega
    have i3 : ¬ s.i_cnt = s.i_cnt + 2 := by omega
    have i4 : ¬ s.i_cnt = s.i_cnt + 1 := by omega
    simp [triangle_from, i0, i1, i2, i3, i4]
  · have e1 : s.i_cnt + 3 + 1 = s.i_cnt + 4 := by omega
    have e2 : s.i_cnt + 3 + 2 = s.i_cnt + 5 := by omega
    simp [triangle_from, e1, e2]

/-- Every vertex of the list of emitted quads has a position slot written and an indeterminate
uv word. -/
theorem vertex_at_uv (L : List quad_desc_t)
    (hdef : ∀ d ∈ L, (quad_vertices d).isSome = true) (q : Nat) (hq : q < 4 * L.length) :
    ∃ v, vertex_at L q = some v ∧ v.uv = none := by
  have hk : q / 4 < L.length := by omega
  have hget : L[q / 4]? = some L[q / 4] := List.getElem?_eq_getElem hk
  obtain ⟨vs, hvs⟩ := Option.isSome_iff_exists.mp (hdef _ (List.getElem_mem hk))
  obtain ⟨t0, t1, t2, t3, o, -, -, hlist⟩ := quad_vertices_eq _ vs hvs
  have e : q = 4 * (q / 4) + q % 4 := by omega
  have hr : q % 4 < 4 := Nat.mod_lt _ (by decide)
  rw [e, vertex_at_slot L (q / 4) (q % 4) hr _ _ hget hvs, hlist]
  generalize q % 4 = r at hr
  interval_cases r <;> exact ⟨_, rfl, rfl⟩

/-- The descriptors of the emitted quads have positions inside the chunk. -/
theorem visible_in_chunk (b : chunk_data_t) (d : quad_desc_t) (hd : d ∈ visible b) :
    d.x < CHUNK_SIZE ∧ d.y < CHUNK_HEIGHT ∧ d.z < CHUNK_SIZE ∧ d.face < 6 := by
  rw [visible_def, mem_visible_upto] at hd
  obtain ⟨i, hi, hm⟩ := hd
  obtain ⟨-, f, hf, -, rfl⟩ := (mem_voxel_faces b d i).mp hm
  obtain ⟨hx, hy, hz⟩ := voxel_coords_lt i hi
  exact ⟨hx, hy, hz, hf⟩

/-- Triangle `k` of the mesh holding the quads of `L`: it belongs to quad `k / 2`, and is the
triangle `(a0, a2, a1)` or `(a0, a3, a2)` of the four vertices of that quad. -/
theorem mesh_triangle_result (c : chunk_t) (L : List quad_desc_t) (k : Nat)
    (hk : 3 * k + 2 < 6 * L.length) (d : quad_desc_t) (a0 a1 a2 a3 : vertex_t)
    (hd : L[k / 2]? = some d) (hq : quad_vertices d = some [a0, a1, a2, a3]) :
    mesh_triangle (mesh_result c L).mesh k =
      if k % 2 = 0 then some (a0, a2, a1) else some (a0, a3, a2) := by
  have hj : k / 2 < L.length := by omega
  have v0 : vertex_slot (mesh_result c L).mesh (4 * (k / 2) + 0) = some a0 := by
    rw [vertex_slot_result c L _ (by omega), vertex_at_slot L (k / 2) 0 (by decide) d _ hd hq]
    rfl
  have v1 : vertex_slot (mesh_result c L).mesh (4 * (k / 2) + 1) = some a1 := by
    rw [vertex_slot_result c L _ (by omega), vertex_at_slot L (k / 2) 1 (by decide) d _ hd hq]
    rfl
  have v2 : vertex_slot (mesh_result c L).mesh (4 * (k / 2) + 2) = some a2 := by
    rw [vertex_slot_result c L _ (by omega), vertex_at_slot L (k / 2) 2 (by decide) d _ hd hq]
    rfl
  have v3 : vertex_slot (mesh_result c L).mesh (4 * (k / 2) + 3) = some a3 := by
    rw [vertex_slot_result c L _ (by omega), vertex_at_slot L (k / 2) 3 (by decide) d _ hd hq]
    rfl
  have hidx : ∀ j, j < 6 → index_slot (mesh_result c L).mesh (6 * (k / 2) + j) =
      (index_pattern[j]?).map (fun r => 4 * (k / 2) + r) := by
    intro j hj6
    rw [index_slot_result c L _ (by omega), index_at_slot L.length (k / 2) j hj6 hj]
  unfold mesh_triangle
  by_cases hpar : k % 2 = 0
  · have e0 : 3 * k = 6 * (k / 2) + 0 := by omega
    have e1 : 3 * k + 1 = 6 * (k / 2) + 1 := by omega
    have e2 : 3 * k + 2 = 6 * (k / 2) + 2 := by omega
    rw [e1, e2, e0, hidx 0 (by decide), hidx 1 (by decide), hidx 2 (by decide), if_pos hpar]
    simp only [index_pattern, List.getElem?_cons_zero, List.getElem?_cons_succ, Option.map_some']
    rw [v0, v2, v1]
  · have e0 : 3 * k = 6 * (k / 2) + 3 := by omega
    have e1 : 3 * k + 1 = 6 * (k / 2) + 4 := by omega
    have e2 : 3 * k + 2 = 6 * (k / 2) + 5 := by omega
    rw [e1, e2, e0, hidx 3 (by decide), hidx 4 (by decide), hidx 5 (by decide), if_neg hpar]
    simp only [index_pattern, List.getElem?_cons_zero, List.getElem?_cons_succ, Option.map_some']
    rw [v0, v3, v2]

/-! ## Claims -/

/-- C1. Whenever `chunk_generate_mesh` returns a mesh, its counts are `v_cnt = 4 * N` and
`i_cnt = 6 * N`, where `N` is the number of pairs (voxel, direction in `0..5`) such that the
voxel is not AIR and its neighbour in that direction is AIR, LEAF or outside the chunk; and on
a grid of valid block types a run that does not take the overflow exit does return a mesh. -/
theorem C1_counts_are_exposed_pairs (c : chunk_t) :
    (∀ c1, chunk_generate_mesh c = .ok c1 →
      c1.mesh.v_cnt = 4 * exposed_count c.blocks ∧
        c1.mesh.i_cnt = 6 * exposed_count c.blocks) ∧
    (valid_grid c.blocks → chunk_generate_mesh c ≠ .error .buffer_overflow →
      ∃ c1, chunk_generate_mesh c = .ok c1) := by
  constructor
  · intro c1 h
    obtain ⟨hc, -⟩ := generate_ok_eq c c1 h
    rw [hc, mesh_result_v_cnt, mesh_result_i_cnt, visible_length]
    exact ⟨rfl, rfl⟩
  · intro hv hno
    by_cases hr : room_everywhere c.blocks
    · exact ⟨_, generate_ok_of_room c hv hr⟩
    · exact absurd (generate_overflow_of_valid c hv hr) hno

/-- C1 at the grid holding one STONE voxel at `(0, 0, 0)`: the run returns and the counts are
four and six times the number of exposed pairs. -/
theorem C1_witness_single_stone :
    ∃ c1, chunk_generate_mesh (chunk_of (single_grid 0 0 0 CUBETYPE_STONE)) = .ok c1 ∧
      c1.mesh.v_cnt = 4 * exposed_count (single_grid 0 0 0 CUBETYPE_STONE) ∧
      c1.mesh.i_cnt = 6 * exposed_count (single_grid 0 0 0 CUBETYPE_STONE) := by
  have hok := single_voxel_ok (chunk_of (single_grid 0 0 0 CUBETYPE_STONE)) 0 0 0
    CUBETYPE_STONE (by decide) (by decide) (by decide) (by decide)
    (by unfold valid_type; decide) (fun i _ => rfl)
  have h := C1_counts_are_exposed_pairs (chunk_of (single_grid 0 0 0 CUBETYPE_STONE))
  have hvalid : valid_grid (chunk_of (single_grid 0 0 0 CUBETYPE_STONE)).blocks := by
    intro i _
    show valid_type (if i = flat_of 0 0 0 then CUBETYPE_STONE else CUBETYPE_AIR)
    split <;> (unfold valid_type; decide)
  have hno : chunk_generate_mesh (chunk_of (single_grid 0 0 0 CUBETYPE_STONE)) ≠
      .error .buffer_overflow := by
    rw [hok.1]; exact fun h => Except.noConfusion h
  obtain ⟨c1, hc1⟩ := h.2 hvalid hno
  have hcnt := h.1 c1 hc1
  rw [chunk_of_blocks] at hcnt
  exact ⟨c1, hc1, hcnt⟩

/-- C2, amended. In every run of `chunk_generate_mesh` that returns, for every voxel and every
direction, the quad for (voxel, direction) is in the mesh if and only if the voxel is not AIR
and the voxel in front of it in that direction is transparent (AIR, LEAF or outside the
chunk). -/
theorem C2_quad_emitted_iff_not_air_and_front_transparent (c c1 : chunk_t)
    (h : chunk_generate_mesh c = .ok c1) (x y z f : Nat) (hx : x < CHUNK_SIZE)
    (hy : y < CHUNK_HEIGHT) (hz : z < CHUNK_SIZE) (hf : f < 6) :
    quad_emitted c1.mesh (quad_desc_at c.blocks x y z f) = true ↔
      (c.blocks.types (flat_of x y z) ≠ CUBETYPE_AIR ∧
        front_transparent c.blocks x y z f = true) := by
  rw [emitted_iff c c1 h x y z f hx hy hz hf, exposed_iff c.blocks x y z f hx hy hz]

/-- C2, amended, at the grid holding one STONE voxel at `(0, 0, 0)`, for its TOP face. -/
theorem C2_witness_single_stone :
    quad_emitted
        (mesh_result (chunk_of (single_grid 0 0 0 CUBETYPE_STONE))
          (visible (single_grid 0 0 0 CUBETYPE_STONE))).mesh
        (quad_desc_at (single_grid 0 0 0 CUBETYPE_STONE) 0 0 0 FACEIDX_TOP) = true ↔
      ((single_grid 0 0 0 CUBETYPE_STONE).types (flat_of 0 0 0) ≠ CUBETYPE_AIR ∧
        front_transparent (single_grid 0 0 0 CUBETYPE_STONE) 0 0 0 FACEIDX_TOP = true) :=
  C2_quad_emitted_iff_not_air_and_front_transparent
    (chunk_of (single_grid 0 0 0 CUBETYPE_STONE)) _
    (single_voxel_ok (chunk_of (single_grid 0 0 0 CUBETYPE_STONE)) 0 0 0 CUBETYPE_STONE
      (by decide) (by decide) (by decide) (by decide) (by unfold valid_type; decide)
      (fun i _ => rfl)).1
    0 0 0 FACEIDX_TOP (by decide) (by decide) (by decide) (by decide)

/-- C2 as stated fails: on the grid holding one LEAF voxel at `(0, 0, 0)` the run returns and
the TOP quad of that voxel is in the mesh, although the voxel is transparent, not opaque. -/
theorem C2_counterexample_leaf_voxel :
    ∃ c1, chunk_generate_mesh (chunk_of (single_grid 0 0 0 CUBETYPE_LEAF)) = .ok c1 ∧
      quad_emitted c1.mesh (quad_desc_at (single_grid 0 0 0 CUBETYPE_LEAF) 0 0 0 FACEIDX_TOP)
        = true ∧
      is_transparent ((single_grid 0 0 0 CUBETYPE_LEAF).types (flat_of 0 0 0)) = true ∧
      opaque_exposed (single_grid 0 0 0 CUBETYPE_LEAF) 0 0 0 FACEIDX_TOP = false := by
  have hok := single_voxel_ok (chunk_of (single_grid 0 0 0 CUBETYPE_LEAF)) 0 0 0
    CUBETYPE_LEAF (by decide) (by decide) (by decide) (by decide)
    (by unfold valid_type; decide) (fun i _ => rfl)
  refine ⟨_, hok.1, ?_, ?_, ?_⟩
  · have hiff := emitted_iff (chunk_of (single_grid 0 0 0 CUBETYPE_LEAF)) _ hok.1 0 0 0
      FACEIDX_TOP (by decide) (by decide) (by decide) (by decide)
    apply hiff.mpr
    apply exposed_of_clear _ 0 0 0 5 (by decide) (by decide) (by decide) (by decide)
    · show (if flat_of 0 0 0 = flat_of 0 0 0 then CUBETYPE_LEAF else CUBETYPE_AIR) ≠
        CUBETYPE_AIR
      rw [if_pos rfl]; decide
    · intro j hj
      obtain ⟨-, hne⟩ := neighbour_index_lt 0 0 0 5 j (by decide) (by decide) (by decide) hj
      left
      show (if j = flat_of 0 0 0 then CUBETYPE_LEAF else CUBETYPE_AIR) = CUBETYPE_AIR
      rw [if_neg hne]
  · show is_transparent (if flat_of 0 0 0 = flat_of 0 0 0 then CUBETYPE_LEAF
      else CUBETYPE_AIR) = true
    rw [if_pos rfl]; decide
  · have h := opaque_exposed_iff (single_grid 0 0 0 CUBETYPE_LEAF) 0 0 0 FACEIDX_TOP
      (by decide) (by decide) (by decide)
    rw [Bool.eq_false_iff]
    intro ht
    have h2 := (h.mp ht).1.2
    apply h2
    show (if flat_of 0 0 0 = flat_of 0 0 0 then CUBETYPE_LEAF else CUBETYPE_AIR) =
      CUBETYPE_LEAF
    rw [if_pos rfl]

/-- C3. In every run of `chunk_generate_mesh` that returns, of two face-adjacent opaque voxels
neither has the quad on their shared face in the mesh; and on a grid that is AIR except for
STONE at `(x, 0, z)` and `(x, 1, z)` the run returns with `v_cnt = 40` and `i_cnt = 60` (ten
quads), without the TOP quad of the lower voxel and without the BOTTOM quad of the upper
one. -/
theorem C3_shared_face_of_opaque_pair_hidden :
    (∀ (c c1 : chunk_t) (x y z x1 y1 z1 f : Nat), chunk_generate_mesh c = .ok c1 →
      x < CHUNK_SIZE → y < CHUNK_HEIGHT → z < CHUNK_SIZE →
      x1 < CHUNK_SIZE → y1 < CHUNK_HEIGHT → z1 < CHUNK_SIZE → f < 6 →
      (x1 : Int) = x + (face_step f).1 → (y1 : Int) = y + (face_step f).2.1 →
      (z1 : Int) = z + (face_step f).2.2 →
      is_transparent (c.blocks.types (flat_of x y z)) = false →
      is_transparent (c.blocks.types (flat_of x1 y1 z1)) = false →
      quad_emitted c1.mesh (quad_desc_at c.blocks x y z f) = false ∧
        quad_emitted c1.mesh (quad_desc_at c.blocks x1 y1 z1 (opposite f)) = false) ∧
    (∀ (c : chunk_t) (x z : Nat), x < CHUNK_SIZE → z < CHUNK_SIZE →
      (∀ i < CHUNK_SIZE * CHUNK_HEIGHT * CHUNK_SIZE,
        c.blocks.types i =
          if i = flat_of x 0 z ∨ i = flat_of x 1 z then CUBETYPE_STONE else CUBETYPE_AIR) →
      ∃ c1, chunk_generate_mesh c = .ok c1 ∧ c1.mesh.v_cnt = 40 ∧ c1.mesh.i_cnt = 60 ∧
        quad_emitted c1.mesh (quad_desc_at c.blocks x 0 z FACEIDX_TOP) = false ∧
        quad_emitted c1.mesh (quad_desc_at c.blocks x 1 z FACEIDX_BOTTOM) = false) := by
  have general : ∀ (c c1 : chunk_t) (x y z x1 y1 z1 f : Nat), chunk_generate_mesh c = .ok c1 →
      x < CHUNK_SIZE → y < CHUNK_HEIGHT → z < CHUNK_SIZE →
      x1 < CHUNK_SIZE → y1 < CHUNK_HEIGHT → z1 < CHUNK_SIZE → f < 6 →
      (x1 : Int) = x + (face_step f).1 → (y1 : Int) = y + (face_step f).2.1 →
      (z1 : Int) = z + (face_step f).2.2 →
      is_transparent (c.blocks.types (flat_of x y z)) = false →
      is_transparent (c.blocks.types (flat_of x1 y1 z1)) = false →
      quad_emitted c1.mesh (quad_desc_at c.blocks x y z f) = false ∧
        quad_emitted c1.mesh (quad_desc_at c.blocks x1 y1 z1 (opposite f)) = false := by
    intro c c1 x y z x1 y1 z1 f h hx hy hz hx1 hy1 hz1 hf ex ey ez hop hop1
    obtain ⟨hstep, hof⟩ := face_step_opposite f hf
    constructor
    · rw [Bool.eq_false_iff]
      intro ht
      have he := (emitted_iff c c1 h x y z f hx hy hz hf).mp ht
      rw [not_exposed_of_opaque_front c.blocks x y z f x1 y1 z1 hx1 hy1 hz1 ex ey ez hop1] at he
      exact Bool.noConfusion he
    · rw [Bool.eq_false_iff]
      intro ht
      have he := (emitted_iff c c1 h x1 y1 z1 (opposite f) hx1 hy1 hz1 hof).mp ht
      rw [not_exposed_of_opaque_front c.blocks x1 y1 z1 (opposite f) x y z hx hy hz
        (by rw [hstep]; simp only []; omega) (by rw [hstep]; simp only []; omega)
        (by rw [hstep]; simp only []; omega) hop] at he
      exact Bool.noConfusion he
  refine ⟨general, ?_⟩
  intro c x z hx hz hgrid
  obtain ⟨hok, hlen⟩ := column_ok c x z hx hz hgrid
  have hy0 : 0 < CHUNK_HEIGHT := by decide
  have hy1 : 1 < CHUNK_HEIGHT := by decide
  obtain ⟨hi0, -⟩ := flat_index_facts x 0 z hx hy0 hz
  obtain ⟨hi1, -⟩ := flat_index_facts x 1 z hx hy1 hz
  have ht0 : c.blocks.types (flat_of x 0 z) = CUBETYPE_STONE := by rw [hgrid _ hi0]; simp
  have ht1 : c.blocks.types (flat_of x 1 z) = CUBETYPE_STONE := by rw [hgrid _ hi1]; simp
  have hpair := general c _ x 0 z x 1 z FACEIDX_TOP hok hx hy0 hz hx hy1 hz (by decide)
    (by simp [face_step]) (by simp [face_step]) (by simp [face_step])
    (by rw [ht0]; decide) (by rw [ht1]; decide)
  refine ⟨_, hok, ?_, ?_, hpair.1, hpair.2⟩
  · rw [mesh_result_v_cnt, hlen]
  · rw [mesh_result_i_cnt, hlen]

/-- C3 at the column grid with `x = 3`, `z = 5`. -/
theorem C3_witness_column :
    ∃ c1, chunk_generate_mesh (chunk_of (column_grid 3 5)) = .ok c1 ∧
      c1.mesh.v_cnt = 40 ∧ c1.mesh.i_cnt = 60 ∧
      quad_emitted c1.mesh (quad_desc_at (chunk_of (column_grid 3 5)).blocks 3 0 5 FACEIDX_TOP)
        = false ∧
      quad_emitted c1.mesh
        (quad_desc_at (chunk_of (column_grid 3 5)).blocks 3 1 5 FACEIDX_BOTTOM) = false :=
  C3_shared_face_of_opaque_pair_hidden.2 (chunk_of (column_grid 3 5)) 3 5 (by decide)
    (by decide) (fun i _ => rfl)

/-- C4. On every grid that is AIR except for one opaque voxel of a valid block type, at any
position of the chunk, `chunk_generate_mesh` returns with exactly six quads: `v_cnt = 24` and
`i_cnt = 36`. -/
theorem C4_single_opaque_voxel_six_quads (c : chunk_t) (x y z : Nat) (t : Int)
    (hx : x < CHUNK_SIZE) (hy : y < CHUNK_HEIGHT) (hz : z < CHUNK_SIZE)
    (hv : valid_type t) (hop : is_transparent t = false)
    (hgrid : ∀ i < CHUNK_SIZE * CHUNK_HEIGHT * CHUNK_SIZE,
      c.blocks.types i = if i = flat_of x y z then t else CUBETYPE_AIR) :
    ∃ c1, chunk_generate_mesh c = .ok c1 ∧ c1.mesh.v_cnt = 24 ∧ c1.mesh.i_cnt = 36 := by
  have ht : t ≠ CUBETYPE_AIR := ((is_transparent_false_iff t).mp hop).1
  obtain ⟨hok, hlen⟩ := single_voxel_ok c x y z t hx hy hz ht hv hgrid
  refine ⟨_, hok, ?_, ?_⟩
  · rw [mesh_result_v_cnt, hlen]
  · rw [mesh_result_i_cnt, hlen]

/-- C4 at the grid holding one STONE voxel at `(0, 0, 0)`. -/
theorem C4_witness_stone_at_origin :
    ∃ c1, chunk_generate_mesh (chunk_of (single_grid 0 0 0 CUBETYPE_STONE)) = .ok c1 ∧
      c1.mesh.v_cnt = 24 ∧ c1.mesh.i_cnt = 36 :=
  C4_single_opaque_voxel_six_quads (chunk_of (single_grid 0 0 0 CUBETYPE_STONE)) 0 0 0
    CUBETYPE_STONE (by decide) (by decide) (by decide) (by unfold valid_type; decide)
    (by decide) (fun i _ => rfl)

/-- C5. On every chunk whose grid is entirely AIR, `chunk_generate_mesh` returns and leaves
the empty mesh: both counts and both reserved sizes zero, both buffer references null. -/
theorem C5_all_air_empty_mesh (c : chunk_t)
    (hgrid : ∀ i < CHUNK_SIZE * CHUNK_HEIGHT * CHUNK_SIZE, c.blocks.types i = CUBETYPE_AIR) :
    ∃ c1, chunk_generate_mesh c = .ok c1 ∧ c1.mesh.v_cnt = 0 ∧ c1.mesh.i_cnt = 0 ∧
      c1.mesh.v_rsrv = 0 ∧ c1.mesh.i_rsrv = 0 ∧
      c1.mesh.v_buf.isNone = true ∧ c1.mesh.i_buf.isNone = true := by
  obtain ⟨hok, hlen⟩ := air_ok c hgrid
  refine ⟨_, hok, ?_⟩
  simp [mesh_result, hlen]

/-- C5 at the all-AIR grid. -/
theorem C5_witness_air_grid :
    ∃ c1, chunk_generate_mesh (chunk_of air_grid) = .ok c1 ∧ c1.mesh.v_cnt = 0 ∧
      c1.mesh.i_cnt = 0 ∧ c1.mesh.v_rsrv = 0 ∧ c1.mesh.i_rsrv = 0 ∧
      c1.mesh.v_buf.isNone = true ∧ c1.mesh.i_buf.isNone = true :=
  C5_all_air_empty_mesh (chunk_of air_grid) (fun _ _ => rfl)

/-- C6. In every run of `chunk_generate_mesh` that returns, a non-AIR voxel on a chunk boundary
has the quad of the direction pointing out of the chunk in the mesh: LEFT at `x = 0`, RIGHT at
`x = 15`, BOTTOM at `y = 0`, TOP at `y = 63`, BACK at `z = 0`, FRONT at `z = 15`, whatever the
rest of the grid holds. -/
theorem C6_boundary_face_always_emitted (c c1 : chunk_t) (h : chunk_generate_mesh c = .ok c1)
    (x y z : Nat) (hx : x < CHUNK_SIZE) (hy : y < CHUNK_HEIGHT) (hz : z < CHUNK_SIZE)
    (hne : c.blocks.types (flat_of x y z) ≠ CUBETYPE_AIR) :
    (x = 0 → quad_emitted c1.mesh (quad_desc_at c.blocks x y z FACEIDX_LEFT) = true) ∧
    (x = CHUNK_SIZE - 1 →
      quad_emitted c1.mesh (quad_desc_at c.blocks x y z FACEIDX_RIGHT) = true) ∧
    (y = 0 → quad_emitted c1.mesh (quad_desc_at c.blocks x y z FACEIDX_BOTTOM) = true) ∧
    (y = CHUNK_HEIGHT - 1 →
      quad_emitted c1.mesh (quad_desc_at c.blocks x y z FACEIDX_TOP) = true) ∧
    (z = 0 → quad_emitted c1.mesh (quad_desc_at c.blocks x y z FACEIDX_BACK) = true) ∧
    (z = CHUNK_SIZE - 1 →
      quad_emitted c1.mesh (quad_desc_at c.blocks x y z FACEIDX_FRONT) = true) := by
  have key : ∀ f, f < 6 → neighbour_index x y z f = none →
      quad_emitted c1.mesh (quad_desc_at c.blocks x y z f) = true := by
    intro f hf hnone
    apply (emitted_iff c c1 h x y z f hx hy hz hf).mpr
    apply (exposed_iff c.blocks x y z f hx hy hz).mpr
    exact ⟨hne, front_transparent_of_edge c.blocks x y z f hx hy hz hf hnone⟩
  refine ⟨?_, ?_, ?_, ?_, ?_, ?_⟩
  · intro e; exact key FACEIDX_LEFT (by decide) (by simp [neighbour_index, e])
  · intro e; exact key FACEIDX_RIGHT (by decide) (by simp [neighbour_index, e])
  · intro e; exact key FACEIDX_BOTTOM (by decide) (by simp [neighbour_index, e])
  · intro e; exact key FACEIDX_TOP (by decide) (by simp [neighbour_index, e])
  · intro e; exact key FACEIDX_BACK (by decide) (by simp [neighbour_index, e])
  · intro e; exact key FACEIDX_FRONT (by decide) (by simp [neighbour_index, e])

/-- C6 at the grid holding one STONE voxel at the corner `(0, 0, 0)`: its LEFT, BOTTOM and
BACK quads are in the mesh. -/
theorem C6_witness_corner_stone :
    quad_emitted
        (mesh_result (chunk_of (single_grid 0 0 0 CUBETYPE_STONE))
          (visible (single_grid 0 0 0 CUBETYPE_STONE))).mesh
        (quad_desc_at (single_grid 0 0 0 CUBETYPE_STONE) 0 0 0 FACEIDX_LEFT) = true ∧
      quad_emitted
        (mesh_result (chunk_of (single_grid 0 0 0 CUBETYPE_STONE))
          (visible (single_grid 0 0 0 CUBETYPE_STONE))).mesh
        (quad_desc_at (single_grid 0 0 0 CUBETYPE_STONE) 0 0 0 FACEIDX_BOTTOM) = true ∧
      quad_emitted
        (mesh_result (chunk_of (single_grid 0 0 0 CUBETYPE_STONE))
          (visible (single_grid 0 0 0 CUBETYPE_STONE))).mesh
        (quad_desc_at (single_grid 0 0 0 CUBETYPE_STONE) 0 0 0 FACEIDX_BACK) = true := by
  have h := C6_boundary_face_always_emitted (chunk_of (single_grid 0 0 0 CUBETYPE_STONE)) _
    (single_voxel_ok (chunk_of (single_grid 0 0 0 CUBETYPE_STONE)) 0 0 0 CUBETYPE_STONE
      (by decide) (by decide) (by decide) (by decide) (by unfold valid_type; decide)
      (fun i _ => rfl)).1
    0 0 0 (by decide) (by decide) (by decide)
    (by
      show (if flat_of 0 0 0 = flat_of 0 0 0 then CUBETYPE_STONE else CUBETYPE_AIR) ≠
        CUBETYPE_AIR
      rw [if_pos rfl]; decide)
  exact ⟨h.1 rfl, h.2.2.1 rfl, h.2.2.2.2.1 rfl⟩

/-- C7. For every coordinate inside the chunk and each of the six directions, `_get_neighbour`
is defined (every grid read it performs is in range) and returns AIR when the step along the
direction (BACK `z-1`, FRONT `z+1`, RIGHT `x+1`, LEFT `x-1`, BOTTOM `y-1`, TOP `y+1`) leaves
the chunk, and the grid value at the adjacent coordinate otherwise. -/
theorem C7_get_neighbour_air_outside_else_adjacent (b : chunk_data_t) (x y z f : Nat)
    (hx : x < CHUNK_SIZE) (hy : y < CHUNK_HEIGHT) (hz : z < CHUNK_SIZE) (hf : f < 6) :
    face_step FACEIDX_BACK = (0, 0, -1) ∧ face_step FACEIDX_FRONT = (0, 0, 1) ∧
    face_step FACEIDX_RIGHT = (1, 0, 0) ∧ face_step FACEIDX_LEFT = (-1, 0, 0) ∧
    face_step FACEIDX_BOTTOM = (0, -1, 0) ∧ face_step FACEIDX_TOP = (0, 1, 0) ∧
    ∀ nx ny nz : Int, nx = x + (face_step f).1 → ny = y + (face_step f).2.1 →
      nz = z + (face_step f).2.2 →
      _get_neighbour x y z f b =
        some (if 0 ≤ nx ∧ nx < 16 ∧ 0 ≤ ny ∧ ny < 64 ∧ 0 ≤ nz ∧ nz < 16 then
                b.types (flat_of nx.toNat ny.toNat nz.toNat)
              else CUBETYPE_AIR) := by
  refine ⟨rfl, rfl, rfl, rfl, rfl, rfl, ?_⟩
  intro nx ny nz ex ey ez
  rw [get_neighbour_eq b x y z f hx hy hz hf]
  unfold adjacent cell_at
  rw [← ex, ← ey, ← ez]
  by_cases hin : 0 ≤ nx ∧ nx < 16 ∧ 0 ≤ ny ∧ ny < 64 ∧ 0 ≤ nz ∧ nz < 16
  · rw [if_pos hin, if_pos hin]; rfl
  · rw [if_neg hin, if_neg hin]; rfl

/-- C7 at the grid holding one STONE voxel at `(0, 0, 0)`: the LEFT neighbour of `(1, 0, 0)`
is that voxel, the LEFT neighbour of `(0, 0, 0)` is AIR. -/
theorem C7_witness_left_neighbours :
    _get_neighbour 1 0 0 FACEIDX_LEFT (single_grid 0 0 0 CUBETYPE_STONE) = some CUBETYPE_STONE ∧
      _get_neighbour 0 0 0 FACEIDX_LEFT (single_grid 0 0 0 CUBETYPE_STONE) =
        some CUBETYPE_AIR := by
  have h1 := (C7_get_neighbour_air_outside_else_adjacent (single_grid 0 0 0 CUBETYPE_STONE)
    1 0 0 FACEIDX_LEFT (by decide) (by decide) (by decide) (by decide)).2.2.2.2.2.2
    0 0 0 (by decide) (by decide) (by decide)
  have h2 := (C7_get_neighbour_air_outside_else_adjacent (single_grid 0 0 0 CUBETYPE_STONE)
    0 0 0 FACEIDX_LEFT (by decide) (by decide) (by decide) (by decide)).2.2.2.2.2.2
    (-1) 0 0 (by decide) (by decide) (by decide)
  refine ⟨?_, ?_⟩
  · rw [h1]; rfl
  · rw [h2]; rfl

/-- C8. A call of `_add_face_to_mesh` with a descriptor inside the tables and starting counts
`(v, i)` that leave room for 4 vertices and 6 indices in buffers of `uint32_t` size returns
with counts `(v + 4, i + 6)`; the indices at `i..i+5` are `v+0, v+2, v+1, v+0, v+3, v+2`, each
below `v + 4`; vertex slots below `v` and index slots below `i` are unchanged. -/
theorem C8_add_face_counts_indices_frame (d : quad_desc_t) (s : emit_state)
    (hf : d.face < 6) (ht : d.type * 6 + d.face < MAX_BLOCK_TYPES * 6)
    (hv : s.v_cnt + 4 ≤ s.vertices.size) (hi : s.i_cnt + 6 ≤ s.indices.size)
    (hvs : s.vertices.size < 2 ^ 32) (his : s.indices.size < 2 ^ 32) :
    ∃ s1, _add_face_to_mesh d s = some s1 ∧
      s1.v_cnt = s.v_cnt + 4 ∧ s1.i_cnt = s.i_cnt + 6 ∧
      s1.indices.data (s.i_cnt + 0) = some (s.v_cnt + 0) ∧
      s1.indices.data (s.i_cnt + 1) = some (s.v_cnt + 2) ∧
      s1.indices.data (s.i_cnt + 2) = some (s.v_cnt + 1) ∧
      s1.indices.data (s.i_cnt + 3) = some (s.v_cnt + 0) ∧
      s1.indices.data (s.i_cnt + 4) = some (s.v_cnt + 3) ∧
      s1.indices.data (s.i_cnt + 5) = some (s.v_cnt + 2) ∧
      (∀ j, j < 6 → ∃ r, s1.indices.data (s.i_cnt + j) = some r ∧ r < s.v_cnt + 4) ∧
      (∀ q, q < s.v_cnt → s1.vertices.data q = s.vertices.data q) ∧
      (∀ q, q < s.i_cnt → s1.indices.data q = s.indices.data q) := by
  have hsome : (quad_vertices d).isSome = true := by
    rw [quad_vertices_isSome]
    simp only [MAX_BLOCK_TYPES] at ht
    simp only [decide_eq_true_eq]
    exact ⟨hf, ht⟩
  obtain ⟨vs, hvs1⟩ := Option.isSome_iff_exists.mp hsome
  obtain ⟨a0, a1, a2, a3, rfl⟩ := quad_vertices_length d vs hvs1
  have e0 : s.i_cnt + 0 ≠ s.i_cnt + 5 := by omega
  refine ⟨_, add_face_eq d s a0 a1 a2 a3 hvs1 hv hi hvs his, rfl, rfl, ?_, ?_, ?_, ?_, ?_, ?_,
    ?_, ?_, ?_⟩
  · simp
  · simp
  · simp
  · simp
  · simp
  · simp
  · intro j hj
    have hj6 : j = 0 ∨ j = 1 ∨ j = 2 ∨ j = 3 ∨ j = 4 ∨ j = 5 := by omega
    rcases hj6 with h | h | h | h | h | h <;> subst h
    · exact ⟨s.v_cnt + 0, by simp, by omega⟩
    · exact ⟨s.v_cnt + 2, by simp, by omega⟩
    · exact ⟨s.v_cnt + 1, by simp, by omega⟩
    · exact ⟨s.v_cnt + 0, by simp, by omega⟩
    · exact ⟨s.v_cnt + 3, by simp, by omega⟩
    · exact ⟨s.v_cnt + 2, by simp, by omega⟩
  · intro q hq
    simp only []
    rw [if_neg (by omega), if_neg (by omega), if_neg (by omega), if_neg (by omega)]
  · intro q hq
    simp only []
    rw [if_neg (by omega), if_neg (by omega), if_neg (by omega), if_neg (by omega),
      if_neg (by omega), if_neg (by omega)]

/-- C8 for the BACK face of a STONE voxel at `(0, 0, 0)`, appended to fresh buffers. -/
theorem C8_witness_first_quad :
    ∃ s1, _add_face_to_mesh { x := 0, y := 0, z := 0, type := 3, face := 0 } (state_of []) =
        some s1 ∧
      s1.v_cnt = 4 ∧ s1.i_cnt = 6 ∧
      s1.indices.data 0 = some 0 ∧ s1.indices.data 1 = some 2 ∧ s1.indices.data 2 = some 1 ∧
      s1.indices.data 3 = some 0 ∧ s1.indices.data 4 = some 3 ∧ s1.indices.data 5 = some 2 := by
  obtain ⟨s1, h, hv, hi, i0, i1, i2, i3, i4, i5, -⟩ :=
    C8_add_face_counts_indices_frame { x := 0, y := 0, z := 0, type := 3, face := 0 }
      (state_of []) (by decide) (by decide) (by decide) (by decide) (by decide) (by decide)
  exact ⟨s1, h, hv, hi, i0, i1, i2, i3, i4, i5⟩

/-- C9. For every voxel position inside the chunk, every block type `0..6`, every direction
`d` and `k = 0..3`, the `k`-th vertex `_add_face_to_mesh` appends has position exactly
`(tx + 2x, ty + 2y, tz + 2z)` of the template vertex `face_vertices[d][k]` (each component at
most 128, so the `uint8_t` sum does not wrap) and the template's normal flag, but its uv word
is indeterminate, not `PACK(unpack(template uv) + uv_lookup[type * 6 + d])`: the two floats are
read through the pointer `_unpack` returned, whose array is no longer alive, although the two
quotients `_unpack` computed, with the atlas origin added and scaled, would fit 16 bits each.
The call returns whenever the buffers have room. Floats are exact rationals with
truncation. -/
theorem C9_appended_vertex_uv_indeterminate (x y z t d k : Nat) (hx : x < CHUNK_SIZE)
    (hy : y < CHUNK_HEIGHT) (hz : z < CHUNK_SIZE) (ht : t < 7) (hd : d < 6) (hk : k < 4) :
    ∃ row tv o w, face_vertices[d]? = some row ∧ row[k]? = some tv ∧
      uv_lookup[t * 6 + d]? = some o ∧ tv.uv = some w ∧
      tv.x + 2 * x ≤ 128 ∧ tv.y + 2 * y ≤ 128 ∧ tv.z + 2 * z ≤ 128 ∧
      ⌊((_unpack w).elt0 + o.1) * 0xFFFF⌋₊ < 65536 ∧
      ⌊((_unpack w).elt1 + o.2) * 0xFFFF⌋₊ < 65536 ∧
      (_unpack w).alive = false ∧ (_unpack w).read 0 = none ∧ (_unpack w).read 1 = none ∧
      (∀ s s1, _add_face_to_mesh { x := x, y := y, z := z, type := t, face := d } s = some s1 →
        s1.vertices.data (s.v_cnt + k) =
            some { x := tv.x + 2 * x, y := tv.y + 2 * y, z := tv.z + 2 * z, n := tv.n,
                   uv := none } ∧
          s1.vertices.data (s.v_cnt + k) ≠
            some { x := tv.x + 2 * x, y := tv.y + 2 * y, z := tv.z + 2 * z, n := tv.n,
                   uv := some (PACK ((_unpack w).elt0 + o.1) ((_unpack w).elt1 + o.2)) }) ∧
      (∀ s : emit_state, s.v_cnt + 4 ≤ s.vertices.size → s.i_cnt + 6 ≤ s.indices.size →
        s.vertices.size < 2 ^ 32 → s.indices.size < 2 ^ 32 →
        ∃ s1, _add_face_to_mesh { x := x, y := y, z := z, type := t, face := d } s =
          some s1) := by
  obtain ⟨row, tv, o, vs, w, hrow, htv, ho, hvs, hvk, bx, by_, bz, hw, g1, g2⟩ :=
    quad_vertex_spec x y z t d k hx hy hz ht hd hk
  refine ⟨row, tv, o, w, hrow, htv, ho, hw, bx, by_, bz, g1, g2, rfl, unpack_read w 0,
    unpack_read w 1, ?_, ?_⟩
  · intro s s1 h
    obtain ⟨a0, a1, a2, a3, hq, h0, h1, h2, h3⟩ := add_face_vertices _ s s1 h
    rw [hvs] at hq
    have hq := Option.some.inj hq
    subst hq
    have hstored : s1.vertices.data (s.v_cnt + k) =
        some { x := tv.x + 2 * x, y := tv.y + 2 * y, z := tv.z + 2 * z, n := tv.n,
               uv := none } := by
      have hk4 : k = 0 ∨ k = 1 ∨ k = 2 ∨ k = 3 := by omega
      rcases hk4 with e | e | e | e <;> subst e <;>
        simp only [List.getElem?_cons_zero, List.getElem?_cons_succ] at hvk
      · rw [h0, hvk]
      · rw [h1, hvk]
      · rw [h2, hvk]
      · rw [h3, hvk]
    refine ⟨hstored, ?_⟩
    rw [hstored]
    intro hne
    have := congrArg vertex_t.uv (Option.some.inj hne)
    exact absurd this (by simp)
  · intro s hv hi hvsz hisz
    obtain ⟨a0, a1, a2, a3, rfl⟩ := quad_vertices_length _ vs hvs
    exact ⟨_, add_face_eq _ s a0 a1 a2 a3 hvs hv hi hvsz hisz⟩

/-- C9 for the first vertex of the TOP face of a STONE voxel at `(1, 2, 3)`, appended to fresh
buffers: the template vertex is `(0, 2, 2)` with flag 4, the stored vertex is `(2, 6, 8)` with
flag 4 and an indeterminate uv word. -/
theorem C9_witness_stone_top_vertex :
    ∃ s1, _add_face_to_mesh { x := 1, y := 2, z := 3, type := 3, face := FACEIDX_TOP }
        (state_of []) = some s1 ∧
      s1.vertices.data 0 = some { x := 2, y := 6, z := 8, n := 4, uv := none } := by
  obtain ⟨row, tv, o, w, hrow, htv, -, -, -, -, -, -, -, -, -, -, hdata, hroom⟩ :=
    C9_appended_vertex_uv_indeterminate 1 2 3 3 FACEIDX_TOP 0 (by decide) (by decide)
      (by decide) (by decide) (by decide) (by decide)
  obtain ⟨s1, hs1⟩ := hroom (state_of []) (by decide) (by decide) (by decide) (by decide)
  refine ⟨s1, hs1, ?_⟩
  have h := (hdata (state_of []) s1 hs1).1
  simp only [face_vertices, FACEIDX_TOP, List.getElem?_cons_zero, List.getElem?_cons_succ,
    Option.some.injEq] at hrow
  subst hrow
  simp only [List.getElem?_cons_zero, Option.some.injEq] at htv
  subst htv
  exact h

/-- C10. For every face direction `d`, with outward normal `face_step d`: the triangles
`(v0, v2, v1)` and `(v0, v3, v2)` of `face_vertices[d]` have a cross product that is a positive
multiple of minus the outward normal (clockwise seen from outside) and the stored order
`v0, v1, v2, v3` turns counter-clockwise at every corner; every call of `_add_face_to_mesh` for
a voxel inside the chunk that has room stores four vertices and six indices such that the two
triangles read back through the indices at `i_cnt .. i_cnt + 2` and `i_cnt + 3 .. i_cnt + 5`
are `(a0, a2, a1)` and `(a0, a3, a2)` of the stored vertices and are clockwise seen from
outside, the stored order being counter-clockwise. And in the mesh of every run that returns,
every triangle below `i_cnt` is clockwise seen from outside the face whose normal flag its
vertices carry. -/
theorem C10_triangles_clockwise_from_outside :
    (∀ d, d < 6 →
      (∃ v0 v1 v2 v3, face_vertices[d]? = some [v0, v1, v2, v3] ∧
        clockwise_from_outside d v0 v2 v1 ∧ clockwise_from_outside d v0 v3 v2 ∧
        counter_clockwise_from_outside d v0 v1 v2 ∧
        counter_clockwise_from_outside d v1 v2 v3 ∧
        counter_clockwise_from_outside d v2 v3 v0 ∧
        counter_clockwise_from_outside d v3 v0 v1) ∧
      ∀ (x y z t : Nat) (s : emit_state), x < CHUNK_SIZE → y < CHUNK_HEIGHT →
        z < CHUNK_SIZE → t < MAX_BLOCK_TYPES →
        s.v_cnt + 4 ≤ s.vertices.size → s.i_cnt + 6 ≤ s.indices.size →
        s.vertices.size < 2 ^ 32 → s.indices.size < 2 ^ 32 →
        ∃ s1 a0 a1 a2 a3,
          _add_face_to_mesh { x := x, y := y, z := z, type := t, face := d } s = some s1 ∧
          s1.vertices.data (s.v_cnt + 0) = some a0 ∧
          s1.vertices.data (s.v_cnt + 1) = some a1 ∧
          s1.vertices.data (s.v_cnt + 2) = some a2 ∧
          s1.vertices.data (s.v_cnt + 3) = some a3 ∧
          triangle_from s1 s.i_cnt = some (a0, a2, a1) ∧
          triangle_from s1 (s.i_cnt + 3) = some (a0, a3, a2) ∧
          clockwise_from_outside d a0 a2 a1 ∧ clockwise_from_outside d a0 a3 a2 ∧
          counter_clockwise_from_outside d a0 a1 a2 ∧
          counter_clockwise_from_outside d a1 a2 a3 ∧
          counter_clockwise_from_outside d a2 a3 a0 ∧
          counter_clockwise_from_outside d a3 a0 a1) ∧
    (∀ (c c1 : chunk_t) (k : Nat), chunk_generate_mesh c = .ok c1 →
      3 * k + 2 < c1.mesh.i_cnt →
      ∃ a b e f, mesh_triangle c1.mesh k = some (a, b, e) ∧ f < 6 ∧
        face_flag f = some a.n ∧ b.n = a.n ∧ e.n = a.n ∧ clockwise_from_outside f a b e) := by
  refine ⟨?_, ?_⟩
  · intro d hd
    refine ⟨template_winding d hd, ?_⟩
    intro x y z t s hx hy hz ht hv hi hvs his
    have hsome : (quad_vertices { x := x, y := y, z := z, type := t, face := d }).isSome =
        true := by
      rw [quad_vertices_isSome]
      simp only [MAX_BLOCK_TYPES] at ht
      simp only [decide_eq_true_eq]
      omega
    obtain ⟨vs, hvs1⟩ := Option.isSome_iff_exists.mp hsome
    obtain ⟨a0, a1, a2, a3, rfl, c1, c2, w1, w2, w3, w4, -⟩ :=
      quad_winding { x := x, y := y, z := z, type := t, face := d } vs hx hy hz hvs1
    obtain ⟨s1, hs1, e0, e1, e2, e3, t1, t2⟩ :=
      add_face_triangles _ s a0 a1 a2 a3 hvs1 hv hi hvs his
    exact ⟨s1, a0, a1, a2, a3, hs1, e0, e1, e2, e3, t1, t2, c1, c2, w1, w2, w3, w4⟩
  · intro c c1 k h hk
    obtain ⟨hc, -, -, hdef⟩ := generate_ok_eq c c1 h
    subst hc
    rw [mesh_result_i_cnt] at hk
    have hj : k / 2 < (visible c.blocks).length := by omega
    have hget : (visible c.blocks)[k / 2]? = some (visible c.blocks)[k / 2] :=
      List.getElem?_eq_getElem hj
    have hmem : (visible c.blocks)[k / 2] ∈ visible c.blocks := List.getElem_mem hj
    generalize (visible c.blocks)[k / 2] = q at hget hmem
    obtain ⟨hx, hy, hz, hf⟩ := visible_in_chunk c.blocks q hmem
    obtain ⟨vs, hvs⟩ := Option.isSome_iff_exists.mp (visible_defined c.blocks hdef q hmem)
    obtain ⟨a0, a1, a2, a3, rfl, c1, c2, -, -, -, -, hflag, n1, n2, n3, -⟩ :=
      quad_winding q vs hx hy hz hvs
    have hn : a1.n = a0.n ∧ a2.n = a0.n ∧ a3.n = a0.n := ⟨n1, n2, n3⟩
    rw [mesh_triangle_result c _ k hk q a0 a1 a2 a3 hget hvs]
    by_cases hpar : k % 2 = 0
    · rw [if_pos hpar]
      exact ⟨a0, a2, a1, q.face, rfl, hf, hflag, hn.2.1, hn.1, c1⟩
    · rw [if_neg hpar]
      exact ⟨a0, a3, a2, q.face, rfl, hf, hflag, hn.2.2, hn.2.1, c2⟩

/-- C10 for the TOP quad of a STONE voxel at `(15, 63, 15)` appended to fresh buffers, and for
the first triangle of the mesh of the grid holding one STONE voxel at `(0, 0, 0)`. -/
theorem C10_witness_top_face :
    (∃ s1 a0 a1 a2 a3,
      _add_face_to_mesh { x := 15, y := 63, z := 15, type := 3, face := FACEIDX_TOP }
          (state_of []) = some s1 ∧
        triangle_from s1 0 = some (a0, a2, a1) ∧ triangle_from s1 3 = some (a0, a3, a2) ∧
        clockwise_from_outside FACEIDX_TOP a0 a2 a1 ∧
        clockwise_from_outside FACEIDX_TOP a0 a3 a2) ∧
    ∃ c1 a b e f, chunk_generate_mesh (chunk_of (single_grid 0 0 0 CUBETYPE_STONE)) = .ok c1 ∧
      mesh_triangle c1.mesh 0 = some (a, b, e) ∧ f < 6 ∧ face_flag f = some a.n ∧
      clockwise_from_outside f a b e := by
  refine ⟨?_, ?_⟩
  · obtain ⟨s1, a0, a1, a2, a3, h, -, -, -, -, t1, t2, c1, c2, -⟩ :=
      (C10_triangles_clockwise_from_outside.1 FACEIDX_TOP (by decide)).2 15 63 15 3
        (state_of []) (by decide) (by decide) (by decide) (by decide) (by decide) (by decide)
        (by decide) (by decide)
    exact ⟨s1, a0, a1, a2, a3, h, t1, t2, c1, c2⟩
  · obtain ⟨hok, hlen⟩ := single_voxel_ok (chunk_of (single_grid 0 0 0 CUBETYPE_STONE)) 0 0 0
      CUBETYPE_STONE (by decide) (by decide) (by decide) (by decide)
      (by unfold valid_type; decide) (fun i _ => rfl)
    obtain ⟨a, b, e, f, ht, hf, hflag, -, -, hcw⟩ :=
      C10_triangles_clockwise_from_outside.2 _ _ 0 hok (by
        rw [mesh_result_i_cnt, hlen]; decide)
    exact ⟨_, a, b, e, f, hok, ht, hf, hflag, hcw⟩

/-- C11. The test before a voxel's faces is `v_cnt + 24 >= V_MAX`, so the overflow exit is
also taken with exactly 24 vertices of capacity left. On the grid of 512 separate STONE voxels
the run reaches the last one, at flat index 14574, with `v_cnt = 12264 = V_MAX - 24`; that
round takes the overflow exit and so does `chunk_generate_mesh`, although the whole mesh needs
exactly `V_MAX` vertices and `I_MAX` indices. -/
theorem C11_overflow_exit_with_exactly_24_left :
    valid_grid scattered_grid ∧
    scattered_grid.types 14574 ≠ CUBETYPE_AIR ∧
    for_loop (voxel_body scattered_grid) 14574 (state_of []) =
      .ok (state_of (visible_upto scattered_grid 14574)) ∧
    (state_of (visible_upto scattered_grid 14574)).v_cnt = 12264 ∧
    V_MAX - (state_of (visible_upto scattered_grid 14574)).v_cnt = 24 ∧
    voxel_body scattered_grid 14574 (state_of (visible_upto scattered_grid 14574)) =
      .error .buffer_overflow ∧
    4 * exposed_count scattered_grid = V_MAX ∧ 6 * exposed_count scattered_grid = I_MAX ∧
    chunk_generate_mesh (chunk_of scattered_grid) = .error .buffer_overflow := by
  have hv : (state_of (visible_upto scattered_grid 14574)).v_cnt = 12264 := by
    rw [state_of_v_cnt, scattered_length_before_last]
  have hcount : exposed_count scattered_grid = 3072 := by
    rw [← visible_length, scattered_length]
  refine ⟨scattered_valid, by rw [scattered_last_stone]; exact stone_ne_air,
    scattered_reaches_last, hv, by rw [hv]; decide, scattered_last_round,
    by rw [hcount], by rw [hcount], ?_⟩
  apply generate_overflow_of_valid _ scattered_valid
  intro hr
  have := hr 14574 (by decide) (by
    show scattered_grid.types 14574 ≠ CUBETYPE_AIR
    rw [scattered_last_stone]; exact stone_ne_air)
  rw [chunk_of_blocks, scattered_length_before_last] at this
  exact absurd this (by decide)

/-- C12. The 3D checkerboard grid, STONE where `x + y + z` is even and AIR elsewhere, is a
valid grid with `8192 * 6` exposed faces, so its mesh needs `8192 * 24` vertices, more than
`V_MAX = 12288`; `chunk_generate_mesh` ends in the overflow exit on every chunk holding it. -/
theorem C12_checkerboard_overflows :
    valid_grid checker_grid ∧
    (∀ x y z, x < CHUNK_SIZE → y < CHUNK_HEIGHT → z < CHUNK_SIZE →
      checker_grid.types (flat_of x y z) =
        if (x + y + z) % 2 = 0 then CUBETYPE_STONE else CUBETYPE_AIR) ∧
    exposed_count checker_grid = 8192 * 6 ∧
    4 * exposed_count checker_grid = 8192 * 24 ∧
    V_MAX = 12288 ∧ V_MAX < 4 * exposed_count checker_grid ∧
    chunk_generate_mesh (chunk_of checker_grid) = .error .buffer_overflow ∧
    ∀ c : chunk_t, c.blocks = checker_grid →
      chunk_generate_mesh c = .error .buffer_overflow := by
  have hcount : exposed_count checker_grid = 49152 := by
    rw [← visible_length, checker_length]
  have hall : ∀ c : chunk_t, c.blocks = checker_grid →
      chunk_generate_mesh c = .error .buffer_overflow := by
    intro c hc
    apply generate_overflow_of_large c (by rw [hc]; exact checker_valid)
    rw [hc, checker_length]
    decide
  refine ⟨checker_valid, checker_at, by rw [hcount], by rw [hcount], rfl,
    by rw [hcount]; decide, hall _ rfl, hall⟩

/-- C13. After every `chunk_generate_mesh` that returns, the mesh has `v_cnt ≤ v_rsrv` and
`i_cnt ≤ i_rsrv`, and `(v_rsrv, i_rsrv)` is `(0, 0)` or `(V_MAX, I_MAX) = (12288, 18432)`. -/
theorem C13_counts_within_reserved (c c1 : chunk_t) (h : chunk_generate_mesh c = .ok c1) :
    c1.mesh.v_cnt ≤ c1.mesh.v_rsrv ∧ c1.mesh.i_cnt ≤ c1.mesh.i_rsrv ∧
      ((c1.mesh.v_rsrv = 0 ∧ c1.mesh.i_rsrv = 0) ∨
        (c1.mesh.v_rsrv = V_MAX ∧ c1.mesh.i_rsrv = I_MAX)) ∧
      V_MAX = 12288 ∧ I_MAX = 18432 := by
  obtain ⟨hc, hlt, -⟩ := generate_ok_eq c c1 h
  subst hc
  rw [mesh_result_v_cnt, mesh_result_i_cnt]
  simp only [V_MAX] at hlt
  rcases mesh_result_reserved c (visible c.blocks) with ⟨hv, hi, h0⟩ | ⟨hv, hi, -⟩
  · rw [hv, hi, h0]
    exact ⟨by omega, by omega, Or.inl ⟨rfl, rfl⟩, rfl, rfl⟩
  · rw [hv, hi]
    exact ⟨by simp only [V_MAX]; omega, by simp only [I_MAX]; omega, Or.inr ⟨rfl, rfl⟩, rfl, rfl⟩

/-- C13 at the grid holding one STONE voxel at `(0, 0, 0)`. -/
theorem C13_witness_single_stone :
    ∃ c1, chunk_generate_mesh (chunk_of (single_grid 0 0 0 CUBETYPE_STONE)) = .ok c1 ∧
      c1.mesh.v_cnt ≤ c1.mesh.v_rsrv ∧ c1.mesh.i_cnt ≤ c1.mesh.i_rsrv ∧
      ((c1.mesh.v_rsrv = 0 ∧ c1.mesh.i_rsrv = 0) ∨
        (c1.mesh.v_rsrv = V_MAX ∧ c1.mesh.i_rsrv = I_MAX)) := by
  have hok := (single_voxel_ok (chunk_of (single_grid 0 0 0 CUBETYPE_STONE)) 0 0 0
    CUBETYPE_STONE (by decide) (by decide) (by decide) (by decide)
    (by unfold valid_type; decide) (fun i _ => rfl)).1
  have h := C13_counts_within_reserved _ _ hok
  exact ⟨_, hok, h.1, h.2.1, h.2.2.1⟩

/-- C14. For all rationals `u`, `v` in `[0, 1)`, `PACK u v` is
`(floor(u * 65535) << 16) | (floor(v * 65535) & 0xFFFF)` and unpacking it gives `(u1, v1)`
with `|u - u1| ≤ 1 / 65535` and `|v - v1| ≤ 1 / 65535`. -/
theorem C14_pack_unpack_within_precision (u v : ℚ) (hu0 : 0 ≤ u) (hu1 : u < 1) (hv0 : 0 ≤ v)
    (hv1 : v < 1) :
    PACK u v = (⌊u * 65535⌋₊ <<< 16) ||| (⌊v * 65535⌋₊ &&& 0xFFFF) ∧
      |u - (_unpack (PACK u v)).1| ≤ 1 / 65535 ∧ |v - (_unpack (PACK u v)).2| ≤ 1 / 65535 := by
  have gu := floor_scaled_lt u hu0 hu1
  have gv := floor_scaled_lt v hv0 hv1
  have hp := pack_eq u v (by omega) (by omega)
  have hun := unpack_of_halves ⌊u * 0xFFFF⌋₊ ⌊v * 0xFFFF⌋₊ (by omega)
  refine ⟨?_, ?_, ?_⟩
  · rw [hp]
    have e : (0xFFFF : ℚ) = 65535 := by norm_num
    rw [e] at gu gv ⊢
    generalize ⌊u * 65535⌋₊ = hi at gu
    generalize ⌊v * 65535⌋₊ = lo at gv
    have h5 : lo &&& 0xFFFF = lo := by
      have := Nat.and_pow_two_sub_one_of_lt_two_pow (x := lo) (n := 16) (by omega)
      simpa using this
    have h6 : lo < 2 ^ 16 := by omega
    rw [h5, Nat.shiftLeft_eq, Nat.mul_comm hi, ← Nat.mul_add_lt_is_or h6 hi]
  · rw [hp, hun]
    exact floor_scaled_close u hu0
  · rw [hp, hun]
    exact floor_scaled_close v hv0

/-- C14 at `u = 1/16`, `v = 15/16`. -/
theorem C14_witness_sixteenths :
    |(1 / 16 : ℚ) - (_unpack (PACK (1 / 16) (15 / 16))).1| ≤ 1 / 65535 ∧
      |(15 / 16 : ℚ) - (_unpack (PACK (1 / 16) (15 / 16))).2| ≤ 1 / 65535 :=
  (C14_pack_unpack_within_precision (1 / 16) (15 / 16) (by norm_num) (by norm_num)
    (by norm_num) (by norm_num)).2

/-- C15. `is_transparent` returns true exactly for AIR (0) and LEAF (6); it returns false for
GRASS, DIRT, STONE, SAND, LOG and every other type code. -/
theorem C15_transparent_iff_air_or_leaf (t : cube_type_e) :
    (is_transparent t = true ↔ (t = CUBETYPE_AIR ∨ t = CUBETYPE_LEAF)) ∧
      (is_transparent t = false ↔ (t ≠ 0 ∧ t ≠ 6)) ∧
      is_transparent CUBETYPE_GRASS = false ∧ is_transparent CUBETYPE_DIRT = false ∧
      is_transparent CUBETYPE_STONE = false ∧ is_transparent CUBETYPE_SAND = false ∧
      is_transparent CUBETYPE_LOG = false := by
  refine ⟨?_, is_transparent_false_iff t, by decide, by decide, by decide, by decide,
    by decide⟩
  unfold is_transparent
  by_cases h0 : t = CUBETYPE_AIR
  · simp [h0]
  · by_cases h6 : t = CUBETYPE_LEAF
    · simp [h6]
    · simp [h0, h6]

/-- C16. When `chunk_generate_mesh` returns on a chunk, the grid is unchanged and a second run
on the resulting chunk returns as well, with the same counts, the same reserved sizes, the
same index entries below `i_cnt` and, for every vertex below `v_cnt`, the same position and
normal flag; but the uv word of every such vertex is indeterminate in both runs (it is packed
from floats read through the pointer `_unpack` returned), so the vertex contents of the two
runs are not determined to be identical. -/
theorem C16_rerun_uv_words_indeterminate (c c1 : chunk_t)
    (h : chunk_generate_mesh c = .ok c1) :
    c1.blocks = c.blocks ∧
    ∃ c3, chunk_generate_mesh c1 = .ok c3 ∧ c3.blocks = c1.blocks ∧
      c3.mesh.v_cnt = c1.mesh.v_cnt ∧ c3.mesh.i_cnt = c1.mesh.i_cnt ∧
      c3.mesh.v_rsrv = c1.mesh.v_rsrv ∧ c3.mesh.i_rsrv = c1.mesh.i_rsrv ∧
      (∀ q, q < c1.mesh.i_cnt →
        ∃ r, index_slot c1.mesh q = some r ∧ index_slot c3.mesh q = some r) ∧
      (∀ q, q < c1.mesh.v_cnt →
        ∃ v1 v3, vertex_slot c1.mesh q = some v1 ∧ vertex_slot c3.mesh q = some v3 ∧
          position v3 = position v1 ∧ v3.n = v1.n ∧ v1.uv = none ∧ v3.uv = none) := by
  obtain ⟨hc, -, -, hdef⟩ := generate_ok_eq c c1 h
  have hblocks : c1.blocks = c.blocks := by rw [hc]; exact mesh_result_blocks c _
  refine ⟨hblocks, _, generate_congr c c1 c1 hblocks h, rfl, rfl, rfl, rfl, rfl, ?_, ?_⟩
  · intro q hq
    rw [hc, mesh_result_i_cnt] at hq
    obtain ⟨r, hr, -⟩ := index_at_lt _ q hq
    have e : index_slot c1.mesh q = some r := by
      rw [hc, index_slot_result c _ q hq, hr]
    exact ⟨r, e, e⟩
  · intro q hq
    rw [hc, mesh_result_v_cnt] at hq
    obtain ⟨v, hv, huv⟩ := vertex_at_uv _ (visible_defined c.blocks hdef) q hq
    have e : vertex_slot c1.mesh q = some v := by
      rw [hc, vertex_slot_result c _ q hq, hv]
    exact ⟨v, v, e, e, rfl, rfl, huv, huv⟩

/-- C16 at the grid holding one STONE voxel at `(0, 0, 0)`: both runs return 24 vertices, each
with an indeterminate uv word. -/
theorem C16_witness_single_stone :
    ∃ c1 c3, chunk_generate_mesh (chunk_of (single_grid 0 0 0 CUBETYPE_STONE)) = .ok c1 ∧
      chunk_generate_mesh c1 = .ok c3 ∧ c1.mesh.v_cnt = 24 ∧ c3.mesh.v_cnt = 24 ∧
      ∀ q, q < 24 →
        ∃ v1 v3, vertex_slot c1.mesh q = some v1 ∧ vertex_slot c3.mesh q = some v3 ∧
          v1.uv = none ∧ v3.uv = none := by
  obtain ⟨hok, hlen⟩ := single_voxel_ok (chunk_of (single_grid 0 0 0 CUBETYPE_STONE)) 0 0 0
    CUBETYPE_STONE (by decide) (by decide) (by decide) (by decide)
    (by unfold valid_type; decide) (fun i _ => rfl)
  obtain ⟨-, c3, h3, -, hv3, -, -, -, -, hvert⟩ := C16_rerun_uv_words_indeterminate _ _ hok
  have hv : (mesh_result (chunk_of (single_grid 0 0 0 CUBETYPE_STONE))
      (visible (chunk_of (single_grid 0 0 0 CUBETYPE_STONE)).blocks)).mesh.v_cnt = 24 := by
    rw [mesh_result_v_cnt, hlen]
  refine ⟨_, c3, hok, h3, hv, by rw [hv3, hv], ?_⟩
  intro q hq
  obtain ⟨v1, v3, e1, e3, -, -, u1, u3⟩ := hvert q (by rw [hv]; exact hq)
  exact ⟨v1, v3, e1, e3, u1, u3⟩

/-- C17. `canaries_failed` returns true exactly when one of the three sentinel fields differs
from its constant (start `0xDEADBEEF`, mid `0xFEEDBEAD`, end `0xCAFEBABE`); no run of
`chunk_generate_mesh` ends in the sentinel exit, and on every chunk it returns
`canaries_failed` is false. -/
theorem C17_canaries_never_fail :
    (∀ c : chunk_t, canaries_failed c = true ↔
      (c.mesh.__start_canary ≠ 0xDEADBEEF ∨ c.mesh.__mid_canary ≠ 0xFEEDBEAD ∨
        c.mesh.__end_canary ≠ 0xCAFEBABE)) ∧
    (∀ c : chunk_t, chunk_generate_mesh c ≠ .error .buffer_overrun) ∧
    (∀ c c1 : chunk_t, chunk_generate_mesh c = .ok c1 → canaries_failed c1 = false) := by
  refine ⟨?_, ?_, ?_⟩
  · intro c
    simp [canaries_failed, or_assoc]
  · intro c h
    have hs := generate_spec c
    rw [h] at hs
    exact hs
  · intro c c1 h
    obtain ⟨hc, -⟩ := generate_ok_eq c c1 h
    subst hc
    obtain ⟨h1, h2, h3⟩ := mesh_result_canaries c (visible c.blocks)
    simp [canaries_failed, h1, h2, h3]

/-- C17 at the grid holding one STONE voxel at `(0, 0, 0)`, whose chunk enters with zeroed
sentinels. -/
theorem C17_witness_single_stone :
    canaries_failed (chunk_of (single_grid 0 0 0 CUBETYPE_STONE)) = true ∧
      ∃ c1, chunk_generate_mesh (chunk_of (single_grid 0 0 0 CUBETYPE_STONE)) = .ok c1 ∧
        canaries_failed c1 = false := by
  have hok := (single_voxel_ok (chunk_of (single_grid 0 0 0 CUBETYPE_STONE)) 0 0 0
    CUBETYPE_STONE (by decide) (by decide) (by decide) (by decide)
    (by unfold valid_type; decide) (fun i _ => rfl)).1
  exact ⟨by decide, _, hok, C17_canaries_never_fail.2.2 _ _ hok⟩

/-- C19. When `chunk_generate_mesh` returns on a grid with at least one non-AIR voxel, at least
one quad was emitted (some non-AIR voxel has a transparent or out-of-chunk RIGHT neighbour):
both counts are positive, the reserved sizes are `(V_MAX, I_MAX)` and
both buffer references are non-null; so a run that returns leaves the empty mesh if and only if
the grid is entirely AIR. -/
theorem C19_empty_mesh_iff_all_air (c c1 : chunk_t) (h : chunk_generate_mesh c = .ok c1) :
    ((∃ i, i < CHUNK_SIZE * CHUNK_HEIGHT * CHUNK_SIZE ∧ c.blocks.types i ≠ CUBETYPE_AIR) →
      (∃ i, i < CHUNK_SIZE * CHUNK_HEIGHT * CHUNK_SIZE ∧ c.blocks.types i ≠ CUBETYPE_AIR ∧
        exposed c.blocks (voxel_x i) (voxel_y i) (voxel_z i) FACEIDX_RIGHT = true) ∧
      0 < c1.mesh.i_cnt ∧ 0 < c1.mesh.v_cnt ∧ 0 < exposed_count c.blocks ∧
        c1.mesh.v_rsrv = V_MAX ∧ c1.mesh.i_rsrv = I_MAX ∧
        c1.mesh.v_buf.isSome = true ∧ c1.mesh.i_buf.isSome = true) ∧
    ((c1.mesh.i_cnt = 0 ∧ c1.mesh.v_cnt = 0 ∧ c1.mesh.v_rsrv = 0 ∧ c1.mesh.i_rsrv = 0 ∧
        c1.mesh.v_buf.isNone = true ∧ c1.mesh.i_buf.isNone = true) ↔
      ∀ i, i < CHUNK_SIZE * CHUNK_HEIGHT * CHUNK_SIZE → c.blocks.types i = CUBETYPE_AIR) := by
  obtain ⟨hc, -⟩ := generate_ok_eq c c1 h
  subst hc
  have hfirst : (∃ i, i < CHUNK_SIZE * CHUNK_HEIGHT * CHUNK_SIZE ∧
      c.blocks.types i ≠ CUBETYPE_AIR) →
      (∃ i, i < CHUNK_SIZE * CHUNK_HEIGHT * CHUNK_SIZE ∧ c.blocks.types i ≠ CUBETYPE_AIR ∧
        exposed c.blocks (voxel_x i) (voxel_y i) (voxel_z i) FACEIDX_RIGHT = true) ∧
      0 < (mesh_result c (visible c.blocks)).mesh.i_cnt ∧
        0 < (mesh_result c (visible c.blocks)).mesh.v_cnt ∧ 0 < exposed_count c.blocks ∧
        (mesh_result c (visible c.blocks)).mesh.v_rsrv = V_MAX ∧
        (mesh_result c (visible c.blocks)).mesh.i_rsrv = I_MAX ∧
        (mesh_result c (visible c.blocks)).mesh.v_buf.isSome = true ∧
        (mesh_result c (visible c.blocks)).mesh.i_buf.isSome = true := by
    intro hex
    have hpos := visible_pos_of_non_air c.blocks hex
    have hne : ¬ (visible c.blocks).length = 0 := by omega
    obtain ⟨i, hi, hnei, hvis⟩ := last_voxel_right_visible c.blocks hex
    have hexp : exposed c.blocks (voxel_x i) (voxel_y i) (voxel_z i) FACEIDX_RIGHT = true := by
      rw [exposed_voxel c.blocks i FACEIDX_RIGHT hi (by decide), hvis]
      simp [hnei]
    rw [mesh_result_i_cnt, mesh_result_v_cnt, ← visible_length]
    refine ⟨⟨i, hi, hnei, hexp⟩, by omega, by omega, hpos, ?_⟩
    simp [mesh_result, hne]
  refine ⟨hfirst, ?_, ?_⟩
  · rintro ⟨h0, -⟩ i hi
    by_contra hne
    have := (hfirst ⟨i, hi, hne⟩).2.1
    omega
  · intro hall
    have hlen := air_length c.blocks hall
    simp [mesh_result, hlen]

/-- C19 at the grid holding one STONE voxel at `(0, 0, 0)`. -/
theorem C19_witness_single_stone :
    ∃ c1, chunk_generate_mesh (chunk_of (single_grid 0 0 0 CUBETYPE_STONE)) = .ok c1 ∧
      0 < c1.mesh.i_cnt ∧ 0 < c1.mesh.v_cnt ∧ c1.mesh.v_rsrv = V_MAX ∧
      c1.mesh.i_rsrv = I_MAX ∧ c1.mesh.v_buf.isSome = true ∧ c1.mesh.i_buf.isSome = true := by
  have hok := (single_voxel_ok (chunk_of (single_grid 0 0 0 CUBETYPE_STONE)) 0 0 0
    CUBETYPE_STONE (by decide) (by decide) (by decide) (by decide)
    (by unfold valid_type; decide) (fun i _ => rfl)).1
  have h := (C19_empty_mesh_iff_all_air _ _ hok).1
    ⟨0, by decide, by
      show (if 0 = flat_of 0 0 0 then CUBETYPE_STONE else CUBETYPE_AIR) ≠ CUBETYPE_AIR
      decide⟩
  exact ⟨_, hok, h.2.1, h.2.2.1, h.2.2.2.2.1, h.2.2.2.2.2.1, h.2.2.2.2.2.2.1,
    h.2.2.2.2.2.2.2⟩

/-- C20. Throughout `chunk_generate_mesh` the counters keep `v_cnt` a multiple of 4 and
`2 * i_cnt = 3 * v_cnt`: after any number of rounds of the voxel loop, and before every face of
a voxel that passed the test `v_cnt + 24 < V_MAX`, where moreover the four vertex stores
`v_cnt .. v_cnt + 3` lie below `V_MAX` and the six index stores `i_cnt .. i_cnt + 5` below
`I_MAX`, the sizes of the two buffers. In the mesh of a run that returns, every index stored
below `i_cnt` is below `v_cnt`. -/
theorem C20_counter_invariant_keeps_writes_in_bounds (c : chunk_t) :
    (∀ n s, n ≤ CHUNK_SIZE * CHUNK_HEIGHT * CHUNK_SIZE →
      for_loop (voxel_body c.blocks) n (state_of []) = .ok s →
        s.v_cnt % 4 = 0 ∧ 2 * s.i_cnt = 3 * s.v_cnt ∧
        s.vertices.size = V_MAX ∧ s.indices.size = I_MAX ∧
        (n < CHUNK_SIZE * CHUNK_HEIGHT * CHUNK_SIZE → c.blocks.types n ≠ CUBETYPE_AIR →
          ¬ ((s.v_cnt + 24) % 2 ^ 32 ≥ V_MAX) →
          ∀ m s2, m < 6 →
            for_loop (face_body c.blocks (voxel_x n) (voxel_y n) (voxel_z n) (c.blocks.types n))
              m s = .ok s2 →
            s2.v_cnt % 4 = 0 ∧ 2 * s2.i_cnt = 3 * s2.v_cnt ∧
              s2.v_cnt + 3 < s2.vertices.size ∧ s2.vertices.size = V_MAX ∧
              s2.i_cnt + 5 < s2.indices.size ∧ s2.indices.size = I_MAX)) ∧
    (∀ c1, chunk_generate_mesh c = .ok c1 →
      c1.mesh.v_cnt % 4 = 0 ∧ 2 * c1.mesh.i_cnt = 3 * c1.mesh.v_cnt ∧
        ∀ q, q < c1.mesh.i_cnt → ∃ r, index_slot c1.mesh q = some r ∧ r < c1.mesh.v_cnt) := by
  refine ⟨?_, ?_⟩
  · intro n s hn h
    obtain ⟨hs, hlt⟩ := voxel_loop_state c.blocks n s hn h
    subst hs
    refine ⟨by rw [state_of_v_cnt]; omega, by rw [state_of_v_cnt, state_of_i_cnt]; omega,
      rfl, rfl, ?_⟩
    intro hn2 _ hroom m s2 hm h2
    rw [state_of_v_cnt] at hroom
    have hmod : (4 * (visible_upto c.blocks n).length + 24) % 2 ^ 32 =
        4 * (visible_upto c.blocks n).length + 24 := by
      apply Nat.mod_eq_of_lt; simp only [V_MAX] at hlt; omega
    rw [hmod] at hroom
    have hs2 := face_loop_state c.blocks n _ m s2 hn2 (by omega) (by omega) h2
    subst hs2
    have hlen := faces_upto_length_le c.blocks n m
    simp only [state_of, List.length_append, V_MAX, I_MAX] at hroom hlt ⊢
    exact ⟨by omega, by omega, by omega, trivial, by omega, trivial⟩
  · intro c1 h
    obtain ⟨hc, -⟩ := generate_ok_eq c c1 h
    subst hc
    rw [mesh_result_v_cnt, mesh_result_i_cnt]
    refine ⟨by omega, by omega, ?_⟩
    intro q hq
    rw [index_slot_result c _ q hq]
    exact index_at_lt _ q hq

/-- C20 at the grid holding one STONE voxel at `(0, 0, 0)`: the 36 stored indices are below
the vertex count 24. -/
theorem C20_witness_single_stone :
    ∃ c1, chunk_generate_mesh (chunk_of (single_grid 0 0 0 CUBETYPE_STONE)) = .ok c1 ∧
      c1.mesh.v_cnt = 24 ∧ c1.mesh.i_cnt = 36 ∧
      ∀ q, q < 36 → ∃ r, index_slot c1.mesh q = some r ∧ r < 24 := by
  obtain ⟨hok, hlen⟩ := single_voxel_ok (chunk_of (single_grid 0 0 0 CUBETYPE_STONE)) 0 0 0
    CUBETYPE_STONE (by decide) (by decide) (by decide) (by decide)
    (by unfold valid_type; decide) (fun i _ => rfl)
  have h := (C20_counter_invariant_keeps_writes_in_bounds _).2 _ hok
  have hv : (mesh_result (chunk_of (single_grid 0 0 0 CUBETYPE_STONE))
      (visible (chunk_of (single_grid 0 0 0 CUBETYPE_STONE)).blocks)).mesh.v_cnt = 24 := by
    rw [mesh_result_v_cnt, hlen]
  have hi : (mesh_result (chunk_of (single_grid 0 0 0 CUBETYPE_STONE))
      (visible (chunk_of (single_grid 0 0 0 CUBETYPE_STONE)).blocks)).mesh.i_cnt = 36 := by
    rw [mesh_result_i_cnt, hlen]
  rw [hv, hi] at h
  exact ⟨_, hok, hv, hi, h.2.2⟩

end Geometry
